import Mathlib

/-!
BasicPatDistrib: a shallow embedding of the per-event analysis.

Source: `src/BasicPatDistrib/plugins/BasicPatDistrib.cc`.

Conventions of the embedding.

* C++ `double`/`float` values read from the event are exact rationals (`ℚ`);
  NaN inputs are not modelled. Rounding to single precision (`roundF32`,
  `toFloat`) is modelled where a `float` result is compared with a working
  point or a configuration value: the `float` sum of the two sub-discriminants
  (line 798) and the local `float photonEt` (line 901). The other `float`
  locals and members hold their values at the precision of their sources. A
  quotient whose divisor can be zero and the result of `std::sqrt` have type
  `Dbl`, which adds the two infinities and NaN; the one input the code tests
  with `std::isfinite`, the ECAL energy of an electron, is an `Option ℚ`.
* `size_t` counters are natural numbers (they are bounded by the sizes of the
  collections); the two conversions of a `size_t` to `int` are `toInt32`.
* `TLorentzVector` values are terms built from `SetPtEtaPhiM` and `operator+`;
  the numeric functions of ROOT, CMSSW and libm that read them (`M()`, `Pt()`,
  `DeltaR`, `VectorUtil::DeltaR`, `cosh`, `sqrt`, `atan`) are not code of this
  repository and are taken as the parameter `Ext`.
* The histograms, profiles and the tree form the sink: `analyze` returns the
  list of observations it pushes, in program order, together with the new values
  of the member variables (`State`).
* `std::vector::at` out of range throws; a throwing run is `none`.
-/

namespace BasicPatDistrib

/-! ## Numbers -/

/-- A `double` that may be non-finite. -/
inductive Dbl where
  | fin (q : ℚ)
  | pinf
  | ninf
  | nan
deriving DecidableEq, Repr

/-- The comparison `a < c` of a `double` with a finite value (false on NaN). -/
def Dbl.lt (a : Dbl) (c : ℚ) : Bool :=
  match a with
  | .fin q => decide (q < c)
  | .ninf => true
  | _ => false

/-- The comparison `a > c` of a `double` with a finite value (false on NaN). -/
def Dbl.gt (a : Dbl) (c : ℚ) : Bool :=
  match a with
  | .fin q => decide (c < q)
  | .pinf => true
  | _ => false

/-- The quotient `a / b` of two finite doubles (zero divisor taken as `+0`). -/
def fdiv (a b : ℚ) : Dbl :=
  if b = 0 then (if 0 < a then .pinf else if a < 0 then .ninf else .nan)
  else .fin (a / b)

/-- The quotient `a / b` of two doubles. -/
def Dbl.div : Dbl → Dbl → Dbl
  | .nan, _ => .nan
  | _, .nan => .nan
  | .fin a, .fin b => fdiv a b
  | .fin _, .pinf => .fin 0
  | .fin _, .ninf => .fin 0
  | .pinf, .fin b => if 0 ≤ b then .pinf else .ninf
  | .ninf, .fin b => if 0 ≤ b then .ninf else .pinf
  | .pinf, .pinf => .nan
  | .pinf, .ninf => .nan
  | .ninf, .pinf => .nan
  | .ninf, .ninf => .nan

/-- The integer nearest to `y`, a tie going to the even one. -/
def roundHalfEven (y : ℚ) : ℤ :=
  if y - ⌊y⌋ < 1 / 2 then ⌊y⌋
  else if 1 / 2 < y - ⌊y⌋ then ⌊y⌋ + 1
  else if ⌊y⌋ % 2 = 0 then ⌊y⌋ else ⌊y⌋ + 1

/-- The rounding of a value to single precision (`float`: IEEE 754 binary32,
round to nearest, ties to even), before the overflow test: 24 significant bits
at the binary exponent of `x`, the exponent being at least -126 (below it the
spacing is that of the subnormal numbers, 2^-149). -/
def roundF32 (x : ℚ) : ℚ :=
  let e := max (Int.log 2 |x|) (-126)
  (roundHalfEven (x / 2 ^ (e - 23)) : ℚ) * 2 ^ (e - 23)

/-- The conversion of a finite `double` to `float`: the rounded value, or an
infinity when the rounded value is beyond the largest `float`. -/
def toFloat (x : ℚ) : Dbl :=
  if 2 ^ 128 ≤ |roundF32 x| then (if 0 < x then .pinf else .ninf) else .fin (roundF32 x)

/-- The conversion of a `size_t` to a 32-bit `int`. -/
def toInt32 (n : Nat) : Int :=
  if n % 2 ^ 32 < 2 ^ 31 then ((n % 2 ^ 32 : Nat) : Int) else ((n % 2 ^ 32 : Nat) : Int) - 2 ^ 32

/-! ## Data model -/

/-- The kinematics of a candidate: `pt()`, `eta()`, `phi()`, `mass()`. -/
structure P4 where
  pt : ℚ
  eta : ℚ
  phi : ℚ
  mass : ℚ
deriving DecidableEq, Repr

/-- A `TLorentzVector`, as the term that built it. -/
inductive TLorentzVector where
  | SetPtEtaPhiM (pt eta phi m : ℚ)
  | add (a b : TLorentzVector)
deriving DecidableEq, Repr

/-- The numeric library functions the analysis calls (ROOT, CMSSW, libm). -/
structure Ext where
  /-- The call `TLorentzVector::M()`. -/
  M : TLorentzVector → ℚ
  /-- The call `TLorentzVector::Pt()`. -/
  Pt : TLorentzVector → ℚ
  /-- The call `TLorentzVector::DeltaR(v)`. -/
  DeltaR : TLorentzVector → TLorentzVector → ℚ
  /-- The call `ROOT::Math::VectorUtil::DeltaR(p4a, p4b)`. -/
  VectorUtil_DeltaR : P4 → P4 → ℚ
  /-- The function `cosh`. -/
  cosh : ℚ → ℚ
  /-- The function `std::sqrt` on a non-negative argument. -/
  sqrt : ℚ → ℚ
  /-- The function `atan`. -/
  atan : ℚ → ℚ

/-- The function `std::sqrt`: NaN below zero. -/
def Ext.fsqrt (K : Ext) (x : ℚ) : Dbl :=
  if x < 0 then .nan else .fin (K.sqrt x)

/-- The class `reco::Vertex`: `isFake()`, `ndof()`. -/
structure Vertex where
  isFake : Bool
  ndof : ℚ
deriving DecidableEq, Repr

/-- The class `pat::Electron`, the accessors read by the analysis and the ID functions.
`ecalEnergy` is `none` when the stored value is not finite. -/
structure Electron where
  p4 : P4
  superCluster_eta : ℚ
  full5x5_sigmaIetaIeta : ℚ
  deltaEtaSuperClusterTrackAtVtx : ℚ
  deltaPhiSuperClusterTrackAtVtx : ℚ
  hcalOverEcal : ℚ
  sumChargedHadronPt : ℚ
  ecalEnergy : Option ℚ
  eSuperClusterOverP : ℚ
deriving DecidableEq, Repr

/-- The class `reco::MuonSegmentMatch`. -/
structure MuonSegmentMatch where
  x : ℚ
  y : ℚ
  xErr : ℚ
  yErr : ℚ
  dXdZ : ℚ
deriving DecidableEq, Repr

/-- The class `reco::MuonChamberMatch`. -/
structure MuonChamberMatch where
  detector : Int
  x : ℚ
  y : ℚ
  xErr : ℚ
  yErr : ℚ
  dXdZ : ℚ
  me0Matches : List MuonSegmentMatch
deriving DecidableEq, Repr

/-- The class `pat::Muon` / `reco::Muon`; `chamberMatches` is `matches()`. -/
structure Muon where
  p4 : P4
  isME0Muon : Bool
  chamberMatches : List MuonChamberMatch
deriving DecidableEq, Repr

/-- The class `pat::Jet`: kinematics, the three b-discriminators read, the matched
generator parton's `pdgId()` when `genParton()` is non-null, and the results of
the two `PFJetIDSelectionFunctor`s on this jet. -/
structure Jet where
  p4 : P4
  probb : ℚ
  probbb : ℚ
  csvv2 : ℚ
  genParton : Option Int
  jetIDLoose : Bool
  jetIDTight : Bool
deriving DecidableEq, Repr

/-- The class `pat::MET`. -/
structure MET where
  pt : ℚ
  phi : ℚ
deriving DecidableEq, Repr

/-- The class `pat::PackedGenParticle`. -/
structure PackedGenParticle where
  pdgId : Int
  p4 : P4
deriving DecidableEq, Repr

/-- The class `reco::GenParticle`; `mothers` lists the `pdgId()` of each mother. -/
structure GenParticle where
  pdgId : Int
  p4 : P4
  mothers : List Int
deriving DecidableEq, Repr

/-- The class `reco::GenJet` with the kinematics of `getJetConstituentsQuick()`. -/
structure GenJet where
  p4 : P4
  constituents : List P4
deriving DecidableEq, Repr

/-- The class `pat::Photon`. -/
structure Photon where
  et : ℚ
  pt : ℚ
  eta : ℚ
  phi : ℚ
  superCluster_energy : ℚ
  superCluster_eta : ℚ
  superCluster_phi : ℚ
  neutralHadronIso : ℚ
  chargedHadronIso : ℚ
  photonIso : ℚ
  puppiNeutralHadronIso : ℚ
  puppiChargedHadronIso : ℚ
  puppiPhotonIso : ℚ
  hadronicOverEm : ℚ
  sigmaIetaIeta : ℚ
  r9 : ℚ
deriving DecidableEq, Repr

/-- The collections `analyze` reads from `edm::Event`. -/
structure Event where
  vertices : List Vertex
  elecs : List Electron
  muons : List Muon
  mets : List MET
  jets : List Jet
  genParts : List PackedGenParticle
  allGenParts : List GenParticle
  genJets : List GenJet
  photons : List Photon
deriving DecidableEq, Repr

/-- The configuration parameters read by the constructor. -/
structure Config where
  useDeepCSV_ : Bool
  minPhotonEt_ : ℚ
  minPhotonAbsEta_ : ℚ
  maxPhotonAbsEta_ : ℚ
  minPhotonR9_ : ℚ
  maxPhotonHoverE_ : ℚ
  maxIetaIeta_ : ℚ
  createPhotonTTree_ : Bool
deriving DecidableEq, Repr

/-- The histograms and profiles booked by the constructor. -/
inductive Hist where
  | h_genJets_n_ | h_genJets_pt_ | h_genJets_phi_ | h_genJets_eta_
  | h_allVertices_n_ | h_goodVertices_n_
  | h_allJets_n_ | h_allJets_pt_ | h_allJets_phi_ | h_allJets_eta_ | h_allJets_csv_
  | h_allJets_id_
  | h_goodJets_n_ | h_goodJets_nb_ | h_goodJets_pt_ | h_goodJets_phi_ | h_goodJets_eta_
  | h_goodJets_csv_
  | h_goodLJets_n_ | h_goodLJets_nb_ | h_goodLJets_pt_ | h_goodLJets_phi_
  | h_goodLJets_eta_ | h_goodLJets_csv_
  | h_goodBJets_n_ | h_goodBJets_nb_ | h_goodBJets_pt_ | h_goodBJets_phi_
  | h_goodBJets_eta_ | h_goodBJets_csv_
  | h_goodrecoJetBJets_Higgs_n_ | h_recobjetHiggsMass_
  | h_goodMET_pt_ | h_goodMET_phi_
  | h_photonPt_ | h_photonEta_ | h_hadoverem_ | h_photonIetaIeta_ | h_r9_
  | h_phoIsoNeuHad_ | h_phoIsoCharHad_ | h_photonIso_
  | h_puppiPhoIsoNeuHad_ | h_puppiPhoIsoCharHad_ | h_puppiPhotonIso_
  | h_recoPhotonHiggsMass | h_recoPhotonHiggsMass_raw
  | h_recoPhotonHiggsMass_HM | h_recoPhotonHiggsMass_HM_raw
  | h_recoPhotonHiggsMass_LM | h_recoPhotonHiggsMass_LM_raw
  | h_genPhotonHiggsMass | h_genHHMass
  | h_nPassingPho_ | h_nPho_
  | h_bjetHiggsMass_ | h_patGenbjetHiggsMass_
  | h_goodBJets_Higgs_n_ | h_goodPatBJets_Higgs_n_
  | h_PhotonPtr | h_PhotonPtr_raw
deriving DecidableEq, Repr

/-- The branches of `tree_genPhotonAll_` at a `Fill()`. -/
structure GenPhotonRow where
  genPhoton1_pt : ℚ
  genPhoton1_eta : ℚ
  genPhoton1_phi : ℚ
  genPhoton2_pt : ℚ
  genPhoton2_eta : ℚ
  genPhoton2_phi : ℚ
  nGenPhotons : Nat
  nGenB : Nat
  genPhotonDble_mass : ℚ
deriving DecidableEq, Repr

/-- One observation pushed to the sink. -/
inductive Obs where
  /-- The call `TH1::Fill(x)`. -/
  | fill (h : Hist) (x : ℚ)
  /-- The call `TProfile::Fill(x, y)`. -/
  | profile (h : Hist) (x : ℚ) (y : Dbl)
  /-- The call `tree_genPhotonAll_->Fill()`. -/
  | tree (row : GenPhotonRow)
deriving DecidableEq, Repr

/-- The member variables that `analyze` reads or writes. -/
structure State where
  genPhoton1 : TLorentzVector
  genPhoton2 : TLorentzVector
  genHiggs1 : TLorentzVector
  recoPhoton1 : TLorentzVector
  recoPhoton2 : TLorentzVector
  recoPhoton1_raw : TLorentzVector
  recoPhoton2_raw : TLorentzVector
  recoPhoton : TLorentzVector
  recoHiggs : TLorentzVector
  recoHiggs_raw : TLorentzVector
  genB1 : TLorentzVector
  genB2 : TLorentzVector
  genHiggs2 : TLorentzVector
  genHH : TLorentzVector
  patGenB1 : TLorentzVector
  patGenB2 : TLorentzVector
  patGenHiggs2 : TLorentzVector
  genPhoton1_pt : ℚ
  genPhoton1_eta : ℚ
  genPhoton1_phi : ℚ
  genPhoton2_pt : ℚ
  genPhoton2_eta : ℚ
  genPhoton2_phi : ℚ
  genPhotonDble_mass : ℚ
  genBJetDble_Higgs_mass : ℚ
  patGenBJetDble_Higgs_mass : ℚ
  nGenPhotons : Nat
  nRecoPhotons : Nat
  nGenB : Nat
  nPatGenB : Nat
  nrecoJetGenB : Nat
deriving DecidableEq, Repr

/-! ## Electron identification (`isLooseElec`, `isMediumElec`, `isTightElec`) -/

/-- The local `Ooemoop` of the three electron-ID functions. -/
def Ooemoop (patEl : Electron) : ℚ :=
  match patEl.ecalEnergy with
  | some e => if e = 0 then 0 else |1 / e - patEl.eSuperClusterOverP / e|
  | none => 998

/-- The method `isLooseElec`; `hasMatchedConversion` is
`ConversionTools::hasMatchedConversion`, not code of this repository. -/
def isLooseElec {C B : Type} (hasMatchedConversion : Electron → C → B → Bool)
    (patEl : Electron) (conversions : C) (beamspot : B) : Bool :=
  if |patEl.superCluster_eta| > 1.479 ∧ |patEl.superCluster_eta| < 1.556 then false
  else if patEl.full5x5_sigmaIetaIeta > 0.02992 then false
  else if |patEl.deltaEtaSuperClusterTrackAtVtx| > 0.004119 then false
  else if |patEl.deltaPhiSuperClusterTrackAtVtx| > 0.05176 then false
  else if patEl.hcalOverEcal > 6.741 then false
  else if (fdiv patEl.sumChargedHadronPt patEl.p4.pt).gt 2.5 then false
  else if Ooemoop patEl > 73.76 then false
  else if hasMatchedConversion patEl conversions beamspot then false
  else true

/-- The method `isMediumElec`. -/
def isMediumElec {C B : Type} (hasMatchedConversion : Electron → C → B → Bool)
    (patEl : Electron) (conversions : C) (beamspot : B) : Bool :=
  if |patEl.superCluster_eta| > 1.479 ∧ |patEl.superCluster_eta| < 1.556 then false
  else if patEl.full5x5_sigmaIetaIeta > 0.01609 then false
  else if |patEl.deltaEtaSuperClusterTrackAtVtx| > 0.001766 then false
  else if |patEl.deltaPhiSuperClusterTrackAtVtx| > 0.03130 then false
  else if patEl.hcalOverEcal > 7.371 then false
  else if (fdiv patEl.sumChargedHadronPt patEl.p4.pt).gt 1.325 then false
  else if Ooemoop patEl > 22.6 then false
  else if hasMatchedConversion patEl conversions beamspot then false
  else true

/-- The method `isTightElec`. -/
def isTightElec {C B : Type} (hasMatchedConversion : Electron → C → B → Bool)
    (patEl : Electron) (conversions : C) (beamspot : B) : Bool :=
  if |patEl.superCluster_eta| > 1.479 ∧ |patEl.superCluster_eta| < 1.556 then false
  else if patEl.full5x5_sigmaIetaIeta > 0.01614 then false
  else if |patEl.deltaEtaSuperClusterTrackAtVtx| > 0.001322 then false
  else if |patEl.deltaPhiSuperClusterTrackAtVtx| > 0.06129 then false
  else if patEl.hcalOverEcal > 4.492 then false
  else if (fdiv patEl.sumChargedHadronPt patEl.p4.pt).gt 1.255 then false
  else if Ooemoop patEl > 18.26 then false
  else if hasMatchedConversion patEl conversions beamspot then false
  else true

/-! ## ME0 muon qualifier (`isME0MuonSel`) -/

/-- The five locals of `isME0MuonSel` that the segment scan overwrites. -/
structure ME0Vars where
  deltaX : ℚ
  deltaY : ℚ
  pullX : Dbl
  pullY : Dbl
  deltaPhi : ℚ
deriving DecidableEq, Repr

/-- The body of the inner loop over `chamber->me0Matches`. -/
def me0SegmentStep (K : Ext) (chamber : MuonChamberMatch) (v : ME0Vars)
    (segment : MuonSegmentMatch) : ME0Vars :=
  if chamber.detector = 5 then
    { deltaX := |chamber.x - segment.x|
      deltaY := |chamber.y - segment.y|
      pullX := (Dbl.fin |chamber.x - segment.x|).div (K.fsqrt (chamber.xErr + segment.xErr))
      pullY := (Dbl.fin |chamber.y - segment.y|).div (K.fsqrt (chamber.yErr + segment.yErr))
      deltaPhi := |K.atan chamber.dXdZ - K.atan segment.dXdZ| }
  else v

/-- The body of the outer loop over `muon.matches()`. -/
def me0ChamberStep (K : Ext) (v : ME0Vars) (chamber : MuonChamberMatch) : ME0Vars :=
  chamber.me0Matches.foldl (me0SegmentStep K chamber) v

/-- The method `isME0MuonSel`. -/
def isME0MuonSel (K : Ext) (muon : Muon) (pullXCut dXCut pullYCut dYCut dPhi : ℚ) : Bool :=
  if muon.isME0Muon then
    let v := muon.chamberMatches.foldl (me0ChamberStep K)
      { deltaX := 999, deltaY := 999, pullX := .fin 999, pullY := .fin 999, deltaPhi := 999 }
    let X_MatchFound := v.pullX.lt pullXCut || decide (v.deltaX < dXCut)
    let Y_MatchFound := v.pullY.lt pullYCut || decide (v.deltaY < dYCut)
    let Dir_MatchFound := decide (v.deltaPhi < dPhi)
    X_MatchFound && Y_MatchFound && Dir_MatchFound
  else false

/-! ## `analyze`: reset and vertices (lines 577-608) -/

/-- The zero vector `SetPtEtaPhiM(0,0,0,0)`. -/
def zeroV : TLorentzVector := .SetPtEtaPhiM 0 0 0 0

/-- The resets at the top of `analyze` (lines 577-595). -/
def resetTruth (s : State) : State :=
  { s with
    genPhoton1 := zeroV, genPhoton2 := zeroV
    genB1 := zeroV, genB2 := zeroV
    genHiggs1 := zeroV, genHiggs2 := zeroV
    genHH := zeroV
    genPhoton1_pt := 0, genPhoton1_eta := 0, genPhoton1_phi := 0
    genPhoton2_pt := 0, genPhoton2_eta := 0, genPhoton2_phi := 0
    genPhotonDble_mass := 0
    genBJetDble_Higgs_mass := 0
    patGenBJetDble_Higgs_mass := 0
    nGenPhotons := 0, nGenB := 0
    nRecoPhotons := 0 }

/-- The vertex loop (lines 598-605): from index `i`, with the current `prVtx`
and `nVtx`. -/
def vertexLoop : List Vertex → Nat → Int → Nat → Int × Nat
  | [], _, prVtx, nVtx => (prVtx, nVtx)
  | v :: rest, i, prVtx, nVtx =>
    if v.isFake then vertexLoop rest (i + 1) prVtx nVtx
    else if v.ndof ≤ 4 then vertexLoop rest (i + 1) prVtx nVtx
    else vertexLoop rest (i + 1) (if prVtx < 0 then toInt32 i else prVtx) (nVtx + 1)

/-! ## `analyze`: generator jets (lines 611-632) -/

/-- The inner loop over `genParts` with its `break`: some generator electron or
muon coincides with the jet. -/
def genJetOverlaps (K : Ext) (genParts : List PackedGenParticle) (jet : GenJet) : Bool :=
  genParts.any fun p =>
    if |p.pdgId| ≠ 11 ∧ |p.pdgId| ≠ 13 then false
    else decide (|jet.p4.pt - p.p4.pt| < 0.01 * p.p4.pt ∧ K.VectorUtil_DeltaR p.p4 jet.p4 < 0.01)

/-- The locals of the generator-jet loop and the fills made so far. -/
structure GenJetAcc where
  jGenJets : List Nat
  nGenJets : Nat
  obs : List Obs
deriving DecidableEq, Repr

/-- The body of the generator-jet loop for the jet at index `i`. -/
def genJetStep (K : Ext) (genParts : List PackedGenParticle) (acc : GenJetAcc) (i : Nat)
    (jet : GenJet) : GenJetAcc :=
  if genJetOverlaps K genParts jet then acc
  else
    let acc1 := { acc with jGenJets := acc.jGenJets ++ [i] }
    if jet.p4.pt < 30 then acc1
    else if |jet.p4.eta| > 4.7 then acc1
    else
      { acc1 with
        obs := acc1.obs ++ [Obs.fill .h_genJets_pt_ jet.p4.pt, Obs.fill .h_genJets_phi_ jet.p4.phi,
          Obs.fill .h_genJets_eta_ jet.p4.eta]
        nGenJets := acc1.nGenJets + 1 }

/-- The generator-jet loop from index `i`. -/
def genJetLoop (K : Ext) (genParts : List PackedGenParticle) :
    List GenJet → Nat → GenJetAcc → GenJetAcc
  | [], _, acc => acc
  | jet :: rest, i, acc => genJetLoop K genParts rest (i + 1) (genJetStep K genParts acc i jet)

/-! ## `analyze`: truth photons and b quarks (lines 635-717) -/

/-- The body of the loop over `allGenParts` (lines 643-705): the new member
values and the fills of this iteration. -/
def genTruthStep (K : Ext) (useDeepCSV_ : Bool) (s : State) (p : GenParticle) :
    State × List Obs :=
  if p.mothers.length = 1 then
    if p.mothers.head? ≠ some 25 then (s, [])
    else if p.pdgId = 22 then
      let s1 := { s with nGenPhotons := s.nGenPhotons + 1 }
      if s1.nGenPhotons = 1 then
        ({ s1 with
            genPhoton1_pt := p.p4.pt, genPhoton1_eta := p.p4.eta, genPhoton1_phi := p.p4.phi
            genPhoton1 := .SetPtEtaPhiM p.p4.pt p.p4.eta p.p4.phi 0 }, [])
      else if s1.nGenPhotons = 2 then
        let genPhoton2 := TLorentzVector.SetPtEtaPhiM p.p4.pt p.p4.eta p.p4.phi 0
        let genHiggs1 := TLorentzVector.add s1.genPhoton1 genPhoton2
        ({ s1 with
            genPhoton2_pt := p.p4.pt, genPhoton2_eta := p.p4.eta, genPhoton2_phi := p.p4.phi
            genPhoton2 := genPhoton2
            genHiggs1 := genHiggs1
            genPhotonDble_mass := K.M genHiggs1 },
          [Obs.fill .h_genPhotonHiggsMass (K.M genHiggs1)])
      else (s1, [])
    else if |p.pdgId| = 5 then
      let s1 := { s with nGenB := s.nGenB + 1 }
      if s1.nGenB = 1 then
        if useDeepCSV_ then
          ({ s1 with genB1 := .SetPtEtaPhiM p.p4.pt p.p4.eta p.p4.phi p.p4.mass }, [])
        else (s1, [])
      else if s1.nGenB = 2 then
        let genB2 := TLorentzVector.SetPtEtaPhiM p.p4.pt p.p4.eta p.p4.phi p.p4.mass
        let genHiggs2 := TLorentzVector.add s1.genB1 genB2
        ({ s1 with
            genB2 := genB2
            genHiggs2 := genHiggs2
            genBJetDble_Higgs_mass := K.M genHiggs2 },
          [Obs.fill .h_bjetHiggsMass_ (K.M genHiggs2)])
      else (s1, [])
    else (s, [])
  else (s, [])

/-- The loop over `allGenParts` (lines 635-707). -/
def genTruthLoop (K : Ext) (useDeepCSV_ : Bool) : List GenParticle → State → State × List Obs
  | [], s => (s, [])
  | p :: rest, s =>
    let r := genTruthStep K useDeepCSV_ s p
    let r2 := genTruthLoop K useDeepCSV_ rest r.1
    (r2.1, r.2 ++ r2.2)

/-- The branches written by `tree_genPhotonAll_->Fill()`. -/
def genPhotonRow (s : State) : GenPhotonRow :=
  { genPhoton1_pt := s.genPhoton1_pt, genPhoton1_eta := s.genPhoton1_eta
    genPhoton1_phi := s.genPhoton1_phi
    genPhoton2_pt := s.genPhoton2_pt, genPhoton2_eta := s.genPhoton2_eta
    genPhoton2_phi := s.genPhoton2_phi
    nGenPhotons := s.nGenPhotons, nGenB := s.nGenB
    genPhotonDble_mass := s.genPhotonDble_mass }

/-! ## `analyze`: generator-lepton isolation (lines 720-769) -/

/-- The body of the loop over the constituents of one generator jet
(lines 728-732). -/
def genIsoConstStep (K : Ext) (lep : PackedGenParticle) (genIso : ℚ) (c : P4) : ℚ :=
  let deltaR := K.VectorUtil_DeltaR lep.p4 c
  if deltaR < 0.01 then genIso
  else if |lep.pdgId| = 13 ∧ deltaR > 0.4 then genIso
  else if |lep.pdgId| = 11 ∧ deltaR > 0.3 then genIso
  else genIso + c.pt

/-- The loop over `jGenJets` (lines 724-734); `genJets->at(...)` throws when out of
range. -/
def genIsoLoop (K : Ext) (genJets : List GenJet) (lep : PackedGenParticle) :
    List Nat → ℚ → Option ℚ
  | [], genIso => some genIso
  | j :: rest, genIso =>
    match genJets[j]? with
    | none => none
    | some jet =>
      if K.VectorUtil_DeltaR lep.p4 jet.p4 > 0.7 then genIsoLoop K genJets lep rest genIso
      else genIsoLoop K genJets lep rest (jet.constituents.foldl (genIsoConstStep K lep) genIso)

/-- The `abs(pdgId) == 5` branch (lines 741-765) for the particle at index `i`. -/
def patGenBBranch (K : Ext) (useDeepCSV_ : Bool) (genJets : List GenJet) (s : State) (i : Nat) :
    Option (State × List Obs) :=
  let s1 := { s with nPatGenB := (s.nPatGenB + 1) % 2 ^ 64 }
  if s1.nPatGenB = 1 then
    if useDeepCSV_ then
      match genJets[i]? with
      | none => none
      | some jet =>
        some ({ s1 with patGenB1 := .SetPtEtaPhiM jet.p4.pt jet.p4.eta jet.p4.phi jet.p4.mass }, [])
    else some (s1, [])
  else if s1.nGenB = 2 then
    match genJets[i]? with
    | none => none
    | some jet =>
      let patGenB2 := TLorentzVector.SetPtEtaPhiM jet.p4.pt jet.p4.eta jet.p4.phi jet.p4.mass
      let patGenHiggs2 := TLorentzVector.add s1.patGenB1 patGenB2
      some ({ s1 with
              patGenB2 := patGenB2
              patGenHiggs2 := patGenHiggs2
              patGenBJetDble_Higgs_mass := K.M patGenHiggs2 },
            [Obs.fill .h_patGenbjetHiggsMass_ (K.M patGenHiggs2)])
  else some (s1, [])

/-- The body of the loop over `genParts` (lines 721-765) for the particle at
index `i`. -/
def genLeptonStep (K : Ext) (useDeepCSV_ : Bool) (genJets : List GenJet) (jGenJets : List Nat)
    (s : State) (i : Nat) (p : PackedGenParticle) : Option (State × List Obs) :=
  if |p.pdgId| ≠ 11 ∧ |p.pdgId| ≠ 13 then some (s, [])
  else if |p.p4.eta| > 2.8 then some (s, [])
  else
    match genIsoLoop K genJets p jGenJets 0 with
    | none => none
    | some genIso =>
      if (fdiv genIso p.p4.pt).gt 0.15 then some (s, [])
      else if |p.pdgId| = 11 then some (s, [])
      else if |p.pdgId| = 5 then patGenBBranch K useDeepCSV_ genJets s i
      else some (s, [])

/-- The loop over `genParts` (lines 720-767) from index `i`. -/
def genLeptonLoop (K : Ext) (useDeepCSV_ : Bool) (genJets : List GenJet) (jGenJets : List Nat) :
    List PackedGenParticle → Nat → State → Option (State × List Obs)
  | [], _, s => some (s, [])
  | p :: rest, i, s =>
    match genLeptonStep K useDeepCSV_ genJets jGenJets s i p with
    | none => none
    | some r =>
      match genLeptonLoop K useDeepCSV_ genJets jGenJets rest (i + 1) r.1 with
      | none => none
      | some r2 => some (r2.1, r.2 ++ r2.2)

/-! ## `analyze`: jets (lines 773-877) -/

/-- The condition of lines 782 and 789: the jet and the lepton coincide. -/
def overlapsLepton (K : Ext) (jet lep : P4) : Bool :=
  decide (|jet.pt - lep.pt| < 0.01 * lep.pt ∧ K.VectorUtil_DeltaR lep jet < 0.01)

/-- The six counters of the jet loop and the fills made so far. -/
structure JetAcc where
  nGoodJets : Nat
  nbGoodJets : Nat
  nGoodLightJets : Nat
  nbGoodLightJets : Nat
  nGoodBtaggedJets : Nat
  nbGoodBtaggedJets : Nat
  obs : List Obs
deriving DecidableEq, Repr

/-- The local `btagDisc` (lines 796-801). Under scheme A the two `float`
results of `bDiscriminator` are added in `float` arithmetic (line 798): the
exact sum rounded to single precision (tagger outputs are far from the
overflow threshold). -/
def btagDisc (useDeepCSV_ : Bool) (jet : Jet) : ℚ :=
  if useDeepCSV_ then roundF32 (jet.probb + jet.probbb) else jet.csvv2

/-- The test `genParton() && fabs(genParton()->pdgId()) == 5`. -/
def isTrueB (jet : Jet) : Bool :=
  match jet.genParton with
  | some pdgId => decide (|pdgId| = 5)
  | none => false

/-- The body of the jet loop (lines 780-840). -/
def jetStep (K : Ext) (useDeepCSV_ : Bool) (elecs : List Electron) (muons : List Muon)
    (acc : JetAcc) (jet : Jet) : JetAcc :=
  if elecs.any (fun e => overlapsLepton K jet.p4 e.p4) then acc
  else if muons.any (fun m => overlapsLepton K jet.p4 m.p4) then acc
  else
    let acc1 := { acc with
      obs := acc.obs ++ [Obs.fill .h_allJets_pt_ jet.p4.pt, Obs.fill .h_allJets_phi_ jet.p4.phi,
        Obs.fill .h_allJets_eta_ jet.p4.eta, Obs.fill .h_allJets_csv_ (btagDisc useDeepCSV_ jet),
        Obs.fill .h_allJets_id_ 0]
        ++ (if jet.jetIDLoose then [Obs.fill .h_allJets_id_ 1] else [])
        ++ (if jet.jetIDTight then [Obs.fill .h_allJets_id_ 2] else []) }
    if jet.p4.pt < 30 then acc1
    else if |jet.p4.eta| > 4.7 then acc1
    else if !jet.jetIDLoose then acc1
    else
      let acc2 := { acc1 with
        obs := acc1.obs ++ [Obs.fill .h_goodJets_pt_ jet.p4.pt, Obs.fill .h_goodJets_phi_ jet.p4.phi,
          Obs.fill .h_goodJets_eta_ jet.p4.eta, Obs.fill .h_goodJets_csv_ (btagDisc useDeepCSV_ jet)]
        nGoodJets := acc1.nGoodJets + 1
        nbGoodJets := if isTrueB jet then acc1.nbGoodJets + 1 else acc1.nbGoodJets }
      if (useDeepCSV_ ∧ btagDisc useDeepCSV_ jet > 0.6324)
          ∨ (¬ useDeepCSV_ ∧ btagDisc useDeepCSV_ jet > 0.8484) then
        { acc2 with
          obs := acc2.obs ++ [Obs.fill .h_goodBJets_pt_ jet.p4.pt, Obs.fill .h_goodBJets_phi_ jet.p4.phi,
            Obs.fill .h_goodBJets_eta_ jet.p4.eta,
            Obs.fill .h_goodBJets_csv_ (btagDisc useDeepCSV_ jet)]
          nGoodBtaggedJets := acc2.nGoodBtaggedJets + 1
          nbGoodBtaggedJets :=
            if isTrueB jet then acc2.nbGoodBtaggedJets + 1 else acc2.nbGoodBtaggedJets }
      else
        { acc2 with
          obs := acc2.obs ++ [Obs.fill .h_goodLJets_pt_ jet.p4.pt, Obs.fill .h_goodLJets_phi_ jet.p4.phi,
            Obs.fill .h_goodLJets_eta_ jet.p4.eta,
            Obs.fill .h_goodLJets_csv_ (btagDisc useDeepCSV_ jet)]
          nGoodLightJets := acc2.nGoodLightJets + 1
          nbGoodLightJets :=
            if isTrueB jet then acc2.nbGoodLightJets + 1 else acc2.nbGoodLightJets }

/-- The counters at line 773-778, before the first jet. -/
def jetAcc0 : JetAcc :=
  { nGoodJets := 0, nbGoodJets := 0, nGoodLightJets := 0, nbGoodLightJets := 0
    nGoodBtaggedJets := 0, nbGoodBtaggedJets := 0, obs := [] }

/-- The jet loop (lines 779-869). -/
def jetLoop (K : Ext) (useDeepCSV_ : Bool) (elecs : List Electron) (muons : List Muon)
    (jets : List Jet) (acc : JetAcc) : JetAcc :=
  jets.foldl (jetStep K useDeepCSV_ elecs muons) acc

/-- The fills after the jet loop (lines 870-877). -/
def jetSummary (nrecoJetGenB : Nat) (nJets : Nat) (acc : JetAcc) : List Obs :=
  [Obs.fill .h_goodrecoJetBJets_Higgs_n_ nrecoJetGenB,
   Obs.fill .h_goodLJets_n_ acc.nGoodLightJets,
   Obs.fill .h_goodLJets_nb_ acc.nbGoodLightJets,
   Obs.fill .h_goodBJets_n_ acc.nGoodBtaggedJets,
   Obs.fill .h_goodBJets_nb_ acc.nbGoodBtaggedJets,
   Obs.fill .h_goodJets_n_ acc.nGoodJets,
   Obs.fill .h_goodJets_nb_ acc.nbGoodJets,
   Obs.fill .h_allJets_n_ nJets]

/-- The MET fills (lines 880-883). -/
def metObs (mets : List MET) : List Obs :=
  match mets with
  | [] => []
  | met :: _ => [Obs.fill .h_goodMET_pt_ met.pt, Obs.fill .h_goodMET_phi_ met.phi]

/-! ## `analyze`: photons (lines 886-1131) -/

/-- The members and locals the photon loop writes, and the fills made so far. -/
structure PhotonAcc where
  s : State
  Rpt1 : Dbl
  Rpt2 : Dbl
  Rpt1_raw : Dbl
  Rpt2_raw : Dbl
  obs : List Obs
deriving DecidableEq, Repr

/-- The fills made for a photon matched to a truth photon (lines 973-984). -/
def matchedObs (currentPhoton : Photon) : List Obs :=
  [Obs.fill .h_hadoverem_ currentPhoton.hadronicOverEm,
   Obs.fill .h_photonIetaIeta_ currentPhoton.sigmaIetaIeta,
   Obs.fill .h_phoIsoNeuHad_ currentPhoton.neutralHadronIso,
   Obs.fill .h_phoIsoCharHad_ currentPhoton.chargedHadronIso,
   Obs.fill .h_photonIso_ currentPhoton.photonIso,
   Obs.fill .h_puppiPhoIsoNeuHad_ currentPhoton.puppiNeutralHadronIso,
   Obs.fill .h_puppiPhoIsoCharHad_ currentPhoton.puppiChargedHadronIso,
   Obs.fill .h_puppiPhotonIso_ currentPhoton.puppiPhotonIso,
   Obs.fill .h_photonPt_ currentPhoton.pt,
   Obs.fill .h_photonEta_ currentPhoton.eta,
   Obs.fill .h_r9_ currentPhoton.r9]

/-- The local `passCuts` (lines 917-919). The first operand is the local
`float photonEt` of line 901, the value of `et()` narrowed to single precision;
`eta()` is compared as a `double`. -/
def passCuts (cfg : Config) (currentPhoton : Photon) : Bool :=
  (toFloat currentPhoton.et).gt cfg.minPhotonEt_
    && decide (|currentPhoton.eta| < cfg.maxPhotonAbsEta_)

/-- The body of the photon loop (lines 899-1022). The divisor `cosh(...)` of
`superClusterEt` is at least 1. Of the `float` locals, `photonEt` is narrowed
in `passCuts`; the others (`photonPt`, the three supercluster quantities, the
four ratios) are taken at the precision of their sources. -/
def photonStep (K : Ext) (cfg : Config) (acc : PhotonAcc) (currentPhoton : Photon) : PhotonAcc :=
  let superClusterEt := currentPhoton.superCluster_energy / K.cosh currentPhoton.superCluster_eta
  if passCuts cfg currentPhoton then
    let recoPhoton :=
      TLorentzVector.SetPtEtaPhiM currentPhoton.pt currentPhoton.eta currentPhoton.phi 0
    let rawPhoton := TLorentzVector.SetPtEtaPhiM superClusterEt currentPhoton.superCluster_eta
      currentPhoton.superCluster_phi 0
    let s0 := acc.s
    let s1 := { s0 with recoPhoton := recoPhoton }
    if K.DeltaR s1.genPhoton1 recoPhoton < 0.2 then
      { acc with
        s := { s1 with recoPhoton1 := recoPhoton, recoPhoton1_raw := rawPhoton }
        Rpt1 := fdiv (K.Pt recoPhoton) (K.Pt s1.genPhoton1)
        Rpt1_raw := fdiv (K.Pt rawPhoton) (K.Pt s1.genPhoton1)
        obs := acc.obs ++ [Obs.fill .h_nPassingPho_ 1] ++ matchedObs currentPhoton }
    else if K.DeltaR s1.genPhoton2 recoPhoton < 0.2 then
      { acc with
        s := { s1 with recoPhoton2 := recoPhoton, recoPhoton2_raw := rawPhoton }
        Rpt2 := fdiv (K.Pt recoPhoton) (K.Pt s1.genPhoton2)
        Rpt2_raw := fdiv (K.Pt rawPhoton) (K.Pt s1.genPhoton2)
        obs := acc.obs ++ [Obs.fill .h_nPassingPho_ 1] ++ matchedObs currentPhoton }
    else
      { acc with s := s1, obs := acc.obs ++ [Obs.fill .h_nPassingPho_ 1] }
  else acc

/-- The resets before the photon loop (lines 888-894). -/
def photonAcc0 (s : State) : PhotonAcc :=
  { s := { s with recoPhoton1 := zeroV, recoPhoton2 := zeroV
                  recoPhoton1_raw := zeroV, recoPhoton2_raw := zeroV }
    Rpt1 := .fin 0, Rpt2 := .fin 0, Rpt1_raw := .fin 0, Rpt2_raw := .fin 0
    obs := [] }

/-- The photon loop (lines 896-1023), `i` running below `int(photons.size())`. -/
def photonLoop (K : Ext) (cfg : Config) (photons : List Photon) (acc : PhotonAcc) : PhotonAcc :=
  (photons.take (toInt32 photons.length).toNat).foldl (photonStep K cfg) acc

/-- The fills of the mass-regime split (lines 1064-1065 and 1068-1069). -/
def regimeObs (hHM hLM : Hist) (mHH m : ℚ) : List Obs :=
  if mHH > 350 then [Obs.fill hHM m]
  else if mHH > 250 ∧ mHH < 350 then [Obs.fill hLM m]
  else []

/-- The block after the photon loop (lines 1026-1079). -/
def diphoton (K : Ext) (acc : PhotonAcc) : State × List Obs :=
  let s := acc.s
  if K.Pt s.recoPhoton1 > 0 ∧ K.Pt s.recoPhoton2 > 0 ∧ K.Pt s.genPhoton1 > 0
      ∧ K.Pt s.genPhoton2 > 0 then
    if acc.Rpt1.gt 0.01 ∧ acc.Rpt2.gt 0.01 then
      let recoHiggs := TLorentzVector.add s.recoPhoton1 s.recoPhoton2
      let recoHiggs_raw := TLorentzVector.add s.recoPhoton1_raw s.recoPhoton2_raw
      let s1 := { s with recoHiggs := recoHiggs, recoHiggs_raw := recoHiggs_raw }
      let ptr : List Obs :=
        [Obs.profile .h_PhotonPtr (K.Pt s.genPhoton1) acc.Rpt1,
         Obs.profile .h_PhotonPtr (K.Pt s.genPhoton2) acc.Rpt2,
         Obs.profile .h_PhotonPtr_raw (K.Pt s.genPhoton1) acc.Rpt1_raw,
         Obs.profile .h_PhotonPtr_raw (K.Pt s.genPhoton2) acc.Rpt2_raw]
      let mgg := K.M recoHiggs
      let mHH := K.M s.genHH
      let pT1 := if K.Pt s.recoPhoton1 < K.Pt s.recoPhoton2 then K.Pt s.recoPhoton2
        else K.Pt s.recoPhoton1
      let pT2 := if K.Pt s.recoPhoton1 < K.Pt s.recoPhoton2 then K.Pt s.recoPhoton1
        else K.Pt s.recoPhoton2
      if pT1 > 30 ∧ pT2 > 20 ∧ pT1 > mgg / 3 ∧ pT2 > mgg / 4 then
        (s1, ptr ++ [Obs.fill .h_recoPhotonHiggsMass (K.M recoHiggs)]
          ++ regimeObs .h_recoPhotonHiggsMass_HM .h_recoPhotonHiggsMass_LM mHH (K.M recoHiggs)
          ++ [Obs.fill .h_recoPhotonHiggsMass_raw (K.M recoHiggs_raw)]
          ++ regimeObs .h_recoPhotonHiggsMass_HM_raw .h_recoPhotonHiggsMass_LM_raw mHH
              (K.M recoHiggs_raw))
      else (s1, ptr)
    else (s, [])
  else (s, [])

/-! ## `analyze` -/

/-- The part of `analyze` after the generator-lepton loop (lines 769-1131), from
the members `s` left by that loop. -/
def analyzeReco (K : Ext) (cfg : Config) (s : State) (iEvent : Event) : State × List Obs :=
  let ja := jetLoop K cfg.useDeepCSV_ iEvent.elecs iEvent.muons iEvent.jets jetAcc0
  let pa := photonLoop K cfg iEvent.photons (photonAcc0 s)
  let dp := diphoton K pa
  (dp.1,
    [Obs.fill .h_goodPatBJets_Higgs_n_ s.nPatGenB]
    ++ ja.obs ++ jetSummary s.nrecoJetGenB iEvent.jets.length ja
    ++ metObs iEvent.mets
    ++ pa.obs ++ dp.2 ++ [Obs.fill .h_nPho_ 0])

/-- The part of `analyze` from the generator jets to the tree fill
(lines 610-717), from the members `s` left by the resets: the list `jGenJets`,
the new members and the fills. -/
def analyzeTruth (K : Ext) (cfg : Config) (s : State) (iEvent : Event) :
    List Nat × State × List Obs :=
  let gj := genJetLoop K iEvent.genParts iEvent.genJets 0 { jGenJets := [], nGenJets := 0, obs := [] }
  let tr := genTruthLoop K cfg.useDeepCSV_ iEvent.allGenParts s
  let s0 := tr.1
  let s1 := { s0 with genHH := TLorentzVector.add s0.genHiggs1 s0.genHiggs2 }
  (gj.jGenJets, s1,
    gj.obs ++ [Obs.fill .h_genJets_n_ gj.nGenJets]
    ++ tr.2 ++ [Obs.fill .h_genHHMass (K.M s1.genHH), Obs.fill .h_goodBJets_Higgs_n_ s1.nGenB]
    ++ (if cfg.createPhotonTTree_ then [Obs.tree (genPhotonRow s1)] else []))

/-- The method `analyze`: from the members `s` and the event, the new members
and the observations pushed, or `none` when an exception leaves the method. -/
def analyze (K : Ext) (cfg : Config) (s : State) (iEvent : Event) : Option (State × List Obs) :=
  let s0 := resetTruth s
  let vtx := vertexLoop iEvent.vertices 0 (-1) 0
  if vtx.1 < 0 then some (s0, [])
  else
    let tr := analyzeTruth K cfg s0 iEvent
    match genLeptonLoop K cfg.useDeepCSV_ iEvent.genJets tr.1 iEvent.genParts 0 tr.2.1 with
    | none => none
    | some lp =>
      let rc := analyzeReco K cfg lp.1 iEvent
      some (rc.1,
        [Obs.fill .h_goodVertices_n_ vtx.2, Obs.fill .h_allVertices_n_ iEvent.vertices.length]
        ++ tr.2.2 ++ lp.2 ++ rc.2)

/-! ## Reading the observations -/

/-- The event leaves `analyze` at line 606 (`if (prVtx < 0) return;`). -/
def aborted (iEvent : Event) : Bool :=
  decide ((vertexLoop iEvent.vertices 0 (-1) 0).1 < 0)

/-- The values pushed to the histogram `h` by `TH1::Fill`, in order. -/
def pushed (h : Hist) (obs : List Obs) : List ℚ :=
  obs.filterMap fun o =>
    match o with
    | .fill h1 x => if h1 = h then some x else none
    | _ => none

/-- The histogram or profile an observation goes to (none for the tree). -/
def histOf : Obs → Option Hist
  | .fill h _ => some h
  | .profile h _ _ => some h
  | .tree _ => none

/-- The observation goes to one of the histograms of `L`. -/
def inHists (L : List Hist) (o : Obs) : Bool :=
  match histOf o with
  | some h => L.contains h
  | none => false

/-! ## A concrete instance of the external functions

Rational stand-ins, used to run the embedding on concrete events: the angular
distance is the sum of the two coordinate differences (equal to the true
distance whenever one of the differences is zero), sums of four-vectors add
transverse momenta and masses, `cosh x` is `1 + x^2/2`, `sqrt` and `atan` are
the identity (exact at 0 and 1, resp. at 0). -/

/-- The transverse momentum of a vector term. -/
def TLorentzVector.ptQ : TLorentzVector → ℚ
  | .SetPtEtaPhiM pt _ _ _ => |pt|
  | .add a b => a.ptQ + b.ptQ

/-- The mass of a vector term. -/
def TLorentzVector.massQ : TLorentzVector → ℚ
  | .SetPtEtaPhiM _ _ _ m => m
  | .add a b => a.massQ + b.massQ

/-- The pseudorapidity of a vector term (zero for a vector without momentum). -/
def TLorentzVector.etaQ : TLorentzVector → ℚ
  | .SetPtEtaPhiM pt eta _ _ => if pt = 0 then 0 else eta
  | .add a _ => a.etaQ

/-- The azimuth of a vector term (zero for a vector without momentum). -/
def TLorentzVector.phiQ : TLorentzVector → ℚ
  | .SetPtEtaPhiM pt _ phi _ => if pt = 0 then 0 else phi
  | .add a _ => a.phiQ

/-- The concrete instance. -/
def sampleExt : Ext :=
  { M := TLorentzVector.massQ
    Pt := TLorentzVector.ptQ
    DeltaR := fun a b => |a.etaQ - b.etaQ| + |a.phiQ - b.phiQ|
    VectorUtil_DeltaR := fun a b => |a.eta - b.eta| + |a.phi - b.phi|
    cosh := fun x => 1 + x ^ 2 / 2
    sqrt := fun x => x
    atan := fun x => x }

/-- Some member values before an event. -/
def sampleState : State :=
  { genPhoton1 := zeroV, genPhoton2 := zeroV, genHiggs1 := zeroV
    recoPhoton1 := zeroV, recoPhoton2 := zeroV, recoPhoton1_raw := zeroV
    recoPhoton2_raw := zeroV, recoPhoton := zeroV, recoHiggs := zeroV, recoHiggs_raw := zeroV
    genB1 := zeroV, genB2 := zeroV, genHiggs2 := zeroV, genHH := zeroV
    patGenB1 := zeroV, patGenB2 := zeroV, patGenHiggs2 := zeroV
    genPhoton1_pt := 0, genPhoton1_eta := 0, genPhoton1_phi := 0
    genPhoton2_pt := 0, genPhoton2_eta := 0, genPhoton2_phi := 0
    genPhotonDble_mass := 0, genBJetDble_Higgs_mass := 0, patGenBJetDble_Higgs_mass := 0
    nGenPhotons := 7, nRecoPhotons := 0, nGenB := 3, nPatGenB := 11, nrecoJetGenB := 13 }

/-- A configuration: scheme B, photons above 20 GeV within |eta| < 3. -/
def sampleConfig : Config :=
  { useDeepCSV_ := false, minPhotonEt_ := 20, minPhotonAbsEta_ := 0, maxPhotonAbsEta_ := 3
    minPhotonR9_ := 0, maxPhotonHoverE_ := 1, maxIetaIeta_ := 1, createPhotonTTree_ := false }

/-- An event without any object. -/
def emptyEvent : Event :=
  { vertices := [], elecs := [], muons := [], mets := [], jets := [], genParts := []
    allGenParts := [], genJets := [], photons := [] }

/-- A jet of 50 GeV at the origin of the (eta, phi) plane, loose and tight. -/
def sampleJet : Jet :=
  { p4 := { pt := 50, eta := 0, phi := 0, mass := 5 }, probb := 0.1, probbb := 0.1
    csvv2 := 0.5, genParton := none, jetIDLoose := true, jetIDTight := true }

/-- An event whose two vertices do not qualify (one fake, one with ndof = 4),
with a jet and a MET. -/
def noVertexEvent : Event :=
  { emptyEvent with
    vertices := [{ isFake := true, ndof := 10 }, { isFake := false, ndof := 4 }]
    jets := [sampleJet]
    mets := [{ pt := 30, phi := 1 }] }

/-- An electron of 40 GeV at (eta, phi) = (1, 1). -/
def sampleElectron : Electron :=
  { p4 := { pt := 40, eta := 1, phi := 1, mass := 0 }
    superCluster_eta := 1, full5x5_sigmaIetaIeta := 0.01
    deltaEtaSuperClusterTrackAtVtx := 0.001, deltaPhiSuperClusterTrackAtVtx := 0.06
    hcalOverEcal := 0.05, sumChargedHadronPt := 4, ecalEnergy := some 60
    eSuperClusterOverP := 1 }

/-- A muon of 25 GeV at (eta, phi) = (-1, 2), not an ME0 muon, with one chamber
match carrying one segment. -/
def sampleMuon : Muon :=
  { p4 := { pt := 25, eta := -1, phi := 2, mass := 0 }
    isME0Muon := false
    chamberMatches :=
      [{ detector := 5, x := 1, y := 1, xErr := 1, yErr := 1, dXdZ := 0
         me0Matches := [{ x := 1, y := 1, xErr := 1, yErr := 1, dXdZ := 0 }] }] }

/-- A jet with the kinematics of `sampleElectron`. -/
def jetOnElectron : Jet :=
  { sampleJet with p4 := sampleElectron.p4, csvv2 := 0.9 }

/-- A jet of 60 GeV with discriminants above both working points, matched to a
b quark. -/
def sampleBJet : Jet :=
  { p4 := { pt := 60, eta := 1.5, phi := -1, mass := 8 }, probb := 0.5, probbb := 0.3
    csvv2 := 0.9, genParton := some 5, jetIDLoose := true, jetIDTight := false }

/-- A photon with the given kinematics and unremarkable shower and isolation. -/
def mkPhoton (pt eta phi : ℚ) : Photon :=
  { et := pt, pt := pt, eta := eta, phi := phi
    superCluster_energy := pt, superCluster_eta := eta, superCluster_phi := phi
    neutralHadronIso := 1, chargedHadronIso := 1, photonIso := 1
    puppiNeutralHadronIso := 1, puppiChargedHadronIso := 1, puppiPhotonIso := 1
    hadronicOverEm := 0.01, sigmaIetaIeta := 0.01, r9 := 0.9 }

/-- A generator particle with one mother, a Higgs boson. -/
def higgsDaughter (pdgId : Int) (pt eta phi mass : ℚ) : GenParticle :=
  { pdgId := pdgId, p4 := { pt := pt, eta := eta, phi := phi, mass := mass }, mothers := [25] }

/-- An event that passes the vertex gate: a fake and a good vertex, an electron,
a muon, four jets (one light, one b-tagged, one on the electron, one soft), two
truth photons and two truth b quarks from Higgs bosons, two photons on the
truth photons. -/
def sampleEvent : Event :=
  { vertices := [{ isFake := true, ndof := 10 }, { isFake := false, ndof := 5 }]
    elecs := [sampleElectron]
    muons := [sampleMuon]
    mets := [{ pt := 30, phi := 1 }]
    jets := [sampleJet, sampleBJet, jetOnElectron,
      { sampleJet with p4 := { pt := 20, eta := 2, phi := 2, mass := 3 } }]
    genParts := [{ pdgId := 11, p4 := sampleElectron.p4 }]
    allGenParts :=
      [{ pdgId := 25, p4 := { pt := 10, eta := 0, phi := 0, mass := 125 }, mothers := [] },
       higgsDaughter 22 50 0 0 0, higgsDaughter 22 60 0.1 0.2 0,
       higgsDaughter 5 70 1 1 4.7, higgsDaughter (-5) 80 (-1) 2 4.7]
    genJets := [{ p4 := { pt := 45, eta := 0, phi := 0, mass := 5 }
                  constituents := [{ pt := 45, eta := 0, phi := 0, mass := 0 }] }]
    photons := [mkPhoton 50 0 0, mkPhoton 60 0.1 0.2] }

/-- An event that passes the vertex gate and whose only jet has the kinematics
of its only electron. -/
def overlapEvent : Event :=
  { emptyEvent with
    vertices := [{ isFake := false, ndof := 5 }]
    elecs := [sampleElectron]
    jets := [jetOnElectron] }

/-- The jets of the event that coincide with no electron and no muon: those
that get past lines 787 and 794. -/
def nonOverlappingJets (K : Ext) (iEvent : Event) : List Jet :=
  iEvent.jets.filter fun jet =>
    !(iEvent.elecs.any (fun e => overlapsLepton K jet.p4 e.p4)
      || iEvent.muons.any (fun m => overlapsLepton K jet.p4 m.p4))

/-- The jet is put in the b-tagged bucket by a pass of the loop body taking
`acc` to `acc1`: counted as b-tagged and not as light, its discriminant pushed
to the b-tagged distribution and not to the light one. -/
def landsInBtagged (acc acc1 : JetAcc) (disc : ℚ) : Prop :=
  acc1.nGoodBtaggedJets = acc.nGoodBtaggedJets + 1
  ∧ acc1.nGoodLightJets = acc.nGoodLightJets
  ∧ pushed .h_goodBJets_csv_ acc1.obs = pushed .h_goodBJets_csv_ acc.obs ++ [disc]
  ∧ pushed .h_goodLJets_csv_ acc1.obs = pushed .h_goodLJets_csv_ acc.obs

/-- The jet is put in the light bucket by a pass of the loop body taking `acc`
to `acc1`. -/
def landsInLight (acc acc1 : JetAcc) (disc : ℚ) : Prop :=
  acc1.nGoodLightJets = acc.nGoodLightJets + 1
  ∧ acc1.nGoodBtaggedJets = acc.nGoodBtaggedJets
  ∧ pushed .h_goodLJets_csv_ acc1.obs = pushed .h_goodLJets_csv_ acc.obs ++ [disc]
  ∧ pushed .h_goodBJets_csv_ acc1.obs = pushed .h_goodBJets_csv_ acc.obs

/-- The particle is a photon (type code 22) with exactly one mother, of type
code 25. -/
def isHiggsPhoton (p : GenParticle) : Bool :=
  decide (p.pdgId = 22 ∧ p.mothers.length = 1 ∧ p.mothers.head? = some 25)

/-- The particle is a bottom quark (type code 5 or -5) with exactly one mother,
of type code 25. -/
def isHiggsB (p : GenParticle) : Bool :=
  decide (|p.pdgId| = 5 ∧ p.mothers.length = 1 ∧ p.mothers.head? = some 25)

/-- The members that hold the truth photons: the two vectors, their six
`float` copies, the truth diphoton vector and its mass. -/
def truthPhotons (s : State) :
    TLorentzVector × TLorentzVector × (ℚ × ℚ × ℚ) × (ℚ × ℚ × ℚ) × TLorentzVector × ℚ :=
  (s.genPhoton1, s.genPhoton2, (s.genPhoton1_pt, s.genPhoton1_eta, s.genPhoton1_phi),
    (s.genPhoton2_pt, s.genPhoton2_eta, s.genPhoton2_phi), s.genHiggs1, s.genPhotonDble_mass)

/-- The members that hold the truth b quarks: the two vectors, the truth di-b
vector and its mass. -/
def truthBs (s : State) : TLorentzVector × TLorentzVector × TLorentzVector × ℚ :=
  (s.genB1, s.genB2, s.genHiggs2, s.genBJetDble_Higgs_mass)

/-- The members with the seven reconstructed-photon vectors blanked: what the
part of `analyze` after the generator-lepton loop does not write. -/
def recoFrame (s : State) : State :=
  { s with recoPhoton := zeroV, recoPhoton1 := zeroV, recoPhoton2 := zeroV
           recoPhoton1_raw := zeroV, recoPhoton2_raw := zeroV
           recoHiggs := zeroV, recoHiggs_raw := zeroV }

/-- An event that passes the vertex gate and whose generator particles are two
bottom quarks from a Higgs boson. -/
def twoBEvent : Event :=
  { emptyEvent with
    vertices := [{ isFake := false, ndof := 5 }]
    allGenParts := [higgsDaughter 5 70 1 1 4.7, higgsDaughter (-5) 80 (-1) 2 4.7] }

/-- The configuration `sampleConfig` under scheme A. -/
def sampleConfigA : Config := { sampleConfig with useDeepCSV_ := true }

/-- An electron inside the tight thresholds whose track-cluster azimuth
difference, 0.06, lies between the loose bound 0.05176 and the tight bound
0.06129. -/
def tightNotLooseElectron : Electron :=
  { p4 := { pt := 40, eta := 1, phi := 1, mass := 0 }
    superCluster_eta := 1, full5x5_sigmaIetaIeta := 0.01
    deltaEtaSuperClusterTrackAtVtx := 0.001, deltaPhiSuperClusterTrackAtVtx := 0.06
    hcalOverEcal := 0.05, sumChargedHadronPt := 4, ecalEnergy := some 60
    eSuperClusterOverP := 1 }

/-- The run of `analyze` over a sequence of events: the members after the last
one, or `none` when some call throws. -/
def runEvents (K : Ext) (cfg : Config) : State → List Event → Option State
  | s, [] => some s
  | s, iEvent :: rest =>
    match analyze K cfg s iEvent with
    | none => none
    | some r => runEvents K cfg r.1 rest

/-- The members with the ten vectors that `analyze` never reads before writing
them blanked: the seven reconstructed-photon vectors and the three vectors of
the `abs(pdgId) == 5` branch of the generator-lepton loop. -/
def carry0 (s : State) : State :=
  { s with recoPhoton := zeroV, recoPhoton1 := zeroV, recoPhoton2 := zeroV
           recoPhoton1_raw := zeroV, recoPhoton2_raw := zeroV
           recoHiggs := zeroV, recoHiggs_raw := zeroV
           patGenB1 := zeroV, patGenB2 := zeroV, patGenHiggs2 := zeroV }

/-- The histograms filled inside the generator-jet loop. -/
def genJetHists : List Hist := [.h_genJets_pt_, .h_genJets_phi_, .h_genJets_eta_]

/-- The histograms filled inside the loop over `allGenParts`. -/
def genTruthHists : List Hist := [.h_genPhotonHiggsMass, .h_bjetHiggsMass_]

/-- The histograms filled inside the jet loop. -/
def jetHists : List Hist :=
  [.h_allJets_pt_, .h_allJets_phi_, .h_allJets_eta_, .h_allJets_csv_, .h_allJets_id_,
   .h_goodJets_pt_, .h_goodJets_phi_, .h_goodJets_eta_, .h_goodJets_csv_,
   .h_goodBJets_pt_, .h_goodBJets_phi_, .h_goodBJets_eta_, .h_goodBJets_csv_,
   .h_goodLJets_pt_, .h_goodLJets_phi_, .h_goodLJets_eta_, .h_goodLJets_csv_]

/-- The histograms filled inside the photon loop. -/
def photonHists : List Hist :=
  [.h_nPassingPho_, .h_hadoverem_, .h_photonIetaIeta_, .h_phoIsoNeuHad_, .h_phoIsoCharHad_,
   .h_photonIso_, .h_puppiPhoIsoNeuHad_, .h_puppiPhoIsoCharHad_, .h_puppiPhotonIso_,
   .h_photonPt_, .h_photonEta_, .h_r9_]

/-- The histograms and profiles filled by the block after the photon loop. -/
def diphotonHists : List Hist :=
  [.h_PhotonPtr, .h_PhotonPtr_raw, .h_recoPhotonHiggsMass, .h_recoPhotonHiggsMass_HM,
   .h_recoPhotonHiggsMass_LM, .h_recoPhotonHiggsMass_raw, .h_recoPhotonHiggsMass_HM_raw,
   .h_recoPhotonHiggsMass_LM_raw]

/-- The histograms filled once per object or per pair, inside a loop or by the
diphoton block; the others are filled once per event. -/
def loopHists : List Hist :=
  genJetHists ++ genTruthHists ++ jetHists ++ photonHists ++ diphotonHists

/-- The histograms filled by the part of `analyze` after the generator-lepton
loop. -/
def recoHists : List Hist :=
  [.h_goodPatBJets_Higgs_n_, .h_goodrecoJetBJets_Higgs_n_, .h_goodLJets_n_, .h_goodLJets_nb_,
   .h_goodBJets_n_, .h_goodBJets_nb_, .h_goodJets_n_, .h_goodJets_nb_, .h_allJets_n_,
   .h_goodMET_pt_, .h_goodMET_phi_, .h_nPho_] ++ jetHists ++ photonHists ++ diphotonHists

/-- The members with the six vectors blanked that the photon loop and the
diphoton block write without reading, or never touch. -/
def blank6 (s : State) : State :=
  { s with recoPhoton := zeroV, recoHiggs := zeroV, recoHiggs_raw := zeroV
           patGenB1 := zeroV, patGenB2 := zeroV, patGenHiggs2 := zeroV }

/-- The state of the photon loop with those six vectors blanked. -/
def blankAcc (acc : PhotonAcc) : PhotonAcc :=
  { acc with s := blank6 acc.s }

/-- The histograms filled by the part of `analyze` from the generator jets to
the tree fill. -/
def truthPartHists : List Hist :=
  [.h_genJets_n_, .h_genHHMass, .h_goodBJets_Higgs_n_] ++ genJetHists ++ genTruthHists

/-- The histograms filled by `analyze` outside the diphoton block. -/
def nonDiphotonHists : List Hist :=
  [.h_goodVertices_n_, .h_allVertices_n_] ++ truthPartHists
    ++ [.h_goodPatBJets_Higgs_n_, .h_goodrecoJetBJets_Higgs_n_, .h_goodLJets_n_,
        .h_goodLJets_nb_, .h_goodBJets_n_, .h_goodBJets_nb_, .h_goodJets_n_, .h_goodJets_nb_,
        .h_allJets_n_, .h_goodMET_pt_, .h_goodMET_phi_, .h_nPho_]
    ++ jetHists ++ photonHists

/-- An event that passes the vertex gate with one photon of Et = 40 at
eta = 1.0 and no generator particle. -/
def onePhotonEvent : Event :=
  { emptyEvent with
    vertices := [{ isFake := false, ndof := 5 }]
    photons := [mkPhoton 40 1 0] }

/-- An event with four vertices: a fake one, one with ndof exactly 4, and two
that are not fake with ndof 5 and 7. -/
def fourVertexEvent : Event :=
  { emptyEvent with
    vertices := [{ isFake := true, ndof := 10 }, { isFake := false, ndof := 4 },
      { isFake := false, ndof := 5 }, { isFake := false, ndof := 7 }] }

/-- The jet is counted as good by a pass of the loop body taking `acc` to
`acc1`: the counter `nGoodJets` goes up by one and the jet's pt, phi, eta and
discriminant are pushed to the four good-jet distributions. -/
def countedAsGood (acc acc1 : JetAcc) (jet : Jet) (disc : ℚ) : Prop :=
  acc1.nGoodJets = acc.nGoodJets + 1
  ∧ pushed .h_goodJets_pt_ acc1.obs = pushed .h_goodJets_pt_ acc.obs ++ [jet.p4.pt]
  ∧ pushed .h_goodJets_phi_ acc1.obs = pushed .h_goodJets_phi_ acc.obs ++ [jet.p4.phi]
  ∧ pushed .h_goodJets_eta_ acc1.obs = pushed .h_goodJets_eta_ acc.obs ++ [jet.p4.eta]
  ∧ pushed .h_goodJets_csv_ acc1.obs = pushed .h_goodJets_csv_ acc.obs ++ [disc]

/-- The jet is not counted as good by a pass of the loop body taking `acc` to
`acc1`: the counter `nGoodJets` and the four good-jet distributions are as
before. -/
def notCountedAsGood (acc acc1 : JetAcc) : Prop :=
  acc1.nGoodJets = acc.nGoodJets
  ∧ pushed .h_goodJets_pt_ acc1.obs = pushed .h_goodJets_pt_ acc.obs
  ∧ pushed .h_goodJets_phi_ acc1.obs = pushed .h_goodJets_phi_ acc.obs
  ∧ pushed .h_goodJets_eta_ acc1.obs = pushed .h_goodJets_eta_ acc.obs
  ∧ pushed .h_goodJets_csv_ acc1.obs = pushed .h_goodJets_csv_ acc.obs

/-- A jet on both edges of the kinematic gate: pt = 30 and eta = 4.7, loose. -/
def boundaryJet : Jet :=
  { sampleJet with p4 := { pt := 30, eta := 4.7, phi := 0, mass := 5 } }

/-- An electron inside every threshold of the three tiers whose supercluster
eta has the given value. -/
def cleanElectron (superCluster_eta : ℚ) : Electron :=
  { p4 := { pt := 40, eta := superCluster_eta, phi := 1, mass := 0 }
    superCluster_eta := superCluster_eta, full5x5_sigmaIetaIeta := 0.01
    deltaEtaSuperClusterTrackAtVtx := 0.001, deltaPhiSuperClusterTrackAtVtx := 0.01
    hcalOverEcal := 0.05, sumChargedHadronPt := 4, ecalEnergy := some 60
    eSuperClusterOverP := 1 }

/-- An event that passes the vertex gate, without generator leptons, whose two
generator jets sit on the edges of the kinematic gate: one with pt exactly 30,
one with eta exactly 4.7. -/
def thresholdGenJetEvent : Event :=
  { emptyEvent with
    vertices := [{ isFake := false, ndof := 5 }]
    genJets := [{ p4 := { pt := 30, eta := 0, phi := 0, mass := 5 }, constituents := [] },
      { p4 := { pt := 50, eta := 4.7, phi := 1, mass := 5 }, constituents := [] }] }

/-- The (chamber, segment) pairs of a muon in the order of the two nested
loops of `isME0MuonSel`: chambers outer, segments inner. -/
def me0Pairs (muon : Muon) : List (MuonChamberMatch × MuonSegmentMatch) :=
  muon.chamberMatches.flatMap fun chamber => chamber.me0Matches.map fun segment =>
    (chamber, segment)

/-- The members and locals that the photon loop of `analyze` leaves for the
block at lines 1026-1079. -/
def afterPhotons (K : Ext) (cfg : Config) (s : State) (iEvent : Event) : PhotonAcc :=
  photonLoop K cfg iEvent.photons (photonAcc0 (analyzeTruth K cfg (resetTruth s) iEvent).2.1)

/-- Modelled from the spec: the diphoton mass gate in the words of the claim, on
the transverse momenta of the two reconstructed and the two truth photons, the
two corrected ratios and the corrected diphoton mass. -/
def specMassGate (ptReco1 ptReco2 ptGen1 ptGen2 : ℚ) (R1 R2 : Dbl) (m : ℚ) : Prop :=
  ptReco1 > 0 ∧ ptReco2 > 0 ∧ ptGen1 > 0 ∧ ptGen2 > 0
  ∧ R1.gt 0.01 = true ∧ R2.gt 0.01 = true
  ∧ max ptReco1 ptReco2 > 30 ∧ min ptReco1 ptReco2 > 20
  ∧ max ptReco1 ptReco2 > m / 3 ∧ min ptReco1 ptReco2 > m / 4

/-- The gate `specMassGate` on the quantities held by a state of the photon
loop. -/
def massGateOf (K : Ext) (acc : PhotonAcc) : Prop :=
  specMassGate (K.Pt acc.s.recoPhoton1) (K.Pt acc.s.recoPhoton2) (K.Pt acc.s.genPhoton1)
    (K.Pt acc.s.genPhoton2) acc.Rpt1 acc.Rpt2
    (K.M (.add acc.s.recoPhoton1 acc.s.recoPhoton2))

/-- The event `sampleEvent` with two heavy bottom quarks: under scheme A and the
concrete instance of the external functions its truth four-object mass is
400. -/
def highMassEvent : Event :=
  { sampleEvent with
    allGenParts :=
      [higgsDaughter 22 50 0 0 0, higgsDaughter 22 60 0.1 0.2 0,
       higgsDaughter 5 70 1 1 200, higgsDaughter (-5) 80 (-1) 2 200] }

/-- A state of the photon loop with its four raw quantities replaced. -/
def withRaw (acc : PhotonAcc) (raw1 raw2 : TLorentzVector) (R1_raw R2_raw : Dbl) : PhotonAcc :=
  let s0 := acc.s
  { acc with
    s := { s0 with recoPhoton1_raw := raw1, recoPhoton2_raw := raw2 }
    Rpt1_raw := R1_raw, Rpt2_raw := R2_raw }

/-- Members with two truth photons 0.3 apart in eta: truth photon 1 at
(pt, eta, phi) = (50, 0, 0), truth photon 2 at (60, 0.3, 0). -/
def closeTruthState : State :=
  { sampleState with
    genPhoton1 := .SetPtEtaPhiM 50 0 0 0
    genPhoton2 := .SetPtEtaPhiM 60 0.3 0 0 }

/-- The observations pushed by one pass of the photon-loop body (lines 899-1022)
for the photon `ph`, the truth photons being `genPhoton1` and `genPhoton2`. -/
def photonObs (K : Ext) (cfg : Config) (genPhoton1 genPhoton2 : TLorentzVector) (ph : Photon) :
    List Obs :=
  if passCuts cfg ph then
    [Obs.fill .h_nPassingPho_ 1]
      ++ (if K.DeltaR genPhoton1 (.SetPtEtaPhiM ph.pt ph.eta ph.phi 0) < 0.2
            ∨ K.DeltaR genPhoton2 (.SetPtEtaPhiM ph.pt ph.eta ph.phi 0) < 0.2
          then matchedObs ph else [])
  else []

/-- An event that passes the vertex gate, without any generator particle, with
one photon at (eta, phi) = (0.1, 0) and one at (1, 0). -/
def phantomEvent : Event :=
  { emptyEvent with
    vertices := [{ isFake := false, ndof := 5 }]
    photons := [mkPhoton 40 0.1 0, mkPhoton 40 1 0] }

/-- An ME0 muon whose only chamber match has detector id 3. -/
def me0MuonNoSegment : Muon :=
  { p4 := { pt := 25, eta := 2.4, phi := 2, mass := 0 }
    isME0Muon := true
    chamberMatches :=
      [{ detector := 3, x := 1, y := 1, xErr := 1, yErr := 1, dXdZ := 0
         me0Matches := [{ x := 1, y := 1, xErr := 0, yErr := 0, dXdZ := 0 }] }] }

/-- Reconstructed slot 1 of a state of the photon loop: the vector, the raw
vector and the two ratios. -/
def slot1 (acc : PhotonAcc) : TLorentzVector × TLorentzVector × Dbl × Dbl :=
  (acc.s.recoPhoton1, acc.s.recoPhoton1_raw, acc.Rpt1, acc.Rpt1_raw)

/-- Reconstructed slot 2 of a state of the photon loop. -/
def slot2 (acc : PhotonAcc) : TLorentzVector × TLorentzVector × Dbl × Dbl :=
  (acc.s.recoPhoton2, acc.s.recoPhoton2_raw, acc.Rpt2, acc.Rpt2_raw)

/-- What the photon-loop body stores in a slot for the photon `ph` matched to
the truth photon `gen` (lines 958-961 and 965-968). -/
def slotOf (K : Ext) (gen : TLorentzVector) (ph : Photon) :
    TLorentzVector × TLorentzVector × Dbl × Dbl :=
  (.SetPtEtaPhiM ph.pt ph.eta ph.phi 0,
   .SetPtEtaPhiM (ph.superCluster_energy / K.cosh ph.superCluster_eta)
     ph.superCluster_eta ph.superCluster_phi 0,
   fdiv (K.Pt (.SetPtEtaPhiM ph.pt ph.eta ph.phi 0)) (K.Pt gen),
   fdiv (K.Pt (.SetPtEtaPhiM (ph.superCluster_energy / K.cosh ph.superCluster_eta)
     ph.superCluster_eta ph.superCluster_phi 0)) (K.Pt gen))

/-- The photon is selected and within 0.2 of the truth photon 1 `gen1`: the
body stores it in slot 1. -/
def matchesSlot1 (K : Ext) (cfg : Config) (gen1 : TLorentzVector) (ph : Photon) : Bool :=
  passCuts cfg ph && decide (K.DeltaR gen1 (.SetPtEtaPhiM ph.pt ph.eta ph.phi 0) < 0.2)

/-- The photon is selected, not within 0.2 of the truth photon 1 `gen1` and
within 0.2 of the truth photon 2 `gen2`: the body stores it in slot 2. -/
def matchesSlot2 (K : Ext) (cfg : Config) (gen1 gen2 : TLorentzVector) (ph : Photon) : Bool :=
  passCuts cfg ph && !decide (K.DeltaR gen1 (.SetPtEtaPhiM ph.pt ph.eta ph.phi 0) < 0.2)
    && decide (K.DeltaR gen2 (.SetPtEtaPhiM ph.pt ph.eta ph.phi 0) < 0.2)

/-- An event that passes the vertex gate, with truth photons at eta 0 and 0.3
(phi 0) and two photons: the first at eta 0.4, within 0.2 of truth photon 2
only, the second at eta 0.15, within 0.2 of both truth photons. -/
def closeTruthEvent : Event :=
  { emptyEvent with
    vertices := [{ isFake := false, ndof := 5 }]
    allGenParts := [higgsDaughter 22 50 0 0 0, higgsDaughter 22 60 0.3 0 0]
    photons := [mkPhoton 40 0.4 0, mkPhoton 45 0.15 0] }

/-- The event `closeTruthEvent` with two photons within 0.2 of truth photon 1
only, at eta 0.05 and 0.1. -/
def overwriteEvent : Event :=
  { closeTruthEvent with photons := [mkPhoton 40 0.05 0, mkPhoton 45 0.1 0] }

/-- A jet of 50 GeV at the origin, loose, whose two sub-discriminants are the
`float` values 0.625 and 1986423 / 2^28 (about 0.0074000023): their exact sum
is above 0.6324, their `float` sum, 10609911 / 2^24 (about 0.63239998), is
below. -/
def floatSumJet : Jet :=
  { sampleJet with probb := 0.625, probbb := 1986423 / 268435456 }

/-- A photon at eta = 1 with the given transverse energy `et()`. -/
def photonWithEt (et : ℚ) : Photon :=
  { mkPhoton 40 1 0 with et := et }

/-- The configuration `sampleConfig` with the given `minPhotonEt_`. -/
def sampleConfigEt (minPhotonEt : ℚ) : Config :=
  { sampleConfig with minPhotonEt_ := minPhotonEt }

/-! # Theorems -/

/-! ## Single-precision rounding at given values -/

theorem roundHalfEven_eq (y : ℚ) (m : ℤ) (h1 : (m : ℚ) - 1 / 2 < y) (h2 : y < m + 1 / 2) :
    roundHalfEven y = m := by
  unfold roundHalfEven
  by_cases hy : (m : ℚ) ≤ y
  · have hf : ⌊y⌋ = m := by
      rw [Int.floor_eq_iff]
      constructor
      · exact hy
      · linarith
    rw [hf]
    have : y - m < 1 / 2 := by linarith
    rw [if_pos this]
  · have hy1 : y < m := not_le.mp hy
    have hf : ⌊y⌋ = m - 1 := by
      rw [Int.floor_eq_iff]
      push_cast
      constructor
      · linarith
      · linarith
    rw [hf]
    push_cast
    have h3 : ¬ (y - (m - 1) < 1 / 2) := by
      intro h; linarith
    have h4 : 1 / 2 < y - ((m : ℚ) - 1) := by linarith
    rw [if_neg h3, if_pos h4]
    ring

/-- The single-precision rounding of `x` is `m * 2^(e-23)` when `e` is the
binary exponent of `x` and `m` the integer nearest to `x / 2^(e-23)`. -/
theorem roundF32_eq (x : ℚ) (e m : ℤ) (he1 : (2 : ℚ) ^ e ≤ |x|) (he2 : |x| < (2 : ℚ) ^ (e + 1))
    (hee : -126 ≤ e) (hm1 : (m : ℚ) - 1 / 2 < x / 2 ^ (e - 23))
    (hm2 : x / 2 ^ (e - 23) < m + 1 / 2) :
    roundF32 x = m * 2 ^ (e - 23) := by
  have hpos : 0 < |x| := lt_of_lt_of_le (zpow_pos (by norm_num) e) he1
  have hlog : Int.log 2 |x| = e := by
    have a : e ≤ Int.log 2 |x| := by
      have := (Int.zpow_le_iff_le_log (b := 2) (by norm_num) hpos (x := e)).mp
        (by exact_mod_cast he1)
      exact this
    have b : Int.log 2 |x| < e + 1 := by
      have := (Int.lt_zpow_iff_log_lt (b := 2) (by norm_num) hpos (x := e + 1)).mp
        (by exact_mod_cast he2)
      exact this
    omega
  unfold roundF32
  simp only [hlog, max_eq_left hee]
  rw [roundHalfEven_eq _ m hm1 hm2]

theorem toFloat_eq (x : ℚ) (e m : ℤ) (he1 : (2 : ℚ) ^ e ≤ |x|) (he2 : |x| < (2 : ℚ) ^ (e + 1))
    (hee : -126 ≤ e) (hm1 : (m : ℚ) - 1 / 2 < x / 2 ^ (e - 23))
    (hm2 : x / 2 ^ (e - 23) < m + 1 / 2) (hfin : |(m : ℚ) * 2 ^ (e - 23)| < 2 ^ 128) :
    toFloat x = .fin (m * 2 ^ (e - 23)) := by
  unfold toFloat
  rw [roundF32_eq x e m he1 he2 hee hm1 hm2, if_neg (not_le.mpr hfin)]

theorem toFloat_40 : toFloat 40 = .fin 40 := by
  rw [toFloat_eq 40 5 10485760 (by norm_num) (by norm_num) (by norm_num) (by norm_num)
    (by norm_num) (by norm_num [abs_of_pos])]
  norm_num

theorem toFloat_45 : toFloat 45 = .fin 45 := by
  rw [toFloat_eq 45 5 11796480 (by norm_num) (by norm_num) (by norm_num) (by norm_num)
    (by norm_num) (by norm_num [abs_of_pos])]
  norm_num

theorem toFloat_50 : toFloat 50 = .fin 50 := by
  rw [toFloat_eq 50 5 13107200 (by norm_num) (by norm_num) (by norm_num) (by norm_num)
    (by norm_num) (by norm_num [abs_of_pos])]
  norm_num

theorem toFloat_60 : toFloat 60 = .fin 60 := by
  rw [toFloat_eq 60 5 15728640 (by norm_num) (by norm_num) (by norm_num) (by norm_num)
    (by norm_num) (by norm_num [abs_of_pos])]
  norm_num

/-! ## C1: the vertex gate -/

theorem vertexLoop_no_qualifying (vs : List Vertex)
    (h : ∀ v ∈ vs, ¬ (v.isFake = false ∧ v.ndof > 4)) (i : Nat) (prVtx : Int) (nVtx : Nat) :
    vertexLoop vs i prVtx nVtx = (prVtx, nVtx) := by
  induction vs generalizing i with
  | nil => rfl
  | cons v rest ih =>
    have hv := h v (List.mem_cons_self _ _)
    have hrest : ∀ w ∈ rest, ¬ (w.isFake = false ∧ w.ndof > 4) :=
      fun w hw => h w (List.mem_cons_of_mem _ hw)
    unfold vertexLoop
    by_cases hf : v.isFake = true
    · simp [hf, ih hrest]
    · have hn : v.ndof ≤ 4 := by
        by_contra hc
        exact hv ⟨by simpa using hf, lt_of_not_ge hc⟩
      simp [hf, hn, ih hrest]

/-- C1 (vertex gate): when no vertex of the event is both non-fake and has
ndof > 4, `analyze` returns normally and pushes no observation at all. -/
theorem C1_vertex_gate (K : Ext) (cfg : Config) (s : State) (iEvent : Event)
    (h : ∀ v ∈ iEvent.vertices, ¬ (v.isFake = false ∧ v.ndof > 4)) :
    analyze K cfg s iEvent = some (resetTruth s, []) := by
  unfold analyze
  simp [vertexLoop_no_qualifying iEvent.vertices h]

/-- Witness of C1 on `noVertexEvent` (a fake vertex, a vertex with ndof = 4, a jet and a MET). -/
theorem C1_vertex_gate_witness :
    (∀ v ∈ noVertexEvent.vertices, ¬ (v.isFake = false ∧ v.ndof > 4)) ∧
    analyze sampleExt sampleConfig sampleState noVertexEvent
      = some (resetTruth sampleState, []) :=
  have h : ∀ v ∈ noVertexEvent.vertices, ¬ (v.isFake = false ∧ v.ndof > 4) := by
    simp [noVertexEvent, emptyEvent]
  ⟨h, C1_vertex_gate sampleExt sampleConfig sampleState noVertexEvent h⟩

/-! ## The vertex gate in terms of the vertices -/

theorem toInt32_of_lt (n : Nat) (h : n < 2 ^ 31) : toInt32 n = (n : Int) := by
  have h1 : n % 2 ^ 32 = n := Nat.mod_eq_of_lt (by omega)
  unfold toInt32
  rw [h1, if_pos h]

theorem vertexLoop_fst_of_nonneg (vs : List Vertex) :
    ∀ (i : Nat) (prVtx : Int) (nVtx : Nat), 0 ≤ prVtx →
      (vertexLoop vs i prVtx nVtx).1 = prVtx := by
  induction vs with
  | nil => intro i prVtx nVtx _; rfl
  | cons v rest ih =>
    intro i prVtx nVtx h
    have hn : ¬ prVtx < 0 := not_lt.mpr h
    unfold vertexLoop
    split_ifs
    · exact ih _ _ _ h
    · exact ih _ _ _ h
    · exact ih _ _ _ h

theorem vertexLoop_qualifying (vs : List Vertex) :
    ∀ (i : Nat) (prVtx : Int) (nVtx : Nat),
      (∃ v ∈ vs, v.isFake = false ∧ v.ndof > 4) → i + vs.length ≤ 2 ^ 31 →
      0 ≤ (vertexLoop vs i prVtx nVtx).1 := by
  induction vs with
  | nil => intro i prVtx nVtx h; simp at h
  | cons v rest ih =>
    intro i prVtx nVtx h hlen
    simp only [List.length_cons] at hlen
    unfold vertexLoop
    by_cases hf : v.isFake = true
    · have hrest : ∃ w ∈ rest, w.isFake = false ∧ w.ndof > 4 := by
        obtain ⟨w, hw, hw1, hw2⟩ := h
        rcases List.mem_cons.mp hw with e | hw
        · subst e; rw [hf] at hw1; cases hw1
        · exact ⟨w, hw, hw1, hw2⟩
      simp only [hf, if_true]
      exact ih _ _ _ hrest (by omega)
    · by_cases hn : v.ndof ≤ 4
      · have hrest : ∃ w ∈ rest, w.isFake = false ∧ w.ndof > 4 := by
          obtain ⟨w, hw, hw1, hw2⟩ := h
          rcases List.mem_cons.mp hw with e | hw
          · subst e; exact absurd hn (not_le.mpr hw2)
          · exact ⟨w, hw, hw1, hw2⟩
        simp only [hf, hn, if_true, if_false]
        exact ih _ _ _ hrest (by omega)
      · have hf2 : v.isFake = false := by simpa using hf
        simp only [hf2, hn, if_false, Bool.false_eq_true]
        have hpos : (0 : Int) ≤ (if prVtx < 0 then toInt32 i else prVtx) := by
          split_ifs with hp
          · rw [toInt32_of_lt i (by omega)]
            exact Int.natCast_nonneg i
          · exact not_lt.mp hp
        rw [vertexLoop_fst_of_nonneg rest _ _ _ hpos]
        exact hpos

/-- An event with fewer than 2^31 vertices passes the vertex gate exactly when
some vertex is not fake and has ndof > 4. -/
theorem aborted_eq_false_iff (iEvent : Event) (h : iEvent.vertices.length ≤ 2 ^ 31) :
    aborted iEvent = false ↔ ∃ v ∈ iEvent.vertices, v.isFake = false ∧ v.ndof > 4 := by
  constructor
  · intro ha
    by_contra hc
    have hnone : ∀ v ∈ iEvent.vertices, ¬ (v.isFake = false ∧ v.ndof > 4) :=
      fun v hv hq => hc ⟨v, hv, hq⟩
    have := vertexLoop_no_qualifying iEvent.vertices hnone 0 (-1) 0
    simp [aborted, this] at ha
  · intro hq
    have := vertexLoop_qualifying iEvent.vertices 0 (-1) 0 hq (by omega)
    simp only [aborted, decide_eq_false_iff_not, not_lt]
    exact this

/-! ## `analyze` returns: no `at` is out of range -/

theorem genJetStep_jGenJets (K : Ext) (gp : List PackedGenParticle) (acc : GenJetAcc) (i : Nat)
    (jet : GenJet) :
    (genJetStep K gp acc i jet).jGenJets = acc.jGenJets
      ∨ (genJetStep K gp acc i jet).jGenJets = acc.jGenJets ++ [i] := by
  unfold genJetStep
  split_ifs <;> simp

theorem genJetLoop_indices (K : Ext) (gp : List PackedGenParticle) (rest : List GenJet) :
    ∀ (i : Nat) (acc : GenJetAcc), (∀ j ∈ acc.jGenJets, j < i) →
      ∀ j ∈ (genJetLoop K gp rest i acc).jGenJets, j < i + rest.length := by
  induction rest with
  | nil => intro i acc h j hj; simpa [genJetLoop] using h j hj
  | cons jet rest ih =>
    intro i acc h j hj
    have hstep : ∀ k ∈ (genJetStep K gp acc i jet).jGenJets, k < i + 1 := by
      intro k hk
      rcases genJetStep_jGenJets K gp acc i jet with e | e
      · rw [e] at hk; exact Nat.lt_succ_of_lt (h k hk)
      · rw [e] at hk
        rcases List.mem_append.mp hk with hk | hk
        · exact Nat.lt_succ_of_lt (h k hk)
        · simp at hk; omega
    have := ih (i + 1) (genJetStep K gp acc i jet) hstep j (by simpa [genJetLoop] using hj)
    simp only [List.length_cons]
    omega

theorem genIsoLoop_total (K : Ext) (genJets : List GenJet) (lep : PackedGenParticle)
    (js : List Nat) (h : ∀ j ∈ js, j < genJets.length) :
    ∀ genIso : ℚ, ∃ r, genIsoLoop K genJets lep js genIso = some r := by
  induction js with
  | nil => intro genIso; exact ⟨genIso, rfl⟩
  | cons j rest ih =>
    intro genIso
    have hj : j < genJets.length := h j (List.mem_cons_self _ _)
    have hrest : ∀ k ∈ rest, k < genJets.length := fun k hk => h k (List.mem_cons_of_mem _ hk)
    unfold genIsoLoop
    rw [List.getElem?_eq_getElem hj]
    simp only
    split_ifs
    · exact ih hrest _
    · exact ih hrest _

theorem genLeptonStep_eq (K : Ext) (u : Bool) (genJets : List GenJet) (jGenJets : List Nat)
    (h : ∀ j ∈ jGenJets, j < genJets.length) (s : State) (i : Nat) (p : PackedGenParticle) :
    genLeptonStep K u genJets jGenJets s i p = some (s, []) := by
  unfold genLeptonStep
  obtain ⟨r, hr⟩ := genIsoLoop_total K genJets p jGenJets h 0
  by_cases h1 : |p.pdgId| ≠ 11 ∧ |p.pdgId| ≠ 13
  · simp [h1]
  · rw [if_neg h1, hr]
    have h13 : |p.pdgId| = 11 ∨ |p.pdgId| = 13 := by
      by_contra hc
      exact h1 ⟨fun e => hc (Or.inl e), fun e => hc (Or.inr e)⟩
    have h5 : ¬ (|p.pdgId| = 5) := by
      rcases h13 with e | e <;> rw [e] <;> decide
    simp only [h5, if_false]
    split_ifs <;> rfl

theorem genLeptonLoop_eq (K : Ext) (u : Bool) (genJets : List GenJet) (jGenJets : List Nat)
    (h : ∀ j ∈ jGenJets, j < genJets.length) (ps : List PackedGenParticle) :
    ∀ (i : Nat) (s : State), genLeptonLoop K u genJets jGenJets ps i s = some (s, []) := by
  induction ps with
  | nil => intro i s; rfl
  | cons p rest ih =>
    intro i s
    unfold genLeptonLoop
    rw [genLeptonStep_eq K u genJets jGenJets h s i p]
    simp [ih]

theorem analyzeTruth_indices (K : Ext) (cfg : Config) (s : State) (iEvent : Event) :
    ∀ j ∈ (analyzeTruth K cfg s iEvent).1, j < iEvent.genJets.length := by
  intro j hj
  have := genJetLoop_indices K iEvent.genParts iEvent.genJets 0
    { jGenJets := [], nGenJets := 0, obs := [] } (by simp) j (by simpa [analyzeTruth] using hj)
  simpa using this

/-- The observations of a run of `analyze` that passes the vertex gate. -/
theorem analyze_of_not_aborted (K : Ext) (cfg : Config) (s : State) (iEvent : Event)
    (h : aborted iEvent = false) :
    analyze K cfg s iEvent =
      some ((analyzeReco K cfg (analyzeTruth K cfg (resetTruth s) iEvent).2.1 iEvent).1,
        [Obs.fill .h_goodVertices_n_ (vertexLoop iEvent.vertices 0 (-1) 0).2,
         Obs.fill .h_allVertices_n_ iEvent.vertices.length]
        ++ (analyzeTruth K cfg (resetTruth s) iEvent).2.2
        ++ (analyzeReco K cfg (analyzeTruth K cfg (resetTruth s) iEvent).2.1 iEvent).2) := by
  have hv : ¬ (vertexLoop iEvent.vertices 0 (-1) 0).1 < 0 := by
    simpa [aborted] using h
  unfold analyze
  simp only [hv, if_false]
  rw [genLeptonLoop_eq K cfg.useDeepCSV_ iEvent.genJets _
    (analyzeTruth_indices K cfg (resetTruth s) iEvent)]
  simp

theorem analyze_of_aborted (K : Ext) (cfg : Config) (s : State) (iEvent : Event)
    (h : aborted iEvent = true) :
    analyze K cfg s iEvent = some (resetTruth s, []) := by
  have hv : (vertexLoop iEvent.vertices 0 (-1) 0).1 < 0 := by
    simpa [aborted] using h
  unfold analyze
  simp [hv]

/-! ## Which histograms each part of `analyze` fills -/

theorem pushed_append (h : Hist) (a b : List Obs) :
    pushed h (a ++ b) = pushed h a ++ pushed h b := by
  simp [pushed, List.filterMap_append]

theorem pushed_of_all (L : List Hist) (h : Hist) (hL : h ∉ L) (l : List Obs)
    (hl : l.all (inHists L) = true) : pushed h l = [] := by
  induction l with
  | nil => rfl
  | cons o rest ih =>
    simp only [List.all_cons, Bool.and_eq_true] at hl
    have hr := ih hl.2
    have ho := hl.1
    cases o with
    | fill h1 x =>
      have hne : h1 ≠ h := by
        intro e
        subst e
        simp [inHists, histOf] at ho
        exact hL ho
      simp only [pushed, List.filterMap_cons, if_neg hne] at hr ⊢
      exact hr
    | profile h1 x y => simpa [pushed] using hr
    | tree row => simpa [pushed] using hr

theorem pushed_of_all' (L : List Hist) (h : Hist) (hL : h ∉ L) (l : List Obs)
    (hl : ∀ o ∈ l, inHists L o = true) : pushed h l = [] :=
  pushed_of_all L h hL l (List.all_eq_true.mpr hl)

theorem inHists_mono (L1 L2 : List Hist) (hsub : ∀ h ∈ L1, h ∈ L2) (o : Obs)
    (ho : inHists L1 o = true) : inHists L2 o = true := by
  unfold inHists at ho ⊢
  cases hh : histOf o with
  | none => simp [hh] at ho
  | some h =>
    simp only [hh, List.contains_eq_any_beq, List.any_eq_true, beq_iff_eq] at ho ⊢
    obtain ⟨x, hx, e⟩ := ho
    exact ⟨x, hsub x hx, e⟩

theorem genJetStep_obs (K : Ext) (gp : List PackedGenParticle) (acc : GenJetAcc) (i : Nat)
    (jet : GenJet) (h : ∀ o ∈ acc.obs, inHists genJetHists o = true) :
    ∀ o ∈ (genJetStep K gp acc i jet).obs, inHists genJetHists o = true := by
  simp only [genJetStep]
  split_ifs
  · exact h
  · exact h
  · exact h
  · intro o ho
    simp only [List.mem_append, List.mem_cons, List.mem_singleton, List.not_mem_nil,
      or_false] at ho
    rcases ho with ho | rfl | rfl | rfl
    · exact h o ho
    all_goals rfl

theorem genJetLoop_obs (K : Ext) (gp : List PackedGenParticle) (rest : List GenJet) :
    ∀ (i : Nat) (acc : GenJetAcc), (∀ o ∈ acc.obs, inHists genJetHists o = true) →
      ∀ o ∈ (genJetLoop K gp rest i acc).obs, inHists genJetHists o = true := by
  induction rest with
  | nil => intro i acc h; simpa [genJetLoop] using h
  | cons jet rest ih =>
    intro i acc h
    unfold genJetLoop
    exact ih _ _ (genJetStep_obs K gp acc i jet h)

theorem genTruthStep_obs (K : Ext) (u : Bool) (s : State) (p : GenParticle) :
    ∀ o ∈ (genTruthStep K u s p).2, inHists genTruthHists o = true := by
  simp only [genTruthStep]
  split_ifs <;> intro o ho <;>
    simp only [List.mem_cons, List.mem_singleton, List.not_mem_nil, or_false] at ho
  all_goals subst ho; rfl

theorem genTruthLoop_obs (K : Ext) (u : Bool) (ps : List GenParticle) :
    ∀ s : State, ∀ o ∈ (genTruthLoop K u ps s).2, inHists genTruthHists o = true := by
  induction ps with
  | nil => intro s o ho; simp [genTruthLoop] at ho
  | cons p rest ih =>
    intro s o ho
    simp only [genTruthLoop, List.mem_append] at ho
    rcases ho with ho | ho
    · exact genTruthStep_obs K u s p o ho
    · exact ih _ o ho

theorem jetStep_obs (K : Ext) (u : Bool) (elecs : List Electron) (muons : List Muon)
    (acc : JetAcc) (jet : Jet) (h : ∀ o ∈ acc.obs, inHists jetHists o = true) :
    ∀ o ∈ (jetStep K u elecs muons acc jet).obs, inHists jetHists o = true := by
  have h1 := List.all_eq_true.mpr h
  rw [← List.all_eq_true]
  simp only [jetStep]
  split_ifs <;>
    simp only [List.all_append, List.all_cons, List.all_nil, h1, Bool.and_true, Bool.true_and] <;>
    rfl

theorem jetLoop_obs (K : Ext) (u : Bool) (elecs : List Electron) (muons : List Muon)
    (jets : List Jet) :
    ∀ acc : JetAcc, (∀ o ∈ acc.obs, inHists jetHists o = true) →
      ∀ o ∈ (jetLoop K u elecs muons jets acc).obs, inHists jetHists o = true := by
  induction jets with
  | nil => intro acc h; simpa [jetLoop] using h
  | cons jet rest ih =>
    intro acc h
    have := ih _ (jetStep_obs K u elecs muons acc jet h)
    simpa [jetLoop] using this

theorem photonStep_obs (K : Ext) (cfg : Config) (acc : PhotonAcc) (ph : Photon)
    (h : ∀ o ∈ acc.obs, inHists photonHists o = true) :
    ∀ o ∈ (photonStep K cfg acc ph).obs, inHists photonHists o = true := by
  have h1 := List.all_eq_true.mpr h
  rw [← List.all_eq_true]
  simp only [photonStep, matchedObs]
  split_ifs <;>
    simp only [List.all_append, List.all_cons, List.all_nil, h1, Bool.and_true, Bool.true_and] <;>
    rfl

theorem photonFold_obs (K : Ext) (cfg : Config) (photons : List Photon) :
    ∀ acc : PhotonAcc, (∀ o ∈ acc.obs, inHists photonHists o = true) →
      ∀ o ∈ (photons.foldl (photonStep K cfg) acc).obs, inHists photonHists o = true := by
  induction photons with
  | nil => intro acc h; simpa using h
  | cons ph rest ih =>
    intro acc h
    simpa using ih _ (photonStep_obs K cfg acc ph h)

theorem diphoton_obs (K : Ext) (acc : PhotonAcc) :
    ∀ o ∈ (diphoton K acc).2, inHists diphotonHists o = true := by
  rw [← List.all_eq_true]
  simp only [diphoton, regimeObs]
  split_ifs <;>
    simp only [List.all_append, List.all_cons, List.all_nil, Bool.and_true, Bool.true_and] <;>
    rfl

/-! ## C2: the jet bucket partition -/

theorem not_mem_loopHists {h : Hist} (hh : h ∉ loopHists) :
    h ∉ genJetHists ∧ h ∉ genTruthHists ∧ h ∉ jetHists ∧ h ∉ photonHists ∧ h ∉ diphotonHists := by
  simp only [loopHists, List.mem_append, not_or] at hh
  tauto

theorem pushed_analyzeTruth (K : Ext) (cfg : Config) (s : State) (iEvent : Event) (h : Hist)
    (hh : h ∉ loopHists) :
    pushed h (analyzeTruth K cfg s iEvent).2.2 =
      pushed h [Obs.fill .h_genJets_n_
          (genJetLoop K iEvent.genParts iEvent.genJets 0
            { jGenJets := [], nGenJets := 0, obs := [] }).nGenJets,
        Obs.fill .h_genHHMass (K.M (analyzeTruth K cfg s iEvent).2.1.genHH),
        Obs.fill .h_goodBJets_Higgs_n_ (analyzeTruth K cfg s iEvent).2.1.nGenB] := by
  obtain ⟨h1, h2, -, -, -⟩ := not_mem_loopHists hh
  have e1 := pushed_of_all' genJetHists h h1 _
    (genJetLoop_obs K iEvent.genParts iEvent.genJets 0
      { jGenJets := [], nGenJets := 0, obs := [] } (by simp))
  have e2 := pushed_of_all' genTruthHists h h2 _
    (genTruthLoop_obs K cfg.useDeepCSV_ iEvent.allGenParts s)
  simp only [analyzeTruth, pushed_append, e1, e2, List.nil_append]
  have ht : ∀ row : GenPhotonRow,
      pushed h (if cfg.createPhotonTTree_ = true then [Obs.tree row] else []) = [] := by
    intro row
    split_ifs <;> rfl
  rw [ht, List.append_nil, List.append_nil, ← pushed_append]
  rfl

theorem pushed_analyzeReco (K : Ext) (cfg : Config) (s : State) (iEvent : Event) (h : Hist)
    (hh : h ∉ loopHists) :
    pushed h (analyzeReco K cfg s iEvent).2 =
      pushed h ([Obs.fill .h_goodPatBJets_Higgs_n_ s.nPatGenB]
        ++ jetSummary s.nrecoJetGenB iEvent.jets.length
            (jetLoop K cfg.useDeepCSV_ iEvent.elecs iEvent.muons iEvent.jets jetAcc0)
        ++ metObs iEvent.mets ++ [Obs.fill .h_nPho_ 0]) := by
  obtain ⟨-, -, h3, h4, h5⟩ := not_mem_loopHists hh
  have e3 := pushed_of_all' jetHists h h3 _
    (jetLoop_obs K cfg.useDeepCSV_ iEvent.elecs iEvent.muons iEvent.jets jetAcc0
      (by simp [jetAcc0]))
  have e4 := pushed_of_all' photonHists h h4 _
    (photonFold_obs K cfg (iEvent.photons.take (toInt32 iEvent.photons.length).toNat)
      (photonAcc0 s) (by simp [photonAcc0]))
  have e5 := pushed_of_all' diphotonHists h h5 _
    (diphoton_obs K (photonLoop K cfg iEvent.photons (photonAcc0 s)))
  simp only [photonLoop] at e5
  simp only [analyzeReco, photonLoop, pushed_append, e3, e4, e5, List.nil_append,
    List.append_nil]

theorem jetStep_partition (K : Ext) (u : Bool) (elecs : List Electron) (muons : List Muon)
    (acc : JetAcc) (jet : Jet) (h : acc.nGoodLightJets + acc.nGoodBtaggedJets = acc.nGoodJets) :
    (jetStep K u elecs muons acc jet).nGoodLightJets
      + (jetStep K u elecs muons acc jet).nGoodBtaggedJets
      = (jetStep K u elecs muons acc jet).nGoodJets := by
  simp only [jetStep]
  split_ifs <;> first | exact h | (simp only []; omega)

theorem jetLoop_partition (K : Ext) (u : Bool) (elecs : List Electron) (muons : List Muon)
    (jets : List Jet) :
    ∀ acc : JetAcc, acc.nGoodLightJets + acc.nGoodBtaggedJets = acc.nGoodJets →
      (jetLoop K u elecs muons jets acc).nGoodLightJets
        + (jetLoop K u elecs muons jets acc).nGoodBtaggedJets
        = (jetLoop K u elecs muons jets acc).nGoodJets := by
  induction jets with
  | nil => intro acc h; simpa [jetLoop] using h
  | cons jet rest ih =>
    intro acc h
    have := ih _ (jetStep_partition K u elecs muons acc jet h)
    simpa [jetLoop] using this

theorem pushed_metObs (h : Hist) (mets : List MET) (h1 : h ≠ .h_goodMET_pt_)
    (h2 : h ≠ .h_goodMET_phi_) : pushed h (metObs mets) = [] := by
  cases mets with
  | nil => rfl
  | cons m rest => simp [metObs, pushed, Ne.symm h1, Ne.symm h2]

/-- C2 (jet bucket partition): in every event that passes the vertex gate,
`analyze` returns and pushes exactly one good-light multiplicity, one
good-b-tagged multiplicity and one good-jet multiplicity, and the first two add
up to the third. -/
theorem C2_jet_bucket_partition (K : Ext) (cfg : Config) (s : State) (iEvent : Event)
    (h : aborted iEvent = false) :
    ∃ (s1 : State) (obs : List Obs) (nLight nBtagged nGood : Nat),
      analyze K cfg s iEvent = some (s1, obs)
      ∧ pushed .h_goodLJets_n_ obs = [(nLight : ℚ)]
      ∧ pushed .h_goodBJets_n_ obs = [(nBtagged : ℚ)]
      ∧ pushed .h_goodJets_n_ obs = [(nGood : ℚ)]
      ∧ nLight + nBtagged = nGood := by
  refine ⟨_, _, _, _, _, analyze_of_not_aborted K cfg s iEvent h, ?_, ?_, ?_,
    jetLoop_partition K cfg.useDeepCSV_ iEvent.elecs iEvent.muons iEvent.jets jetAcc0 rfl⟩
  · rw [pushed_append, pushed_append, pushed_analyzeTruth _ _ _ _ _ (by decide),
      pushed_analyzeReco _ _ _ _ _ (by decide), pushed_append, pushed_append, pushed_append,
      pushed_metObs _ _ (by decide) (by decide)]
    simp [pushed, jetSummary]
  · rw [pushed_append, pushed_append, pushed_analyzeTruth _ _ _ _ _ (by decide),
      pushed_analyzeReco _ _ _ _ _ (by decide), pushed_append, pushed_append, pushed_append,
      pushed_metObs _ _ (by decide) (by decide)]
    simp [pushed, jetSummary]
  · rw [pushed_append, pushed_append, pushed_analyzeTruth _ _ _ _ _ (by decide),
      pushed_analyzeReco _ _ _ _ _ (by decide), pushed_append, pushed_append, pushed_append,
      pushed_metObs _ _ (by decide) (by decide)]
    simp [pushed, jetSummary]

theorem sampleEvent_not_aborted : aborted sampleEvent = false := by
  norm_num [aborted, sampleEvent, vertexLoop, toInt32]

/-- Witness of C2 on `sampleEvent`. -/
theorem C2_jet_bucket_partition_witness :
    aborted sampleEvent = false ∧
    ∃ (s1 : State) (obs : List Obs) (nLight nBtagged nGood : Nat),
      analyze sampleExt sampleConfig sampleState sampleEvent = some (s1, obs)
      ∧ pushed .h_goodLJets_n_ obs = [(nLight : ℚ)]
      ∧ pushed .h_goodBJets_n_ obs = [(nBtagged : ℚ)]
      ∧ pushed .h_goodJets_n_ obs = [(nGood : ℚ)]
      ∧ nLight + nBtagged = nGood :=
  ⟨sampleEvent_not_aborted,
    C2_jet_bucket_partition sampleExt sampleConfig sampleState sampleEvent
      sampleEvent_not_aborted⟩

/-! ## C3: overlap exclusivity -/

theorem jetStep_of_overlap (K : Ext) (u : Bool) (elecs : List Electron) (muons : List Muon)
    (jet : Jet)
    (h : ∃ l ∈ elecs.map (fun e => e.p4) ++ muons.map (fun m => m.p4),
      |jet.p4.pt - l.pt| < 0.01 * l.pt ∧ K.VectorUtil_DeltaR l jet.p4 < 0.01)
    (acc : JetAcc) : jetStep K u elecs muons acc jet = acc := by
  obtain ⟨l, hl, hpt, hdr⟩ := h
  rcases List.mem_append.mp hl with hl | hl
  · obtain ⟨e, he, rfl⟩ := List.mem_map.mp hl
    have : elecs.any (fun e => overlapsLepton K jet.p4 e.p4) = true :=
      List.any_eq_true.mpr ⟨e, he, by simp [overlapsLepton, hpt, hdr]⟩
    simp [jetStep, this]
  · obtain ⟨m, hm, rfl⟩ := List.mem_map.mp hl
    have : muons.any (fun m => overlapsLepton K jet.p4 m.p4) = true :=
      List.any_eq_true.mpr ⟨m, hm, by simp [overlapsLepton, hpt, hdr]⟩
    unfold jetStep
    split_ifs <;> rfl

/-- Dropping a jet that coincides with a lepton from the jet collection changes
nothing that `analyze` pushes, apart from the value pushed to the all-jets
multiplicity `h_allJets_n_`. -/
theorem analyze_without_overlapping_jet (K : Ext) (cfg : Config) (s : State) (iEvent : Event)
    (before after : List Jet) (jet : Jet) (hj : iEvent.jets = before ++ jet :: after)
    (h : ∃ l ∈ iEvent.elecs.map (fun e => e.p4) ++ iEvent.muons.map (fun m => m.p4),
      |jet.p4.pt - l.pt| < 0.01 * l.pt ∧ K.VectorUtil_DeltaR l jet.p4 < 0.01) :
    ∃ (s1 : State) (obs obs1 : List Obs),
      analyze K cfg s iEvent = some (s1, obs)
      ∧ analyze K cfg s { iEvent with jets := before ++ after } = some (s1, obs1)
      ∧ obs.filter (fun o => !inHists [.h_allJets_n_] o)
          = obs1.filter (fun o => !inHists [.h_allJets_n_] o) := by
  have hloop : jetLoop K cfg.useDeepCSV_ iEvent.elecs iEvent.muons iEvent.jets jetAcc0
      = jetLoop K cfg.useDeepCSV_ iEvent.elecs iEvent.muons (before ++ after) jetAcc0 := by
    rw [hj]
    simp [jetLoop, List.foldl_append, jetStep_of_overlap K cfg.useDeepCSV_ _ _ jet h]
  cases ha : aborted iEvent with
  | true =>
    have ha1 : aborted { iEvent with jets := before ++ after } = true := ha
    exact ⟨_, _, _, analyze_of_aborted K cfg s iEvent ha, analyze_of_aborted K cfg s _ ha1, rfl⟩
  | false =>
    have ha1 : aborted { iEvent with jets := before ++ after } = false := ha
    refine ⟨(analyzeReco K cfg (analyzeTruth K cfg (resetTruth s) iEvent).2.1 iEvent).1, _,
      [Obs.fill .h_goodVertices_n_ (vertexLoop iEvent.vertices 0 (-1) 0).2,
         Obs.fill .h_allVertices_n_ iEvent.vertices.length]
        ++ (analyzeTruth K cfg (resetTruth s) iEvent).2.2
        ++ (analyzeReco K cfg (analyzeTruth K cfg (resetTruth s) iEvent).2.1
            { iEvent with jets := before ++ after }).2,
      analyze_of_not_aborted K cfg s iEvent ha,
      analyze_of_not_aborted K cfg s { iEvent with jets := before ++ after } ha1, ?_⟩
    simp only [analyzeReco, jetSummary, hloop, List.filter_append, List.filter_cons,
      List.filter_nil]
    rfl

/-- C3 (overlap exclusivity): in every event, a jet of the jet collection for
which some electron or muon satisfies |pt(jet) - pt(lepton)| < 0.01 pt(lepton)
and DeltaR(lepton, jet) < 0.01 leaves the six jet counters (good, good-light,
good-b-tagged and their true-b sub-counts) and the list of jet observations
exactly as they were (no all-jets, ID, good, light or b-tagged fill); the jet
loop ends with the same counters and observations as if the jet were absent; and
`analyze` pushes the same observations as on the event without the jet, apart
from the value of the all-jets multiplicity `h_allJets_n_`. -/
theorem C3_overlap_exclusivity (K : Ext) (cfg : Config) (s : State) (iEvent : Event)
    (before after : List Jet) (jet : Jet) (hj : iEvent.jets = before ++ jet :: after)
    (h : ∃ l ∈ iEvent.elecs.map (fun e => e.p4) ++ iEvent.muons.map (fun m => m.p4),
      |jet.p4.pt - l.pt| < 0.01 * l.pt ∧ K.VectorUtil_DeltaR l jet.p4 < 0.01) :
    (∀ acc : JetAcc, jetStep K cfg.useDeepCSV_ iEvent.elecs iEvent.muons acc jet = acc)
    ∧ (∀ acc : JetAcc,
        jetLoop K cfg.useDeepCSV_ iEvent.elecs iEvent.muons iEvent.jets acc
          = jetLoop K cfg.useDeepCSV_ iEvent.elecs iEvent.muons (before ++ after) acc)
    ∧ ∃ (s1 : State) (obs obs1 : List Obs),
        analyze K cfg s iEvent = some (s1, obs)
        ∧ analyze K cfg s { iEvent with jets := before ++ after } = some (s1, obs1)
        ∧ obs.filter (fun o => !inHists [.h_allJets_n_] o)
            = obs1.filter (fun o => !inHists [.h_allJets_n_] o) := by
  refine ⟨jetStep_of_overlap K cfg.useDeepCSV_ iEvent.elecs iEvent.muons jet h, ?_,
    analyze_without_overlapping_jet K cfg s iEvent before after jet hj h⟩
  intro acc
  rw [hj]
  simp [jetLoop, List.foldl_append,
    jetStep_of_overlap K cfg.useDeepCSV_ iEvent.elecs iEvent.muons jet h]

/-- Witness of C3: the jet `jetOnElectron`, third of the four jets of
`sampleEvent`, against the leptons of that event. -/
theorem C3_overlap_exclusivity_witness :
    sampleEvent.jets = [sampleJet, sampleBJet] ++ jetOnElectron
        :: [{ sampleJet with p4 := { pt := 20, eta := 2, phi := 2, mass := 3 } }]
    ∧ (∃ l ∈ sampleEvent.elecs.map (fun e => e.p4) ++ sampleEvent.muons.map (fun m => m.p4),
      |jetOnElectron.p4.pt - l.pt| < 0.01 * l.pt
        ∧ sampleExt.VectorUtil_DeltaR l jetOnElectron.p4 < 0.01)
    ∧ (∀ acc : JetAcc,
        jetStep sampleExt sampleConfig.useDeepCSV_ sampleEvent.elecs sampleEvent.muons acc
          jetOnElectron = acc) :=
  have h : ∃ l ∈ sampleEvent.elecs.map (fun e => e.p4) ++ sampleEvent.muons.map (fun m => m.p4),
      |jetOnElectron.p4.pt - l.pt| < 0.01 * l.pt
        ∧ sampleExt.VectorUtil_DeltaR l jetOnElectron.p4 < 0.01 :=
    ⟨sampleElectron.p4, by simp [sampleEvent], by
      norm_num [jetOnElectron, sampleElectron, sampleExt]⟩
  ⟨rfl, h,
    (C3_overlap_exclusivity sampleExt sampleConfig sampleState sampleEvent
      [sampleJet, sampleBJet] [{ sampleJet with p4 := { pt := 20, eta := 2, phi := 2, mass := 3 } }]
      jetOnElectron rfl h).1⟩

/-! ## C4: the all-jets multiplicity -/

theorem pushed_allJets_n (K : Ext) (cfg : Config) (s : State) (iEvent : Event)
    (h : aborted iEvent = false) :
    ∃ (s1 : State) (obs : List Obs), analyze K cfg s iEvent = some (s1, obs)
      ∧ pushed .h_allJets_n_ obs = [(iEvent.jets.length : ℚ)] := by
  refine ⟨_, _, analyze_of_not_aborted K cfg s iEvent h, ?_⟩
  rw [pushed_append, pushed_append, pushed_analyzeTruth _ _ _ _ _ (by decide),
    pushed_analyzeReco _ _ _ _ _ (by decide), pushed_append, pushed_append, pushed_append,
    pushed_metObs _ _ (by decide) (by decide)]
  simp [pushed, jetSummary]

theorem overlapEvent_not_aborted : aborted overlapEvent = false := by
  norm_num [aborted, overlapEvent, emptyEvent, vertexLoop, toInt32]

/-- C4, as stated, fails: in an event that passes the vertex gate and whose only
jet coincides with its only electron, the all-jets multiplicity pushed is 1
while no jet gets past the overlap filter. -/
theorem C4_counterexample_overlapping_jet_counted :
    aborted overlapEvent = false
    ∧ (nonOverlappingJets sampleExt overlapEvent).length = 0
    ∧ ∃ (s1 : State) (obs : List Obs),
        analyze sampleExt sampleConfig sampleState overlapEvent = some (s1, obs)
        ∧ pushed .h_allJets_n_ obs = [1]
        ∧ pushed .h_allJets_n_ obs
            ≠ [((nonOverlappingJets sampleExt overlapEvent).length : ℚ)] := by
  have h0 : (nonOverlappingJets sampleExt overlapEvent).length = 0 := by
    norm_num [nonOverlappingJets, overlapEvent, emptyEvent, overlapsLepton, jetOnElectron,
      sampleElectron, sampleExt]
  obtain ⟨s1, obs, h1, h2⟩ :=
    pushed_allJets_n sampleExt sampleConfig sampleState overlapEvent overlapEvent_not_aborted
  have h3 : pushed .h_allJets_n_ obs = [1] := by
    rw [h2]; norm_num [overlapEvent]
  refine ⟨overlapEvent_not_aborted, h0, s1, obs, h1, h3, ?_⟩
  rw [h3, h0]
  norm_num

/-- C4 (amended): in every event that passes the vertex gate, the all-jets
multiplicity pushed is the size of the jet collection, the jets removed by the
overlap filter included. -/
theorem C4_all_jets_multiplicity (K : Ext) (cfg : Config) (s : State) (iEvent : Event)
    (h : aborted iEvent = false) :
    ∃ (s1 : State) (obs : List Obs), analyze K cfg s iEvent = some (s1, obs)
      ∧ pushed .h_allJets_n_ obs = [(iEvent.jets.length : ℚ)] :=
  pushed_allJets_n K cfg s iEvent h

/-- Witness of the amended C4 on `sampleEvent`. -/
theorem C4_all_jets_multiplicity_witness :
    aborted sampleEvent = false
    ∧ ∃ (s1 : State) (obs : List Obs),
        analyze sampleExt sampleConfig sampleState sampleEvent = some (s1, obs)
        ∧ pushed .h_allJets_n_ obs = [(sampleEvent.jets.length : ℚ)] :=
  ⟨sampleEvent_not_aborted,
    C4_all_jets_multiplicity sampleExt sampleConfig sampleState sampleEvent
      sampleEvent_not_aborted⟩

/-! ## C5: the b-tag threshold -/

theorem pushed_snoc_fill (h h1 : Hist) (l : List Obs) (x : ℚ) :
    pushed h (l ++ [Obs.fill h1 x]) = pushed h l ++ (if h1 = h then [x] else []) := by
  rw [pushed_append]
  congr 1
  simp only [pushed, List.filterMap_cons, List.filterMap_nil]
  split_ifs <;> rfl

theorem jetStep_good (K : Ext) (u : Bool) (elecs : List Electron) (muons : List Muon)
    (acc : JetAcc) (jet : Jet)
    (he : elecs.any (fun e => overlapsLepton K jet.p4 e.p4) = false)
    (hm : muons.any (fun m => overlapsLepton K jet.p4 m.p4) = false)
    (hpt : 30 ≤ jet.p4.pt) (heta : |jet.p4.eta| ≤ 4.7) (hid : jet.jetIDLoose = true) :
    (((u = true ∧ btagDisc u jet > 0.6324) ∨ (¬ u = true ∧ btagDisc u jet > 0.8484)) →
      landsInBtagged acc (jetStep K u elecs muons acc jet) (btagDisc u jet))
    ∧ (¬ ((u = true ∧ btagDisc u jet > 0.6324) ∨ (¬ u = true ∧ btagDisc u jet > 0.8484)) →
      landsInLight acc (jetStep K u elecs muons acc jet) (btagDisc u jet)) := by
  have hpt1 : ¬ jet.p4.pt < 30 := not_lt.mpr hpt
  have heta1 : ¬ |jet.p4.eta| > 4.7 := not_lt.mpr heta
  constructor
  · intro hc
    simp only [jetStep, he, hm, hpt1, heta1, hid, hc, landsInBtagged]
    simp [pushed_append, pushed]
  · intro hc
    simp only [jetStep, he, hm, hpt1, heta1, hid, hc, landsInLight]
    simp [pushed_append, pushed]

theorem not_btagged_and_light (acc acc1 : JetAcc) (d : ℚ) (h1 : landsInBtagged acc acc1 d)
    (h2 : landsInLight acc acc1 d) : False := by
  have a := h1.2.1
  have b := h2.1
  omega

theorem roundF32_floatSumJet :
    roundF32 (floatSumJet.probb + floatSumJet.probbb) = 10609911 / 16777216 := by
  have h := roundF32_eq (0.625 + 1986423 / 268435456) (-1) 10609911
    (by norm_num [abs_of_pos]) (by norm_num [abs_of_pos]) (by norm_num) (by norm_num)
    (by norm_num)
  show roundF32 (0.625 + 1986423 / 268435456) = _
  rw [h]
  norm_num

theorem roundF32_sampleBJet :
    roundF32 (sampleBJet.probb + sampleBJet.probbb) = 13421773 / 16777216 := by
  have h := roundF32_eq (0.5 + 0.3) (-1) 13421773
    (by norm_num [abs_of_pos]) (by norm_num [abs_of_pos]) (by norm_num) (by norm_num)
    (by norm_num)
  show roundF32 (0.5 + 0.3) = _
  rw [h]
  norm_num

/-- C5, as stated for scheme A, fails: the jet `floatSumJet` coincides with no
lepton and passes the good-jet gate, the sum of its two sub-discriminants,
0.625 + 1986423 / 2^28, is strictly greater than 0.6324, and under scheme A it
is put in the light bucket, not in the b-tagged one: the discriminant compared
with 0.6324 is the sum computed in single precision, 10609911 / 2^24, which is
below 0.6324. -/
theorem C5_counterexample_float_sum :
    30 ≤ floatSumJet.p4.pt ∧ |floatSumJet.p4.eta| ≤ 4.7 ∧ floatSumJet.jetIDLoose = true
    ∧ floatSumJet.probb + floatSumJet.probbb > 0.6324
    ∧ btagDisc true floatSumJet = 10609911 / 16777216
    ∧ btagDisc true floatSumJet < 0.6324
    ∧ landsInLight jetAcc0 (jetStep sampleExt true [] [] jetAcc0 floatSumJet)
        (btagDisc true floatSumJet)
    ∧ ∀ d : ℚ, ¬ landsInBtagged jetAcc0 (jetStep sampleExt true [] [] jetAcc0 floatSumJet) d := by
  have hpt : 30 ≤ floatSumJet.p4.pt := by norm_num [floatSumJet, sampleJet]
  have heta : |floatSumJet.p4.eta| ≤ 4.7 := by norm_num [floatSumJet, sampleJet]
  have hd : btagDisc true floatSumJet = 10609911 / 16777216 := by
    simp only [btagDisc, if_true]
    exact roundF32_floatSumJet
  have hlt : btagDisc true floatSumJet < 0.6324 := by
    rw [hd]; norm_num
  have hl := (jetStep_good sampleExt true [] [] jetAcc0 floatSumJet rfl rfl hpt heta rfl).2
    (by
      rintro (⟨-, h⟩ | ⟨h, -⟩)
      · exact absurd h (not_lt.mpr (le_of_lt hlt))
      · exact h rfl)
  refine ⟨hpt, heta, rfl, by norm_num [floatSumJet], hd, hlt, hl, fun d hb => ?_⟩
  have a := hb.1
  have b := hl.2.1
  omega

/-- C5 (amended). B-tag threshold boundary: a jet that coincides with no lepton
and passes the good-jet gate (pt >= 30, |eta| <= 4.7, loose ID) is put in the
b-tagged bucket iff its discriminant is strictly above the working point and
in the light bucket otherwise: under scheme B the discriminant is the combined
discriminant and the working point 0.8484, a discriminant equal to 0.8484
giving the light bucket; under scheme A the discriminant is the sum of the two
sub-discriminants computed in single precision (the exact sum rounded to the
nearest `float`) and the working point 0.6324. -/
theorem C5_btag_threshold (K : Ext) (elecs : List Electron) (muons : List Muon)
    (acc : JetAcc) (jet : Jet)
    (he : elecs.any (fun e => overlapsLepton K jet.p4 e.p4) = false)
    (hm : muons.any (fun m => overlapsLepton K jet.p4 m.p4) = false)
    (hpt : 30 ≤ jet.p4.pt) (heta : |jet.p4.eta| ≤ 4.7) (hid : jet.jetIDLoose = true) :
    (landsInBtagged acc (jetStep K false elecs muons acc jet) jet.csvv2 ↔ jet.csvv2 > 0.8484)
    ∧ (landsInLight acc (jetStep K false elecs muons acc jet) jet.csvv2 ↔ ¬ jet.csvv2 > 0.8484)
    ∧ (landsInBtagged acc (jetStep K true elecs muons acc jet)
          (roundF32 (jet.probb + jet.probbb))
        ↔ roundF32 (jet.probb + jet.probbb) > 0.6324)
    ∧ (landsInLight acc (jetStep K true elecs muons acc jet)
          (roundF32 (jet.probb + jet.probbb))
        ↔ ¬ roundF32 (jet.probb + jet.probbb) > 0.6324)
    ∧ (jet.csvv2 = 0.8484 → landsInLight acc (jetStep K false elecs muons acc jet) jet.csvv2)
    ∧ (roundF32 (jet.probb + jet.probbb) ≤ 0.6324 →
        landsInLight acc (jetStep K true elecs muons acc jet)
          (roundF32 (jet.probb + jet.probbb))) := by
  have hB := jetStep_good K false elecs muons acc jet he hm hpt heta hid
  have hA := jetStep_good K true elecs muons acc jet he hm hpt heta hid
  simp only [btagDisc, Bool.false_eq_true, false_and, not_false_eq_true, true_and,
    false_or, if_false] at hB
  simp only [btagDisc, true_and, not_true_eq_false, false_and, or_false, if_true] at hA
  refine ⟨⟨fun h => ?_, hB.1⟩, ⟨fun h => ?_, hB.2⟩, ⟨fun h => ?_, hA.1⟩, ⟨fun h => ?_, hA.2⟩,
    fun h => hB.2 (by rw [h]; exact lt_irrefl _), fun h => hA.2 (not_lt.mpr h)⟩
  · by_contra hc
    exact not_btagged_and_light _ _ _ h (hB.2 hc)
  · intro hc
    exact not_btagged_and_light _ _ _ (hB.1 hc) h
  · by_contra hc
    exact not_btagged_and_light _ _ _ h (hA.2 hc)
  · intro hc
    exact not_btagged_and_light _ _ _ (hA.1 hc) h

/-- Witness of the amended C5: the jet `sampleBJet` against the leptons of
`sampleEvent`. Under scheme B its discriminant is 0.9; under scheme A its
discriminant is the `float` sum of 0.5 and 0.3, 13421773 / 2^24, above 0.6324,
and it is put in the b-tagged bucket. -/
theorem C5_btag_threshold_witness :
    sampleEvent.elecs.any (fun e => overlapsLepton sampleExt sampleBJet.p4 e.p4) = false
    ∧ sampleEvent.muons.any (fun m => overlapsLepton sampleExt sampleBJet.p4 m.p4) = false
    ∧ 30 ≤ sampleBJet.p4.pt ∧ |sampleBJet.p4.eta| ≤ 4.7 ∧ sampleBJet.jetIDLoose = true
    ∧ (landsInBtagged jetAcc0
          (jetStep sampleExt false sampleEvent.elecs sampleEvent.muons jetAcc0 sampleBJet)
          sampleBJet.csvv2 ↔ sampleBJet.csvv2 > 0.8484)
    ∧ roundF32 (sampleBJet.probb + sampleBJet.probbb) = 13421773 / 16777216
    ∧ landsInBtagged jetAcc0
          (jetStep sampleExt true sampleEvent.elecs sampleEvent.muons jetAcc0 sampleBJet)
          (roundF32 (sampleBJet.probb + sampleBJet.probbb)) :=
  have he : sampleEvent.elecs.any (fun e => overlapsLepton sampleExt sampleBJet.p4 e.p4)
      = false := by
    norm_num [sampleEvent, overlapsLepton, sampleBJet, sampleElectron, sampleExt]
  have hm : sampleEvent.muons.any (fun m => overlapsLepton sampleExt sampleBJet.p4 m.p4)
      = false := by
    norm_num [sampleEvent, overlapsLepton, sampleBJet, sampleMuon, sampleExt]
  have hpt : 30 ≤ sampleBJet.p4.pt := by norm_num [sampleBJet]
  have heta : |sampleBJet.p4.eta| ≤ 4.7 := by
    norm_num [sampleBJet, abs_div, Nat.abs_ofNat]
  have key := C5_btag_threshold sampleExt sampleEvent.elecs sampleEvent.muons jetAcc0 sampleBJet
    he hm hpt heta rfl
  ⟨he, hm, hpt, heta, rfl, key.1, roundF32_sampleBJet,
    key.2.2.1.mpr (by rw [roundF32_sampleBJet]; norm_num)⟩

/-! ## C6: the order of the truth photons -/

theorem genTruthLoop_append (K : Ext) (u : Bool) (l1 l2 : List GenParticle) :
    ∀ s : State, genTruthLoop K u (l1 ++ l2) s =
      ((genTruthLoop K u l2 (genTruthLoop K u l1 s).1).1,
        (genTruthLoop K u l1 s).2 ++ (genTruthLoop K u l2 (genTruthLoop K u l1 s).1).2) := by
  induction l1 with
  | nil => intro s; simp [genTruthLoop]
  | cons p rest ih =>
    intro s
    rw [List.cons_append]
    simp only [genTruthLoop]
    rw [ih]
    simp only [List.append_assoc]

theorem genTruthStep_not_photon (K : Ext) (u : Bool) (s : State) (p : GenParticle)
    (hp : isHiggsPhoton p = false) :
    (genTruthStep K u s p).1.nGenPhotons = s.nGenPhotons
      ∧ truthPhotons (genTruthStep K u s p).1 = truthPhotons s
      ∧ pushed .h_genPhotonHiggsMass (genTruthStep K u s p).2 = [] := by
  simp only [isHiggsPhoton, decide_eq_false_iff_not, not_and] at hp
  simp only [genTruthStep]
  split_ifs with h1 h2 h3 <;> simp_all [truthPhotons, pushed]

theorem genTruthLoop_no_photon (K : Ext) (u : Bool) (ps : List GenParticle)
    (hps : ∀ p ∈ ps, isHiggsPhoton p = false) :
    ∀ s : State, (genTruthLoop K u ps s).1.nGenPhotons = s.nGenPhotons
      ∧ truthPhotons (genTruthLoop K u ps s).1 = truthPhotons s
      ∧ pushed .h_genPhotonHiggsMass (genTruthLoop K u ps s).2 = [] := by
  induction ps with
  | nil => intro s; simp [genTruthLoop, pushed]
  | cons p rest ih =>
    intro s
    have h1 := genTruthStep_not_photon K u s p (hps p (List.mem_cons_self _ _))
    have h2 := ih (fun q hq => hps q (List.mem_cons_of_mem _ hq)) (genTruthStep K u s p).1
    simp only [genTruthLoop, pushed_append]
    exact ⟨h2.1.trans h1.1, h2.2.1.trans h1.2.1, by rw [h1.2.2, h2.2.2]; rfl⟩

theorem genTruthStep_first_photon (K : Ext) (u : Bool) (s : State) (p : GenParticle)
    (hp : isHiggsPhoton p = true) (hn : s.nGenPhotons = 0) :
    (genTruthStep K u s p).1.nGenPhotons = 1
      ∧ (genTruthStep K u s p).1.genPhoton1 = .SetPtEtaPhiM p.p4.pt p.p4.eta p.p4.phi 0
      ∧ (genTruthStep K u s p).1.genPhoton1_pt = p.p4.pt
      ∧ (genTruthStep K u s p).1.genPhoton1_eta = p.p4.eta
      ∧ (genTruthStep K u s p).1.genPhoton1_phi = p.p4.phi
      ∧ (genTruthStep K u s p).2 = [] := by
  simp only [isHiggsPhoton, decide_eq_true_eq] at hp
  simp [genTruthStep, hp, hn]

theorem genTruthStep_second_photon (K : Ext) (u : Bool) (s : State) (p : GenParticle)
    (hp : isHiggsPhoton p = true) (hn : s.nGenPhotons = 1) :
    (genTruthStep K u s p).1.nGenPhotons = 2
      ∧ truthPhotons (genTruthStep K u s p).1 =
          (s.genPhoton1, .SetPtEtaPhiM p.p4.pt p.p4.eta p.p4.phi 0,
            (s.genPhoton1_pt, s.genPhoton1_eta, s.genPhoton1_phi),
            (p.p4.pt, p.p4.eta, p.p4.phi),
            .add s.genPhoton1 (.SetPtEtaPhiM p.p4.pt p.p4.eta p.p4.phi 0),
            K.M (.add s.genPhoton1 (.SetPtEtaPhiM p.p4.pt p.p4.eta p.p4.phi 0)))
      ∧ (genTruthStep K u s p).2 =
          [Obs.fill .h_genPhotonHiggsMass
            (K.M (.add s.genPhoton1 (.SetPtEtaPhiM p.p4.pt p.p4.eta p.p4.phi 0)))] := by
  simp only [isHiggsPhoton, decide_eq_true_eq] at hp
  simp [genTruthStep, hp, hn, truthPhotons]

theorem genTruthStep_later (K : Ext) (u : Bool) (s : State) (p : GenParticle)
    (hn : 2 ≤ s.nGenPhotons) :
    2 ≤ (genTruthStep K u s p).1.nGenPhotons
      ∧ truthPhotons (genTruthStep K u s p).1 = truthPhotons s
      ∧ pushed .h_genPhotonHiggsMass (genTruthStep K u s p).2 = [] := by
  simp only [genTruthStep]
  split_ifs <;> simp_all [truthPhotons, pushed]
  all_goals omega

theorem genTruthLoop_later (K : Ext) (u : Bool) (ps : List GenParticle) :
    ∀ s : State, 2 ≤ s.nGenPhotons →
      2 ≤ (genTruthLoop K u ps s).1.nGenPhotons
      ∧ truthPhotons (genTruthLoop K u ps s).1 = truthPhotons s
      ∧ pushed .h_genPhotonHiggsMass (genTruthLoop K u ps s).2 = [] := by
  induction ps with
  | nil => intro s hn; simp [genTruthLoop, pushed, hn]
  | cons p rest ih =>
    intro s hn
    have h1 := genTruthStep_later K u s p hn
    have h2 := ih (genTruthStep K u s p).1 h1.1
    simp only [genTruthLoop, pushed_append]
    exact ⟨h2.1, h2.2.1.trans h1.2.1, by rw [h1.2.2, h2.2.2]; rfl⟩

/-- The truth photons after the loop over a list whose first two Higgs-daughter
photons are `a` and `b`. -/
theorem genTruthLoop_two_photons (K : Ext) (u : Bool) (s : State)
    (before mid after : List GenParticle) (a b : GenParticle)
    (hn : s.nGenPhotons = 0)
    (ha : isHiggsPhoton a = true) (hb : isHiggsPhoton b = true)
    (hbefore : ∀ p ∈ before, isHiggsPhoton p = false)
    (hmid : ∀ p ∈ mid, isHiggsPhoton p = false) :
    truthPhotons (genTruthLoop K u (before ++ a :: (mid ++ b :: after)) s).1 =
      (.SetPtEtaPhiM a.p4.pt a.p4.eta a.p4.phi 0, .SetPtEtaPhiM b.p4.pt b.p4.eta b.p4.phi 0,
        (a.p4.pt, a.p4.eta, a.p4.phi), (b.p4.pt, b.p4.eta, b.p4.phi),
        .add (.SetPtEtaPhiM a.p4.pt a.p4.eta a.p4.phi 0)
          (.SetPtEtaPhiM b.p4.pt b.p4.eta b.p4.phi 0),
        K.M (.add (.SetPtEtaPhiM a.p4.pt a.p4.eta a.p4.phi 0)
          (.SetPtEtaPhiM b.p4.pt b.p4.eta b.p4.phi 0)))
    ∧ pushed .h_genPhotonHiggsMass
        (genTruthLoop K u (before ++ a :: (mid ++ b :: after)) s).2 =
      [K.M (.add (.SetPtEtaPhiM a.p4.pt a.p4.eta a.p4.phi 0)
          (.SetPtEtaPhiM b.p4.pt b.p4.eta b.p4.phi 0))] := by
  have e1 := genTruthLoop_no_photon K u before hbefore s
  have e2 := genTruthStep_first_photon K u (genTruthLoop K u before s).1 a ha (e1.1.trans hn)
  have e3 := genTruthLoop_no_photon K u mid hmid
    (genTruthStep K u (genTruthLoop K u before s).1 a).1
  have e4 := genTruthStep_second_photon K u
    (genTruthLoop K u mid (genTruthStep K u (genTruthLoop K u before s).1 a).1).1 b hb
    (e3.1.trans e2.1)
  have e5 := genTruthLoop_later K u after
    (genTruthStep K u
      (genTruthLoop K u mid (genTruthStep K u (genTruthLoop K u before s).1 a).1).1 b).1
    (le_of_eq e4.1.symm)
  have e3' := e3.2.1
  simp only [truthPhotons, Prod.mk.injEq] at e3'
  obtain ⟨g1, -, ⟨g3, g4, g5⟩, -, -, -⟩ := e3'
  obtain ⟨-, f2, f3, f4, f5, f6⟩ := e2
  rw [genTruthLoop_append]
  simp only [genTruthLoop, genTruthLoop_append, pushed_append]
  constructor
  · rw [e5.2.1, e4.2.1, g1, g3, g4, g5, f2, f3, f4, f5]
  · rw [e5.2.2, e4.2.2, e3.2.2, e1.2.2, f6, g1, f2]
    simp [pushed]

theorem photonStep_recoFrame (K : Ext) (cfg : Config) (acc : PhotonAcc) (ph : Photon) :
    recoFrame (photonStep K cfg acc ph).s = recoFrame acc.s := by
  simp only [photonStep]
  split_ifs <;> rfl

theorem photonFold_recoFrame (K : Ext) (cfg : Config) (photons : List Photon) :
    ∀ acc : PhotonAcc, recoFrame (photons.foldl (photonStep K cfg) acc).s = recoFrame acc.s := by
  induction photons with
  | nil => intro acc; rfl
  | cons ph rest ih =>
    intro acc
    simp only [List.foldl_cons]
    rw [ih, photonStep_recoFrame]

theorem diphoton_recoFrame (K : Ext) (acc : PhotonAcc) :
    recoFrame (diphoton K acc).1 = recoFrame acc.s := by
  simp only [diphoton]
  split_ifs <;> rfl

/-- The part of `analyze` after the generator-lepton loop writes no member
other than the seven reconstructed-photon vectors. -/
theorem analyzeReco_recoFrame (K : Ext) (cfg : Config) (s : State) (iEvent : Event) :
    recoFrame (analyzeReco K cfg s iEvent).1 = recoFrame s := by
  simp only [analyzeReco, photonLoop]
  rw [diphoton_recoFrame, photonFold_recoFrame]
  rfl

theorem analyzeReco_truthPhotons (K : Ext) (cfg : Config) (s : State) (iEvent : Event) :
    truthPhotons (analyzeReco K cfg s iEvent).1 = truthPhotons s := by
  have h := congrArg truthPhotons (analyzeReco_recoFrame K cfg s iEvent)
  exact h

theorem split_at_index {α : Type} (l : List α) (i : Nat) (a : α) (h : l[i]? = some a) :
    l = l.take i ++ a :: l.drop (i + 1) := by
  obtain ⟨hi, rfl⟩ := List.getElem?_eq_some.mp h
  rw [← List.drop_eq_getElem_cons hi, List.take_append_drop]

theorem mem_take_getElem? {α : Type} (l : List α) (n : Nat) (p : α) (h : p ∈ l.take n) :
    ∃ k, k < n ∧ l[k]? = some p := by
  obtain ⟨k, hk, e⟩ := List.mem_take_iff_getElem.mp h
  refine ⟨k, lt_of_lt_of_le hk (min_le_left _ _), ?_⟩
  rw [List.getElem?_eq_some]
  exact ⟨lt_of_lt_of_le hk (min_le_right _ _), e⟩

/-- A list whose entries `i < j` are `a` and `b` splits around them. -/
theorem split_at_two {α : Type} (l : List α) (i j : Nat) (a b : α) (hij : i < j)
    (hi : l[i]? = some a) (hj : l[j]? = some b) :
    ∃ before mid after, l = before ++ a :: (mid ++ b :: after)
      ∧ (∀ p ∈ before, ∃ k, k < j ∧ k ≠ i ∧ l[k]? = some p)
      ∧ (∀ p ∈ mid, ∃ k, k < j ∧ k ≠ i ∧ l[k]? = some p) := by
  have hj2 : (l.drop (i + 1))[j - i - 1]? = some b := by
    rw [List.getElem?_drop]
    rw [show i + 1 + (j - i - 1) = j by omega]
    exact hj
  refine ⟨l.take i, (l.drop (i + 1)).take (j - i - 1), (l.drop (i + 1)).drop (j - i - 1 + 1), ?_,
    ?_, ?_⟩
  · rw [← split_at_index (l.drop (i + 1)) (j - i - 1) b hj2]
    exact split_at_index l i a hi
  · intro p hp
    obtain ⟨k, hk, e⟩ := mem_take_getElem? l i p hp
    exact ⟨k, by omega, by omega, e⟩
  · intro p hp
    obtain ⟨k, hk, e⟩ := mem_take_getElem? (l.drop (i + 1)) (j - i - 1) p hp
    rw [List.getElem?_drop] at e
    exact ⟨i + 1 + k, by omega, by omega, e⟩

/-- C6 (truth-order determinism): when the first two photons with exactly one
mother of type code 25 sit at positions i < j of the generator-particle list,
an event that passes the vertex gate leaves truth photon 1 (the vector and its
three `float` copies) built from the particle at i and truth photon 2 from the
particle at j, whatever their kinematics. -/
theorem C6_truth_order (K : Ext) (cfg : Config) (s : State) (iEvent : Event) (i j : Nat)
    (a b : GenParticle) (hna : aborted iEvent = false) (hij : i < j)
    (hi : iEvent.allGenParts[i]? = some a) (hj : iEvent.allGenParts[j]? = some b)
    (ha : isHiggsPhoton a = true) (hb : isHiggsPhoton b = true)
    (hfirst : ∀ k p, k < j → k ≠ i → iEvent.allGenParts[k]? = some p →
      isHiggsPhoton p = false) :
    ∃ (s1 : State) (obs : List Obs), analyze K cfg s iEvent = some (s1, obs)
      ∧ s1.genPhoton1 = .SetPtEtaPhiM a.p4.pt a.p4.eta a.p4.phi 0
      ∧ s1.genPhoton2 = .SetPtEtaPhiM b.p4.pt b.p4.eta b.p4.phi 0
      ∧ (s1.genPhoton1_pt, s1.genPhoton1_eta, s1.genPhoton1_phi) = (a.p4.pt, a.p4.eta, a.p4.phi)
      ∧ (s1.genPhoton2_pt, s1.genPhoton2_eta, s1.genPhoton2_phi)
          = (b.p4.pt, b.p4.eta, b.p4.phi) := by
  obtain ⟨before, mid, after, hl, hbefore, hmid⟩ :=
    split_at_two iEvent.allGenParts i j a b hij hi hj
  have h1 : ∀ p ∈ before, isHiggsPhoton p = false := fun p hp => by
    obtain ⟨k, hk, hne, e⟩ := hbefore p hp
    exact hfirst k p hk hne e
  have h2 : ∀ p ∈ mid, isHiggsPhoton p = false := fun p hp => by
    obtain ⟨k, hk, hne, e⟩ := hmid p hp
    exact hfirst k p hk hne e
  have key := (genTruthLoop_two_photons K cfg.useDeepCSV_ (resetTruth s) before mid after a b
    rfl ha hb h1 h2).1
  rw [← hl] at key
  refine ⟨_, _, analyze_of_not_aborted K cfg s iEvent hna, ?_⟩
  have e := analyzeReco_truthPhotons K cfg (analyzeTruth K cfg (resetTruth s) iEvent).2.1 iEvent
  have e2 : truthPhotons (analyzeTruth K cfg (resetTruth s) iEvent).2.1
      = truthPhotons (genTruthLoop K cfg.useDeepCSV_ iEvent.allGenParts (resetTruth s)).1 := rfl
  rw [e2, key] at e
  simp only [truthPhotons, Prod.mk.injEq] at e
  obtain ⟨e1, e2, e3, e4, -, -⟩ := e
  simp only [Prod.mk.injEq]
  exact ⟨e1, e2, e3, e4⟩

/-- Witness of C6 on `sampleEvent`: the Higgs-daughter photons sit at positions 1 and 2, the second with the larger pt. -/
theorem C6_truth_order_witness :
    aborted sampleEvent = false ∧ 1 < 2
    ∧ sampleEvent.allGenParts[1]? = some (higgsDaughter 22 50 0 0 0)
    ∧ sampleEvent.allGenParts[2]? = some (higgsDaughter 22 60 0.1 0.2 0)
    ∧ isHiggsPhoton (higgsDaughter 22 50 0 0 0) = true
    ∧ isHiggsPhoton (higgsDaughter 22 60 0.1 0.2 0) = true
    ∧ (∀ k p, k < 2 → k ≠ 1 → sampleEvent.allGenParts[k]? = some p → isHiggsPhoton p = false)
    ∧ ∃ (s1 : State) (obs : List Obs),
        analyze sampleExt sampleConfig sampleState sampleEvent = some (s1, obs)
        ∧ s1.genPhoton1 = .SetPtEtaPhiM 50 0 0 0
        ∧ s1.genPhoton2 = .SetPtEtaPhiM 60 0.1 0.2 0
        ∧ (s1.genPhoton1_pt, s1.genPhoton1_eta, s1.genPhoton1_phi) = (50, 0, 0)
        ∧ (s1.genPhoton2_pt, s1.genPhoton2_eta, s1.genPhoton2_phi) = (60, 0.1, 0.2) :=
  have hfirst : ∀ k p, k < 2 → k ≠ 1 → sampleEvent.allGenParts[k]? = some p →
      isHiggsPhoton p = false := by
    intro k p hk hne hp
    have hk0 : k = 0 := by omega
    subst hk0
    simp only [sampleEvent, List.getElem?_cons_zero, Option.some.injEq] at hp
    subst hp
    simp [isHiggsPhoton]
  ⟨sampleEvent_not_aborted, by decide, rfl, rfl, by simp [isHiggsPhoton, higgsDaughter],
    by simp [isHiggsPhoton, higgsDaughter], hfirst,
    C6_truth_order sampleExt sampleConfig sampleState sampleEvent 1 2
      (higgsDaughter 22 50 0 0 0) (higgsDaughter 22 60 0.1 0.2 0) sampleEvent_not_aborted
      (by decide) rfl rfl (by simp [isHiggsPhoton, higgsDaughter])
      (by simp [isHiggsPhoton, higgsDaughter]) hfirst⟩

/-! ## C7: the truth di-b mass -/

theorem analyzeReco_obs (K : Ext) (cfg : Config) (s : State) (iEvent : Event) :
    ∀ o ∈ (analyzeReco K cfg s iEvent).2, inHists recoHists o = true := by
  have hj : ∀ h ∈ jetHists, h ∈ recoHists := fun h hh => by
    simp only [recoHists, List.mem_append]; tauto
  have hp : ∀ h ∈ photonHists, h ∈ recoHists := fun h hh => by
    simp only [recoHists, List.mem_append]; tauto
  have hd : ∀ h ∈ diphotonHists, h ∈ recoHists := fun h hh => by
    simp only [recoHists, List.mem_append]; tauto
  intro o ho
  simp only [analyzeReco, photonLoop, List.mem_append, List.mem_singleton] at ho
  rcases ho with ((((((ho | ho) | ho) | ho) | ho) | ho) | ho)
  · subst ho; rfl
  · exact inHists_mono _ _ hj o (jetLoop_obs K cfg.useDeepCSV_ iEvent.elecs iEvent.muons
      iEvent.jets jetAcc0 (by simp [jetAcc0]) o ho)
  · simp only [jetSummary, List.mem_cons, List.mem_singleton, List.not_mem_nil, or_false] at ho
    rcases ho with rfl | rfl | rfl | rfl | rfl | rfl | rfl | rfl <;> rfl
  · cases hm : iEvent.mets with
    | nil => simp [hm, metObs] at ho
    | cons m rest =>
      simp only [hm, metObs, List.mem_cons, List.mem_singleton, List.not_mem_nil,
        or_false] at ho
      rcases ho with rfl | rfl <;> rfl
  · exact inHists_mono _ _ hp o (photonFold_obs K cfg _ (photonAcc0 s)
      (by simp [photonAcc0]) o ho)
  · exact inHists_mono _ _ hd o (diphoton_obs K _ o ho)
  · subst ho; rfl

theorem analyzeReco_truthBs (K : Ext) (cfg : Config) (s : State) (iEvent : Event) :
    truthBs (analyzeReco K cfg s iEvent).1 = truthBs s := by
  have h := congrArg truthBs (analyzeReco_recoFrame K cfg s iEvent)
  exact h

theorem pushed_fill_self (h : Hist) (x : ℚ) : pushed h [Obs.fill h x] = [x] := by
  simp [pushed, List.filterMap_cons]

theorem twoBEvent_not_aborted : aborted twoBEvent = false := by
  norm_num [aborted, twoBEvent, emptyEvent, vertexLoop, toInt32]

theorem twoBEvent_truth (K : Ext) (cfg : Config) (s : State) :
    ∃ (s1 : State) (obs : List Obs), analyze K cfg s twoBEvent = some (s1, obs)
      ∧ truthBs s1 = truthBs (genTruthLoop K cfg.useDeepCSV_ twoBEvent.allGenParts
          (resetTruth s)).1
      ∧ pushed .h_bjetHiggsMass_ obs = pushed .h_bjetHiggsMass_
          (genTruthLoop K cfg.useDeepCSV_ twoBEvent.allGenParts (resetTruth s)).2 := by
  refine ⟨_, _, analyze_of_not_aborted K cfg s twoBEvent twoBEvent_not_aborted, ?_, ?_⟩
  · rw [analyzeReco_truthBs]
    rfl
  · rw [pushed_append, pushed_append,
      pushed_of_all' recoHists _ (by decide) _ (analyzeReco_obs K cfg _ twoBEvent)]
    simp only [analyzeTruth, pushed_append]
    rw [pushed_of_all' genJetHists _ (by decide) _
      (genJetLoop_obs K twoBEvent.genParts twoBEvent.genJets 0
        { jGenJets := [], nGenJets := 0, obs := [] } (by simp))]
    have ht : ∀ row : GenPhotonRow, pushed .h_bjetHiggsMass_
        (if cfg.createPhotonTTree_ = true then [Obs.tree row] else []) = [] := by
      intro row
      split_ifs <;> rfl
    rw [ht]
    simp [pushed]

/-- C7 at the failing input: under scheme B (`useDeepCSV_` false), the event
`twoBEvent` with two bottom quarks from a Higgs boson leaves truth b-quark #1 at
the zero vector of the reset, not at the first quark, and the truth di-b mass
pushed is the mass of the zero vector plus the second quark; under scheme A
the same event records both quarks and pushes the mass of their sum. -/
theorem C7_truth_dib_mass_scheme_B (K : Ext) (s : State) :
    (∃ (s1 : State) (obs : List Obs), analyze K sampleConfig s twoBEvent = some (s1, obs)
      ∧ s1.genB1 = zeroV
      ∧ s1.genB1 ≠ .SetPtEtaPhiM 70 1 1 4.7
      ∧ s1.genB2 = .SetPtEtaPhiM 80 (-1) 2 4.7
      ∧ pushed .h_bjetHiggsMass_ obs = [K.M (.add zeroV (.SetPtEtaPhiM 80 (-1) 2 4.7))])
    ∧ (∃ (s1 : State) (obs : List Obs), analyze K sampleConfigA s twoBEvent = some (s1, obs)
      ∧ s1.genB1 = .SetPtEtaPhiM 70 1 1 4.7
      ∧ s1.genB2 = .SetPtEtaPhiM 80 (-1) 2 4.7
      ∧ pushed .h_bjetHiggsMass_ obs
          = [K.M (.add (.SetPtEtaPhiM 70 1 1 4.7) (.SetPtEtaPhiM 80 (-1) 2 4.7))]) := by
  constructor
  · obtain ⟨s1, obs, h1, h2, h3⟩ := twoBEvent_truth K sampleConfig s
    refine ⟨s1, obs, h1, ?_⟩
    have hB : truthBs s1 = (zeroV, .SetPtEtaPhiM 80 (-1) 2 4.7,
        .add zeroV (.SetPtEtaPhiM 80 (-1) 2 4.7),
        K.M (.add zeroV (.SetPtEtaPhiM 80 (-1) 2 4.7))) := by
      rw [h2]
      norm_num [truthBs, genTruthLoop, genTruthStep, twoBEvent, higgsDaughter, resetTruth,
        sampleConfig, emptyEvent]
    have hO : pushed .h_bjetHiggsMass_ obs = [K.M (.add zeroV (.SetPtEtaPhiM 80 (-1) 2 4.7))] := by
      have hl : (genTruthLoop K sampleConfig.useDeepCSV_ twoBEvent.allGenParts (resetTruth s)).2
          = [Obs.fill .h_bjetHiggsMass_ (K.M (.add zeroV (.SetPtEtaPhiM 80 (-1) 2 4.7)))] := by
        norm_num [genTruthLoop, genTruthStep, twoBEvent, higgsDaughter, resetTruth,
          sampleConfig, emptyEvent]
      rw [h3, hl]
      exact pushed_fill_self _ _
    simp only [truthBs, Prod.mk.injEq] at hB
    refine ⟨hB.1, ?_, hB.2.1, hO⟩
    rw [hB.1]
    simp [zeroV]
  · obtain ⟨s1, obs, h1, h2, h3⟩ := twoBEvent_truth K sampleConfigA s
    refine ⟨s1, obs, h1, ?_⟩
    have hB : truthBs s1 = (.SetPtEtaPhiM 70 1 1 4.7, .SetPtEtaPhiM 80 (-1) 2 4.7,
        .add (.SetPtEtaPhiM 70 1 1 4.7) (.SetPtEtaPhiM 80 (-1) 2 4.7),
        K.M (.add (.SetPtEtaPhiM 70 1 1 4.7) (.SetPtEtaPhiM 80 (-1) 2 4.7))) := by
      rw [h2]
      norm_num [truthBs, genTruthLoop, genTruthStep, twoBEvent, higgsDaughter, resetTruth,
        sampleConfigA, sampleConfig, emptyEvent]
    have hO : pushed .h_bjetHiggsMass_ obs
        = [K.M (.add (.SetPtEtaPhiM 70 1 1 4.7) (.SetPtEtaPhiM 80 (-1) 2 4.7))] := by
      have hl : (genTruthLoop K sampleConfigA.useDeepCSV_ twoBEvent.allGenParts (resetTruth s)).2
          = [Obs.fill .h_bjetHiggsMass_
              (K.M (.add (.SetPtEtaPhiM 70 1 1 4.7) (.SetPtEtaPhiM 80 (-1) 2 4.7)))] := by
        norm_num [genTruthLoop, genTruthStep, twoBEvent, higgsDaughter, resetTruth,
          sampleConfigA, sampleConfig, emptyEvent]
      rw [h3, hl]
      exact pushed_fill_self _ _
    simp only [truthBs, Prod.mk.injEq] at hB
    exact ⟨hB.1, hB.2.1, hO⟩

/-! ## C8: the electron-ID tiers are not nested -/

/-- C8 (electron-ID tiers are not nested): for the electron
`tightNotLooseElectron`, with one and the same conversion collection and beam
spot given to both functions, `isLooseElec` returns fail whatever the conversion
veto says and `isTightElec` returns pass exactly when the conversion veto does
not fire; with a veto that does not fire, the electron passes tight and fails
loose. -/
theorem C8_tiers_not_nested :
    (∀ (C B : Type) (hasMatchedConversion : Electron → C → B → Bool) (conversions : C)
        (beamspot : B),
      isLooseElec hasMatchedConversion tightNotLooseElectron conversions beamspot = false
      ∧ isTightElec hasMatchedConversion tightNotLooseElectron conversions beamspot
          = !hasMatchedConversion tightNotLooseElectron conversions beamspot)
    ∧ ∃ patEl : Electron,
        isTightElec (fun (_ : Electron) (_ : Unit) (_ : Unit) => false) patEl () () = true
        ∧ isLooseElec (fun (_ : Electron) (_ : Unit) (_ : Unit) => false) patEl () () = false := by
  have key : ∀ (C B : Type) (hasMatchedConversion : Electron → C → B → Bool) (conversions : C)
      (beamspot : B),
      isLooseElec hasMatchedConversion tightNotLooseElectron conversions beamspot = false
      ∧ isTightElec hasMatchedConversion tightNotLooseElectron conversions beamspot
          = !hasMatchedConversion tightNotLooseElectron conversions beamspot := by
    intro C B hmc conversions beamspot
    constructor
    · norm_num [isLooseElec, tightNotLooseElectron, abs_div, Nat.abs_ofNat]
    · norm_num [isTightElec, tightNotLooseElectron, abs_div, Nat.abs_ofNat, fdiv, Dbl.gt,
        Ooemoop]
  refine ⟨key, tightNotLooseElectron, ?_, ?_⟩
  · rw [(key Unit Unit _ () ()).2]
    rfl
  · exact (key Unit Unit _ () ()).1

/-! ## C9: the ME0 qualifier on a muon that is not an ME0 muon -/

/-- C9 (ME0 qualifier on a non-ME0 muon): for a muon with `isME0Muon()` false,
`isME0MuonSel` returns fail for every choice of the five thresholds and every
list of chamber and segment matches. -/
theorem C9_non_me0_fails (K : Ext) (muon : Muon) (pullXCut dXCut pullYCut dYCut dPhi : ℚ)
    (h : muon.isME0Muon = false) :
    isME0MuonSel K muon pullXCut dXCut pullYCut dYCut dPhi = false := by
  simp [isME0MuonSel, h]

/-- Witness of C9: `sampleMuon`, whose only segment sits on its chamber, with all five cuts at 1000. -/
theorem C9_non_me0_fails_witness :
    sampleMuon.isME0Muon = false
    ∧ isME0MuonSel sampleExt sampleMuon 1000 1000 1000 1000 1000 = false :=
  ⟨rfl, C9_non_me0_fails sampleExt sampleMuon 1000 1000 1000 1000 1000 rfl⟩

/-! ## The scenario of two matched photons -/

theorem pushed_fill_ne (h h1 : Hist) (x : ℚ) (hne : h1 ≠ h) (l : List Obs) :
    pushed h (Obs.fill h1 x :: l) = pushed h l := by
  simp [pushed, List.filterMap_cons, hne]

theorem pushed_analyzeTruth_nil (K : Ext) (cfg : Config) (s : State) (iEvent : Event) (h : Hist)
    (hh : h ∉ truthPartHists) : pushed h (analyzeTruth K cfg s iEvent).2.2 = [] := by
  simp only [truthPartHists, List.mem_append, not_or, List.mem_cons, List.mem_singleton,
    List.not_mem_nil, or_false] at hh
  obtain ⟨⟨⟨h1, h2, h3⟩, h4⟩, h5⟩ := hh
  have e1 := pushed_of_all' genJetHists h h4 _
    (genJetLoop_obs K iEvent.genParts iEvent.genJets 0
      { jGenJets := [], nGenJets := 0, obs := [] } (by simp))
  have e2 := pushed_of_all' genTruthHists h h5 _
    (genTruthLoop_obs K cfg.useDeepCSV_ iEvent.allGenParts s)
  have ht : ∀ row : GenPhotonRow,
      pushed h (if cfg.createPhotonTTree_ = true then [Obs.tree row] else []) = [] := by
    intro row
    split_ifs <;> rfl
  simp only [analyzeTruth, pushed_append, e1, e2, ht, List.nil_append, List.append_nil]
  rw [pushed_fill_ne _ _ _ (Ne.symm h1), pushed_fill_ne _ _ _ (Ne.symm h2),
    pushed_fill_ne _ _ _ (Ne.symm h3)]
  rfl

/-- The values pushed to a histogram that only the diphoton block fills are
those pushed by the diphoton block. -/
theorem pushed_analyze_diphoton (K : Ext) (cfg : Config) (s : State) (iEvent : Event) (h : Hist)
    (hh : h ∉ nonDiphotonHists) (ha : aborted iEvent = false) :
    ∃ (s1 : State) (obs : List Obs), analyze K cfg s iEvent = some (s1, obs)
      ∧ pushed h obs = pushed h (diphoton K (photonLoop K cfg iEvent.photons
          (photonAcc0 (analyzeTruth K cfg (resetTruth s) iEvent).2.1))).2 := by
  refine ⟨_, _, analyze_of_not_aborted K cfg s iEvent ha, ?_⟩
  simp only [nonDiphotonHists, List.mem_append, not_or] at hh
  obtain ⟨⟨⟨⟨hv, ht⟩, hs⟩, hj⟩, hp⟩ := hh
  have e3 := pushed_of_all' jetHists h hj _
    (jetLoop_obs K cfg.useDeepCSV_ iEvent.elecs iEvent.muons iEvent.jets jetAcc0
      (by simp [jetAcc0]))
  have e4 := pushed_of_all' photonHists h hp _
    (photonFold_obs K cfg (iEvent.photons.take (toInt32 iEvent.photons.length).toNat)
      (photonAcc0 (analyzeTruth K cfg (resetTruth s) iEvent).2.1) (by simp [photonAcc0]))
  simp only [List.mem_cons, List.mem_singleton, List.not_mem_nil, or_false, not_or] at hv hs
  obtain ⟨v1, v2⟩ := hv
  obtain ⟨s1, s2, s3, s4, s5, s6, s7, s8, s9, s10, s11, s12⟩ := hs
  have em : pushed h (metObs iEvent.mets) = [] := pushed_metObs h _ s10 s11
  rw [pushed_append, pushed_append, pushed_analyzeTruth_nil K cfg _ iEvent h ht,
    pushed_fill_ne _ _ _ (Ne.symm v1), pushed_fill_ne _ _ _ (Ne.symm v2)]
  simp only [analyzeReco, photonLoop, jetSummary, pushed_append, e3, e4, em, List.nil_append,
    List.append_nil]
  rw [pushed_fill_ne _ _ _ (Ne.symm s1), pushed_fill_ne _ _ _ (Ne.symm s2),
    pushed_fill_ne _ _ _ (Ne.symm s3), pushed_fill_ne _ _ _ (Ne.symm s4),
    pushed_fill_ne _ _ _ (Ne.symm s5), pushed_fill_ne _ _ _ (Ne.symm s6),
    pushed_fill_ne _ _ _ (Ne.symm s7), pushed_fill_ne _ _ _ (Ne.symm s8),
    pushed_fill_ne _ _ _ (Ne.symm s9), pushed_fill_ne _ _ _ (Ne.symm s12)]
  simp [pushed]

theorem sampleEvent_photonLoop :
    photonLoop sampleExt sampleConfig sampleEvent.photons
        (photonAcc0 (analyzeTruth sampleExt sampleConfig (resetTruth sampleState) sampleEvent).2.1)
      = { s := { (analyzeTruth sampleExt sampleConfig (resetTruth sampleState) sampleEvent).2.1 with
                 recoPhoton := .SetPtEtaPhiM 60 0.1 0.2 0
                 recoPhoton1 := .SetPtEtaPhiM 50 0 0 0
                 recoPhoton2 := .SetPtEtaPhiM 60 0.1 0.2 0
                 recoPhoton1_raw := .SetPtEtaPhiM 50 0 0 0
                 recoPhoton2_raw := .SetPtEtaPhiM (60 / (1 + 0.1 ^ 2 / 2)) 0.1 0.2 0 }
          Rpt1 := .fin 1, Rpt2 := .fin 1, Rpt1_raw := .fin 1
          Rpt2_raw := .fin (60 / (1 + 0.1 ^ 2 / 2) / 60)
          obs := [Obs.fill .h_nPassingPho_ 1] ++ matchedObs (mkPhoton 50 0 0)
            ++ [Obs.fill .h_nPassingPho_ 1] ++ matchedObs (mkPhoton 60 0.1 0.2) } := by
  norm_num [analyzeTruth, genTruthLoop, genTruthStep, sampleEvent, higgsDaughter,
    resetTruth, sampleConfig, sampleExt, TLorentzVector.massQ, photonLoop, photonStep,
    photonAcc0, passCuts, toFloat_40, toFloat_45, toFloat_50, toFloat_60, Dbl.gt,
    mkPhoton, toInt32, zeroV, TLorentzVector.etaQ,
    TLorentzVector.phiQ, TLorentzVector.ptQ, fdiv, abs_div, Nat.abs_ofNat,
    show (2 : ℤ).toNat = 2 from rfl, List.take, matchedObs]

/-- The scenario of two truth photons at (pt, eta, phi) = (50, 0, 0) and
(60, 0.1, 0.2) with two reconstructed photons at the same kinematics
(`sampleEvent`), run with the concrete instance of the external functions: one
corrected diphoton mass is pushed, the mass of the sum of the two reconstructed
photons. -/
theorem sampleEvent_diphoton_mass :
    ∃ (s1 : State) (obs : List Obs),
      analyze sampleExt sampleConfig sampleState sampleEvent = some (s1, obs)
      ∧ pushed .h_recoPhotonHiggsMass obs
          = [sampleExt.M (.add (.SetPtEtaPhiM 50 0 0 0) (.SetPtEtaPhiM 60 0.1 0.2 0))] := by
  obtain ⟨s1, obs, h1, h2⟩ := pushed_analyze_diphoton sampleExt sampleConfig sampleState
    sampleEvent .h_recoPhotonHiggsMass (by decide) sampleEvent_not_aborted
  refine ⟨s1, obs, h1, ?_⟩
  rw [h2, sampleEvent_photonLoop]
  norm_num [diphoton, regimeObs, analyzeTruth, genTruthLoop, genTruthStep, sampleEvent,
    higgsDaughter, resetTruth, sampleConfig, sampleExt, TLorentzVector.massQ,
    TLorentzVector.ptQ, Dbl.gt, pushed_append, zeroV]
  simp [pushed, List.filterMap_cons]

/-! ## C10: no state leaks across events -/

theorem genTruthStep_carry0 (K : Ext) (u : Bool) (s : State) (p : GenParticle) :
    genTruthStep K u (carry0 s) p
      = (carry0 (genTruthStep K u s p).1, (genTruthStep K u s p).2) := by
  simp only [genTruthStep, carry0]
  split_ifs <;> rfl

theorem genTruthLoop_carry0 (K : Ext) (u : Bool) (ps : List GenParticle) :
    ∀ s : State, genTruthLoop K u ps (carry0 s)
      = (carry0 (genTruthLoop K u ps s).1, (genTruthLoop K u ps s).2) := by
  induction ps with
  | nil => intro s; rfl
  | cons p rest ih =>
    intro s
    simp only [genTruthLoop, genTruthStep_carry0, ih]

theorem analyzeTruth_carry0 (K : Ext) (cfg : Config) (s : State) (iEvent : Event) :
    analyzeTruth K cfg (carry0 s) iEvent
      = ((analyzeTruth K cfg s iEvent).1, carry0 (analyzeTruth K cfg s iEvent).2.1,
          (analyzeTruth K cfg s iEvent).2.2) := by
  simp only [analyzeTruth, genTruthLoop_carry0]
  rfl

theorem photonStep_blankAcc (K : Ext) (cfg : Config) (acc : PhotonAcc) (ph : Photon) :
    blankAcc (photonStep K cfg (blankAcc acc) ph) = blankAcc (photonStep K cfg acc ph) := by
  simp only [photonStep, blankAcc, blank6]
  split_ifs <;> rfl

theorem photonFold_blankAcc (K : Ext) (cfg : Config) (photons : List Photon) :
    ∀ acc : PhotonAcc, blankAcc (photons.foldl (photonStep K cfg) (blankAcc acc))
      = blankAcc (photons.foldl (photonStep K cfg) acc) := by
  induction photons with
  | nil => intro acc; rfl
  | cons ph rest ih =>
    intro acc
    simp only [List.foldl_cons]
    rw [← ih (photonStep K cfg (blankAcc acc) ph), photonStep_blankAcc, ih]

theorem diphoton_blankAcc (K : Ext) (acc : PhotonAcc) :
    (diphoton K (blankAcc acc)).2 = (diphoton K acc).2 := by
  simp only [diphoton, blankAcc, blank6]
  split_ifs <;> rfl

theorem analyzeReco_carry0 (K : Ext) (cfg : Config) (s : State) (iEvent : Event) :
    (analyzeReco K cfg (carry0 s) iEvent).2 = (analyzeReco K cfg s iEvent).2 := by
  have h0 : blankAcc (photonAcc0 (carry0 s)) = blankAcc (photonAcc0 s) := rfl
  have h1 : blankAcc (photonLoop K cfg iEvent.photons (photonAcc0 (carry0 s)))
      = blankAcc (photonLoop K cfg iEvent.photons (photonAcc0 s)) := by
    simp only [photonLoop]
    rw [← photonFold_blankAcc, h0, photonFold_blankAcc]
  have h2 : (photonLoop K cfg iEvent.photons (photonAcc0 (carry0 s))).obs
      = (photonLoop K cfg iEvent.photons (photonAcc0 s)).obs := by
    have h := congrArg PhotonAcc.obs h1
    exact h
  have h3 : (diphoton K (photonLoop K cfg iEvent.photons (photonAcc0 (carry0 s)))).2
      = (diphoton K (photonLoop K cfg iEvent.photons (photonAcc0 s))).2 := by
    rw [← diphoton_blankAcc, h1, diphoton_blankAcc]
  simp only [analyzeReco, h2, h3]
  rfl

theorem carry0_resetTruth (s t : State) (h1 : s.nPatGenB = t.nPatGenB)
    (h2 : s.nrecoJetGenB = t.nrecoJetGenB) :
    carry0 (resetTruth s) = carry0 (resetTruth t) := by
  simp only [carry0, resetTruth, h1, h2]

/-- The observations of `analyze` depend on the members only through the two
counters that no line of `analyze` assigns. -/
theorem analyze_obs_eq (K : Ext) (cfg : Config) (s t : State) (iEvent : Event)
    (h1 : s.nPatGenB = t.nPatGenB) (h2 : s.nrecoJetGenB = t.nrecoJetGenB) :
    ∃ (s1 t1 : State) (obs : List Obs),
      analyze K cfg s iEvent = some (s1, obs) ∧ analyze K cfg t iEvent = some (t1, obs) := by
  cases ha : aborted iEvent with
  | true => exact ⟨_, _, _, analyze_of_aborted K cfg s iEvent ha, analyze_of_aborted K cfg t iEvent ha⟩
  | false =>
    refine ⟨_, (analyzeReco K cfg (analyzeTruth K cfg (resetTruth t) iEvent).2.1 iEvent).1, _,
      analyze_of_not_aborted K cfg s iEvent ha, ?_⟩
    rw [analyze_of_not_aborted K cfg t iEvent ha]
    have hs := analyzeTruth_carry0 K cfg (resetTruth s) iEvent
    have ht := analyzeTruth_carry0 K cfg (resetTruth t) iEvent
    rw [carry0_resetTruth s t h1 h2] at hs
    rw [hs] at ht
    simp only [Prod.mk.injEq] at ht
    obtain ⟨-, e1, e2⟩ := ht
    have e3 := analyzeReco_carry0 K cfg (analyzeTruth K cfg (resetTruth s) iEvent).2.1 iEvent
    have e4 := analyzeReco_carry0 K cfg (analyzeTruth K cfg (resetTruth t) iEvent).2.1 iEvent
    rw [e1] at e3
    rw [e3] at e4
    rw [e2, e4]

theorem genTruthStep_counters (K : Ext) (u : Bool) (s : State) (p : GenParticle) :
    (genTruthStep K u s p).1.nPatGenB = s.nPatGenB
      ∧ (genTruthStep K u s p).1.nrecoJetGenB = s.nrecoJetGenB := by
  simp only [genTruthStep]
  split_ifs <;> exact ⟨rfl, rfl⟩

theorem genTruthLoop_counters (K : Ext) (u : Bool) (ps : List GenParticle) :
    ∀ s : State, (genTruthLoop K u ps s).1.nPatGenB = s.nPatGenB
      ∧ (genTruthLoop K u ps s).1.nrecoJetGenB = s.nrecoJetGenB := by
  induction ps with
  | nil => intro s; exact ⟨rfl, rfl⟩
  | cons p rest ih =>
    intro s
    have h1 := genTruthStep_counters K u s p
    have h2 := ih (genTruthStep K u s p).1
    simp only [genTruthLoop]
    exact ⟨h2.1.trans h1.1, h2.2.trans h1.2⟩

/-- Every call of `analyze` returns, and leaves the two counters `nPatGenB` and
`nrecoJetGenB` as they were. -/
theorem analyze_counters (K : Ext) (cfg : Config) (s : State) (iEvent : Event) :
    ∃ (s1 : State) (obs : List Obs), analyze K cfg s iEvent = some (s1, obs)
      ∧ s1.nPatGenB = s.nPatGenB ∧ s1.nrecoJetGenB = s.nrecoJetGenB := by
  cases ha : aborted iEvent with
  | true => exact ⟨_, _, analyze_of_aborted K cfg s iEvent ha, rfl, rfl⟩
  | false =>
    refine ⟨_, _, analyze_of_not_aborted K cfg s iEvent ha, ?_, ?_⟩
    · have h := congrArg State.nPatGenB
        (analyzeReco_recoFrame K cfg (analyzeTruth K cfg (resetTruth s) iEvent).2.1 iEvent)
      exact h.trans (genTruthLoop_counters K cfg.useDeepCSV_ iEvent.allGenParts (resetTruth s)).1
    · have h := congrArg State.nrecoJetGenB
        (analyzeReco_recoFrame K cfg (analyzeTruth K cfg (resetTruth s) iEvent).2.1 iEvent)
      exact h.trans (genTruthLoop_counters K cfg.useDeepCSV_ iEvent.allGenParts (resetTruth s)).2

theorem runEvents_counters (K : Ext) (cfg : Config) (previous : List Event) :
    ∀ s : State, ∃ s0 : State, runEvents K cfg s previous = some s0
      ∧ s0.nPatGenB = s.nPatGenB ∧ s0.nrecoJetGenB = s.nrecoJetGenB := by
  induction previous with
  | nil => intro s; exact ⟨s, rfl, rfl, rfl⟩
  | cons ev rest ih =>
    intro s
    obtain ⟨s1, obs, h1, h2, h3⟩ := analyze_counters K cfg s ev
    obtain ⟨s0, h4, h5, h6⟩ := ih s1
    refine ⟨s0, ?_, h5.trans h2, h6.trans h3⟩
    simp only [runEvents, h1]
    exact h4

/-- C10 (no state leaks across events): for every configuration, every value of
the members, every sequence `previous` of events processed before and every
event, the run over `previous` returns, `analyze` returns on the event both after
that run and without it, and it pushes the same list of observations in both
cases (so also the same reconstructed diphoton masses); in particular an event
processed twice in a row pushes the same observations both times. On the
scenario of the claim (`sampleEvent`: truth photons at (50, 0, 0) and
(60, 0.1, 0.2), two reconstructed photons at the same kinematics) with the
concrete instance of the external functions, both runs push the same single
diphoton mass. -/
theorem C10_no_state_leak (K : Ext) (cfg : Config) (s : State) (previous : List Event)
    (iEvent : Event) :
    (∃ (s0 s1 s2 : State) (obs : List Obs),
      runEvents K cfg s previous = some s0
      ∧ analyze K cfg s0 iEvent = some (s1, obs)
      ∧ analyze K cfg s iEvent = some (s2, obs))
    ∧ (∃ (s1 s2 : State) (obs : List Obs),
      analyze K cfg s iEvent = some (s1, obs)
      ∧ analyze K cfg s1 iEvent = some (s2, obs))
    ∧ (∃ (s1 s2 : State) (obs : List Obs),
      analyze sampleExt sampleConfig sampleState sampleEvent = some (s1, obs)
      ∧ analyze sampleExt sampleConfig s1 sampleEvent = some (s2, obs)
      ∧ pushed .h_recoPhotonHiggsMass obs
          = [sampleExt.M (.add (.SetPtEtaPhiM 50 0 0 0) (.SetPtEtaPhiM 60 0.1 0.2 0))]) := by
  have twice : ∀ (K : Ext) (cfg : Config) (s : State) (iEvent : Event) (s1 : State)
      (obs : List Obs), analyze K cfg s iEvent = some (s1, obs) →
      ∃ s2 : State, analyze K cfg s1 iEvent = some (s2, obs) := by
    intro K cfg s iEvent s1 obs h1
    obtain ⟨s1a, obsa, h1a, c1, c2⟩ := analyze_counters K cfg s iEvent
    rw [h1] at h1a
    simp only [Option.some.injEq, Prod.mk.injEq] at h1a
    obtain ⟨rfl, rfl⟩ := h1a
    obtain ⟨t1, t2, obs2, e1, e2⟩ := analyze_obs_eq K cfg s s1 iEvent c1.symm c2.symm
    rw [h1] at e1
    simp only [Option.some.injEq, Prod.mk.injEq] at e1
    obtain ⟨-, rfl⟩ := e1
    exact ⟨t2, e2⟩
  refine ⟨?_, ?_, ?_⟩
  · obtain ⟨s0, h0, c1, c2⟩ := runEvents_counters K cfg previous s
    obtain ⟨s1, s2, obs, e1, e2⟩ := analyze_obs_eq K cfg s0 s iEvent c1 c2
    exact ⟨s0, s1, s2, obs, h0, e1, e2⟩
  · obtain ⟨s1, obs, h1, -, -⟩ := analyze_counters K cfg s iEvent
    obtain ⟨s2, h2⟩ := twice K cfg s iEvent s1 obs h1
    exact ⟨s1, s2, obs, h1, h2⟩
  · obtain ⟨s1, obs, h1, hm⟩ := sampleEvent_diphoton_mass
    obtain ⟨s2, h2⟩ := twice sampleExt sampleConfig sampleState sampleEvent s1 obs h1
    exact ⟨s1, s2, obs, h1, h2, hm⟩

/-! ## C11: no diphoton mass without two truth photons -/

theorem inHists_false_of_disjoint (L L1 : List Hist) (hd : ∀ h ∈ L, h ∉ L1) (o : Obs)
    (ho : inHists L o = true) : inHists L1 o = false := by
  unfold inHists at ho ⊢
  cases hh : histOf o with
  | none => rfl
  | some h =>
    simp only [hh, List.contains_eq_any_beq, List.any_eq_true, beq_iff_eq] at ho
    obtain ⟨x, hx, e⟩ := ho
    subst e
    simp only [List.contains_eq_any_beq, List.any_eq_false, beq_iff_eq]
    intro y hy e
    subst e
    exact hd _ hx hy

theorem filter_inHists_nil (L L1 : List Hist) (hd : ∀ h ∈ L, h ∉ L1) (l : List Obs)
    (hl : ∀ o ∈ l, inHists L o = true) : l.filter (inHists L1) = [] := by
  rw [List.filter_eq_nil_iff]
  intro o ho
  rw [inHists_false_of_disjoint L L1 hd o (hl o ho)]
  simp

theorem filter_inHists_self (L : List Hist) (l : List Obs)
    (hl : ∀ o ∈ l, inHists L o = true) : l.filter (inHists L) = l := by
  rw [List.filter_eq_self]
  exact hl

theorem analyzeTruth_filter_diphoton (K : Ext) (cfg : Config) (s : State) (iEvent : Event) :
    (analyzeTruth K cfg s iEvent).2.2.filter (inHists diphotonHists) = [] := by
  have e1 := filter_inHists_nil genJetHists diphotonHists (by decide) _
    (genJetLoop_obs K iEvent.genParts iEvent.genJets 0
      { jGenJets := [], nGenJets := 0, obs := [] } (by simp))
  have e2 := filter_inHists_nil genTruthHists diphotonHists (by decide) _
    (genTruthLoop_obs K cfg.useDeepCSV_ iEvent.allGenParts s)
  have ht : ∀ row : GenPhotonRow,
      (if cfg.createPhotonTTree_ = true then [Obs.tree row] else []).filter
        (inHists diphotonHists) = [] := by
    intro row
    split_ifs <;> rfl
  simp only [analyzeTruth, List.filter_append, e1, e2, ht, List.nil_append, List.append_nil]
  rfl

theorem analyzeReco_filter_diphoton (K : Ext) (cfg : Config) (s : State) (iEvent : Event) :
    (analyzeReco K cfg s iEvent).2.filter (inHists diphotonHists)
      = (diphoton K (photonLoop K cfg iEvent.photons (photonAcc0 s))).2 := by
  have e3 := filter_inHists_nil jetHists diphotonHists (by decide) _
    (jetLoop_obs K cfg.useDeepCSV_ iEvent.elecs iEvent.muons iEvent.jets jetAcc0
      (by simp [jetAcc0]))
  have e4 := filter_inHists_nil photonHists diphotonHists (by decide) _
    (photonFold_obs K cfg (iEvent.photons.take (toInt32 iEvent.photons.length).toNat)
      (photonAcc0 s) (by simp [photonAcc0]))
  have e5 := filter_inHists_self diphotonHists _
    (diphoton_obs K (photonLoop K cfg iEvent.photons (photonAcc0 s)))
  have em : (metObs iEvent.mets).filter (inHists diphotonHists) = [] := by
    cases iEvent.mets with
    | nil => rfl
    | cons m rest => rfl
  have f1 : ∀ x : ℚ,
      [Obs.fill .h_goodPatBJets_Higgs_n_ x].filter (inHists diphotonHists) = [] := fun _ => rfl
  have f2 : ∀ (n : Nat) (acc : JetAcc) (m : Nat),
      (jetSummary n m acc).filter (inHists diphotonHists) = [] := fun _ _ _ => rfl
  have f3 : [Obs.fill .h_nPho_ 0].filter (inHists diphotonHists) = [] := rfl
  simp only [photonLoop] at e5
  simp only [analyzeReco, photonLoop, List.filter_append, e3, e4, e5, em, f1, f2, f3,
    List.nil_append, List.append_nil]

/-- The observations of an event that go to the histograms and profiles of the
diphoton block are exactly those pushed by the diphoton block. -/
theorem analyze_diphoton_obs (K : Ext) (cfg : Config) (s : State) (iEvent : Event)
    (ha : aborted iEvent = false) :
    ∃ (s1 : State) (obs : List Obs), analyze K cfg s iEvent = some (s1, obs)
      ∧ obs.filter (inHists diphotonHists)
          = (diphoton K (photonLoop K cfg iEvent.photons
              (photonAcc0 (analyzeTruth K cfg (resetTruth s) iEvent).2.1))).2 := by
  refine ⟨_, _, analyze_of_not_aborted K cfg s iEvent ha, ?_⟩
  rw [List.filter_append, List.filter_append, analyzeTruth_filter_diphoton,
    analyzeReco_filter_diphoton]
  rfl

theorem genTruthStep_genPhoton2 (K : Ext) (u : Bool) (s : State) (p : GenParticle) :
    (genTruthStep K u s p).1.nGenPhotons
        = s.nGenPhotons + (if isHiggsPhoton p = true then 1 else 0)
      ∧ ((genTruthStep K u s p).1.nGenPhotons < 2 →
          (genTruthStep K u s p).1.genPhoton2 = s.genPhoton2) := by
  simp only [genTruthStep, isHiggsPhoton, decide_eq_true_eq]
  split_ifs <;> simp_all

theorem genTruthLoop_genPhoton2 (K : Ext) (u : Bool) (ps : List GenParticle) :
    ∀ s : State, s.nGenPhotons + (ps.filter isHiggsPhoton).length < 2 →
      (genTruthLoop K u ps s).1.genPhoton2 = s.genPhoton2 := by
  induction ps with
  | nil => intro s _; rfl
  | cons p rest ih =>
    intro s hs
    have h1 := genTruthStep_genPhoton2 K u s p
    simp only [genTruthLoop]
    have hlen : (genTruthStep K u s p).1.nGenPhotons + (rest.filter isHiggsPhoton).length < 2 := by
      rw [h1.1]
      by_cases hp : isHiggsPhoton p = true
      · simp only [List.filter_cons, hp, if_true, List.length_cons] at hs ⊢
        omega
      · simp only [List.filter_cons, hp, if_false] at hs ⊢
        simpa using hs
    rw [ih _ hlen]
    exact h1.2 (by omega)

theorem analyzeTruth_genPhoton2 (K : Ext) (cfg : Config) (s : State) (iEvent : Event)
    (hn : (iEvent.allGenParts.filter isHiggsPhoton).length < 2) :
    (analyzeTruth K cfg (resetTruth s) iEvent).2.1.genPhoton2 = zeroV := by
  have h := genTruthLoop_genPhoton2 K cfg.useDeepCSV_ iEvent.allGenParts (resetTruth s)
    (by simpa [resetTruth] using hn)
  simp only [analyzeTruth]
  exact h

theorem photonLoop_genPhoton2 (K : Ext) (cfg : Config) (photons : List Photon) (s : State) :
    (photonLoop K cfg photons (photonAcc0 s)).s.genPhoton2 = s.genPhoton2 := by
  have h := congrArg State.genPhoton2
    (photonFold_recoFrame K cfg (photons.take (toInt32 photons.length).toNat) (photonAcc0 s))
  exact h

theorem diphoton_of_no_genPhoton2 (K : Ext) (acc : PhotonAcc)
    (h : K.Pt acc.s.genPhoton2 = 0) : (diphoton K acc).2 = [] := by
  simp only [diphoton, h, lt_self_iff_false, gt_iff_lt, and_false, if_false]

/-- C11. Missing truth yields no diphoton mass: for every event that passes the
vertex gate and has fewer than two Higgs-daughter photons among its generator
particles, whatever its reconstructed photons are, `analyze` returns and none
of its observations goes to one of the six diphoton-mass histograms or to one
of the two pT-ratio profiles. The transverse momentum of the vector
`SetPtEtaPhiM(0,0,0,0)`, computed by the external library, is taken to be 0. -/
theorem C11_no_diphoton_without_truth (K : Ext) (cfg : Config) (s : State) (iEvent : Event)
    (hK : K.Pt (.SetPtEtaPhiM 0 0 0 0) = 0)
    (ha : aborted iEvent = false)
    (hn : (iEvent.allGenParts.filter isHiggsPhoton).length < 2) :
    ∃ (s1 : State) (obs : List Obs), analyze K cfg s iEvent = some (s1, obs)
      ∧ ∀ o ∈ obs, inHists diphotonHists o = false := by
  obtain ⟨s1, obs, h1, h2⟩ := analyze_diphoton_obs K cfg s iEvent ha
  refine ⟨s1, obs, h1, ?_⟩
  rw [diphoton_of_no_genPhoton2] at h2
  · intro o ho
    have := List.filter_eq_nil_iff.mp h2 o ho
    simpa using this
  · rw [photonLoop_genPhoton2, analyzeTruth_genPhoton2 K cfg s iEvent hn]
    exact hK

theorem C11_no_diphoton_without_truth_witness :
    sampleExt.Pt (.SetPtEtaPhiM 0 0 0 0) = 0
      ∧ aborted onePhotonEvent = false
      ∧ (onePhotonEvent.allGenParts.filter isHiggsPhoton).length < 2
      ∧ ∃ (s1 : State) (obs : List Obs),
          analyze sampleExt sampleConfig sampleState onePhotonEvent = some (s1, obs)
          ∧ ∀ o ∈ obs, inHists diphotonHists o = false :=
  ⟨by norm_num [sampleExt, TLorentzVector.ptQ], by decide, by decide,
    C11_no_diphoton_without_truth sampleExt sampleConfig sampleState onePhotonEvent
      (by norm_num [sampleExt, TLorentzVector.ptQ]) (by decide) (by decide)⟩

/-! ## C12: the photon selection reads two configuration parameters only -/

theorem passCuts_iff (cfg : Config) (ph : Photon) :
    passCuts cfg ph = true ↔
      (toFloat ph.et).gt cfg.minPhotonEt_ = true ∧ |ph.eta| < cfg.maxPhotonAbsEta_ := by
  simp only [passCuts, Bool.and_eq_true, decide_eq_true_eq]

theorem photonStep_of_fail (K : Ext) (cfg : Config) (acc : PhotonAcc) (ph : Photon)
    (h : passCuts cfg ph = false) : photonStep K cfg acc ph = acc := by
  simp only [photonStep, h, Bool.false_eq_true, if_false]

theorem photonStep_of_pass (K : Ext) (cfg : Config) (acc : PhotonAcc) (ph : Photon)
    (h : passCuts cfg ph = true) :
    pushed .h_nPassingPho_ (photonStep K cfg acc ph).obs
      = pushed .h_nPassingPho_ acc.obs ++ [1] := by
  simp only [photonStep, h, if_true]
  split_ifs <;> simp [pushed, matchedObs]

theorem toFloat_edge_below : toFloat 20.0000001 = .fin 20 := by
  rw [toFloat_eq 20.0000001 4 10485760 (by norm_num [abs_of_pos]) (by norm_num [abs_of_pos])
    (by norm_num) (by norm_num) (by norm_num) (by norm_num [abs_of_pos])]
  norm_num

theorem toFloat_edge_above : toFloat 20.1 = .fin (10538189 / 524288) := by
  rw [toFloat_eq 20.1 4 10538189 (by norm_num [abs_of_pos]) (by norm_num [abs_of_pos])
    (by norm_num) (by norm_num) (by norm_num) (by norm_num [abs_of_pos])]
  norm_num

/-- C12, as stated, fails in both directions. A photon with transverse energy
20.0000001 and |eta| = 1 is strictly above `minPhotonEt_` = 20 and strictly
below `maxPhotonAbsEta_` = 3, and it does not pass the selection: the photon
loop leaves its state as it was (the value compared is the `float` 20). A
photon with transverse energy 20.1 is not strictly above `minPhotonEt_` = 20.1,
and it passes the selection and pushes a sample to `h_nPassingPho_` (the value
compared is the `float` 10538189 / 2^19, about 20.10000038). -/
theorem C12_counterexample_float_et :
    ((photonWithEt 20.0000001).et > sampleConfig.minPhotonEt_
      ∧ |(photonWithEt 20.0000001).eta| < sampleConfig.maxPhotonAbsEta_
      ∧ passCuts sampleConfig (photonWithEt 20.0000001) = false
      ∧ ∀ (K : Ext) (acc : PhotonAcc),
          photonStep K sampleConfig acc (photonWithEt 20.0000001) = acc)
    ∧ (¬ (photonWithEt 20.1).et > (sampleConfigEt 20.1).minPhotonEt_
      ∧ passCuts (sampleConfigEt 20.1) (photonWithEt 20.1) = true
      ∧ ∀ (K : Ext) (acc : PhotonAcc),
          pushed .h_nPassingPho_ (photonStep K (sampleConfigEt 20.1) acc (photonWithEt 20.1)).obs
            = pushed .h_nPassingPho_ acc.obs ++ [1]) := by
  have h1 : passCuts sampleConfig (photonWithEt 20.0000001) = false := by
    simp only [passCuts, photonWithEt, mkPhoton, sampleConfig, toFloat_edge_below, Dbl.gt]
    norm_num
  have h2 : passCuts (sampleConfigEt 20.1) (photonWithEt 20.1) = true := by
    simp only [passCuts, photonWithEt, mkPhoton, sampleConfigEt, sampleConfig,
      toFloat_edge_above, Dbl.gt]
    norm_num
  refine ⟨⟨?_, ?_, h1, fun K acc => photonStep_of_fail K _ acc _ h1⟩,
    ⟨?_, h2, fun K acc => photonStep_of_pass K _ acc _ h2⟩⟩
  · norm_num [photonWithEt, mkPhoton, sampleConfig]
  · norm_num [photonWithEt, mkPhoton, sampleConfig]
  · norm_num [photonWithEt, mkPhoton, sampleConfigEt, sampleConfig]

/-- C12 (amended). Permissive photon selection: a photon passes the selection
of the photon loop (it is processed and pushes a sample to `h_nPassingPho_`; a
photon that does not pass leaves the loop state as it was) iff its transverse
energy narrowed to single precision (the local `float photonEt`) is strictly
above `minPhotonEt_` and its |eta| strictly below `maxPhotonAbsEta_`; and for
every event, replacing `minPhotonAbsEta_`, `minPhotonR9_`, `maxPhotonHoverE_`
and `maxIetaIeta_` by any other values changes neither the observations nor
the members returned by `analyze`. -/
theorem C12_permissive_photon_selection (K : Ext) (cfg : Config) (s : State) (iEvent : Event)
    (minAbsEta minR9 maxHoverE maxIetaIeta : ℚ) :
    (∀ (acc : PhotonAcc) (ph : Photon),
        ((toFloat ph.et).gt cfg.minPhotonEt_ = true ∧ |ph.eta| < cfg.maxPhotonAbsEta_ →
          pushed .h_nPassingPho_ (photonStep K cfg acc ph).obs
            = pushed .h_nPassingPho_ acc.obs ++ [1])
        ∧ (¬ ((toFloat ph.et).gt cfg.minPhotonEt_ = true ∧ |ph.eta| < cfg.maxPhotonAbsEta_) →
          photonStep K cfg acc ph = acc))
      ∧ analyze K { cfg with minPhotonAbsEta_ := minAbsEta, minPhotonR9_ := minR9,
                             maxPhotonHoverE_ := maxHoverE, maxIetaIeta_ := maxIetaIeta }
          s iEvent = analyze K cfg s iEvent := by
  refine ⟨fun acc ph => ⟨fun h => ?_, fun h => ?_⟩, rfl⟩
  · exact photonStep_of_pass K cfg acc ph ((passCuts_iff cfg ph).mpr h)
  · apply photonStep_of_fail
    rw [← Bool.not_eq_true, passCuts_iff]
    exact h

/-! ## C13: which vertices qualify -/

theorem vertexLoop_count (vs : List Vertex) :
    ∀ (i : Nat) (prVtx : Int) (nVtx : Nat),
      (vertexLoop vs i prVtx nVtx).2
        = nVtx + (vs.filter fun v => !v.isFake && decide (v.ndof > 4)).length := by
  induction vs with
  | nil => intro i prVtx nVtx; rfl
  | cons v rest ih =>
    intro i prVtx nVtx
    unfold vertexLoop
    by_cases hf : v.isFake = true
    · simp only [hf, if_true, List.filter_cons, Bool.not_true, Bool.false_and,
        Bool.false_eq_true, if_false]
      exact ih _ _ _
    · have hf2 : v.isFake = false := by simpa using hf
      by_cases hn : v.ndof ≤ 4
      · have hn2 : ¬ v.ndof > 4 := not_lt.mpr hn
        simp only [hf2, hn, hn2, if_true, if_false, Bool.false_eq_true, List.filter_cons,
          Bool.not_false, Bool.true_and, decide_False]
        exact ih _ _ _
      · have hn2 : v.ndof > 4 := not_le.mp hn
        simp only [hf2, hn, hn2, if_false, Bool.false_eq_true, List.filter_cons,
          Bool.not_false, Bool.true_and, decide_True, if_true, List.length_cons]
        rw [ih]
        omega

theorem vertexLoop_first (vs : List Vertex) :
    ∀ (i : Nat) (prVtx : Int) (nVtx : Nat), prVtx < 0 → i + vs.length ≤ 2 ^ 31 →
      (∃ v ∈ vs, v.isFake = false ∧ v.ndof > 4) →
      ∃ (k : Nat) (v : Vertex), vs[k]? = some v ∧ v.isFake = false ∧ v.ndof > 4
        ∧ (∀ (j : Nat) (w : Vertex), j < k → vs[j]? = some w →
            ¬ (w.isFake = false ∧ w.ndof > 4))
        ∧ (vertexLoop vs i prVtx nVtx).1 = ((i + k : Nat) : Int) := by
  induction vs with
  | nil => intro i prVtx nVtx _ _ h; simp at h
  | cons v rest ih =>
    intro i prVtx nVtx hp hlen h
    simp only [List.length_cons] at hlen
    by_cases hq : v.isFake = false ∧ v.ndof > 4
    · refine ⟨0, v, by simp, hq.1, hq.2, fun j w hj => absurd hj (Nat.not_lt_zero j), ?_⟩
      have hn : ¬ v.ndof ≤ 4 := not_le.mpr hq.2
      unfold vertexLoop
      simp only [hq.1, hn, hp, if_false, if_true, Bool.false_eq_true]
      rw [toInt32_of_lt i (by omega)]
      rw [vertexLoop_fst_of_nonneg rest _ _ _ (Int.natCast_nonneg i)]
      rfl
    · have hrest : ∃ w ∈ rest, w.isFake = false ∧ w.ndof > 4 := by
        obtain ⟨w, hw, hw1⟩ := h
        rcases List.mem_cons.mp hw with e | hw
        · subst e; exact absurd hw1 hq
        · exact ⟨w, hw, hw1⟩
      have hskip : vertexLoop (v :: rest) i prVtx nVtx = vertexLoop rest (i + 1) prVtx nVtx := by
        by_cases hf : v.isFake = true
        · simp only [vertexLoop, hf, if_true]
        · have hf2 : v.isFake = false := by simpa using hf
          have hn : v.ndof ≤ 4 := by
            by_contra hc
            exact hq ⟨hf2, not_le.mp hc⟩
          simp only [vertexLoop, hf2, hn, if_true, if_false, Bool.false_eq_true]
      obtain ⟨k, w, e1, e2, e3, e4, e5⟩ := ih (i + 1) prVtx nVtx hp (by omega) hrest
      refine ⟨k + 1, w, by simpa using e1, e2, e3, ?_, ?_⟩
      · intro j u hj hu
        cases j with
        | zero =>
          simp only [List.getElem?_cons_zero, Option.some.injEq] at hu
          subst hu
          exact hq
        | succ j =>
          simp only [List.getElem?_cons_succ] at hu
          exact e4 j u (by omega) hu
      · rw [hskip, e5]
        congr 1
        omega

theorem pushed_vertices_n (K : Ext) (cfg : Config) (s : State) (iEvent : Event)
    (h : aborted iEvent = false) :
    ∃ (s1 : State) (obs : List Obs), analyze K cfg s iEvent = some (s1, obs)
      ∧ pushed .h_goodVertices_n_ obs = [((vertexLoop iEvent.vertices 0 (-1) 0).2 : ℚ)]
      ∧ pushed .h_allVertices_n_ obs = [(iEvent.vertices.length : ℚ)] := by
  refine ⟨_, _, analyze_of_not_aborted K cfg s iEvent h, ?_, ?_⟩
  · rw [pushed_append, pushed_append, pushed_analyzeTruth _ _ _ _ _ (by decide),
      pushed_analyzeReco _ _ _ _ _ (by decide), pushed_append, pushed_append, pushed_append,
      pushed_metObs _ _ (by decide) (by decide)]
    simp [pushed, jetSummary]
  · rw [pushed_append, pushed_append, pushed_analyzeTruth _ _ _ _ _ (by decide),
      pushed_analyzeReco _ _ _ _ _ (by decide), pushed_append, pushed_append, pushed_append,
      pushed_metObs _ _ (by decide) (by decide)]
    simp [pushed, jetSummary]

/-- C13. Vertex qualification: for every event (with at most 2^31 vertices, so
that the index fits the `int` variable `prVtx`), a vertex qualifying when it is
not fake and has ndof > 4 (ndof = 4 does not qualify): when no vertex
qualifies, `prVtx` stays -1; when some vertex qualifies, `prVtx` is the least
index `k` of a qualifying vertex, `analyze` returns, the only sample pushed to
`h_goodVertices_n_` is the number of qualifying vertices and the only sample
pushed to `h_allVertices_n_` is the number of vertices. -/
theorem C13_vertex_qualification (K : Ext) (cfg : Config) (s : State) (iEvent : Event)
    (hlen : iEvent.vertices.length ≤ 2 ^ 31) :
    ((∀ v ∈ iEvent.vertices, ¬ (v.isFake = false ∧ v.ndof > 4)) →
        (vertexLoop iEvent.vertices 0 (-1) 0).1 = -1)
      ∧ ((∃ v ∈ iEvent.vertices, v.isFake = false ∧ v.ndof > 4) →
        ∃ (k : Nat) (v : Vertex), iEvent.vertices[k]? = some v
          ∧ v.isFake = false ∧ v.ndof > 4
          ∧ (∀ (j : Nat) (w : Vertex), j < k → iEvent.vertices[j]? = some w →
              ¬ (w.isFake = false ∧ w.ndof > 4))
          ∧ (vertexLoop iEvent.vertices 0 (-1) 0).1 = (k : Int)
          ∧ ∃ (s1 : State) (obs : List Obs), analyze K cfg s iEvent = some (s1, obs)
            ∧ pushed .h_goodVertices_n_ obs
                = [(((iEvent.vertices.filter
                      fun v => !v.isFake && decide (v.ndof > 4)).length : Nat) : ℚ)]
            ∧ pushed .h_allVertices_n_ obs = [(iEvent.vertices.length : ℚ)]) := by
  constructor
  · intro h
    rw [vertexLoop_no_qualifying iEvent.vertices h]
  · intro h
    obtain ⟨k, v, e1, e2, e3, e4, e5⟩ :=
      vertexLoop_first iEvent.vertices 0 (-1) 0 (by decide) (by omega) h
    have ha : aborted iEvent = false := (aborted_eq_false_iff iEvent hlen).mpr h
    obtain ⟨s1, obs, h1, h2, h3⟩ := pushed_vertices_n K cfg s iEvent ha
    refine ⟨k, v, e1, e2, e3, e4, ?_, s1, obs, h1, ?_, h3⟩
    · rw [e5, Nat.zero_add]
    · rw [h2, vertexLoop_count, Nat.zero_add]

/-- Witness of C13 on `fourVertexEvent`: the least qualifying index is 2, two
vertices qualify out of four. -/
theorem C13_vertex_qualification_witness :
    fourVertexEvent.vertices.length ≤ 2 ^ 31
      ∧ (∃ v ∈ fourVertexEvent.vertices, v.isFake = false ∧ v.ndof > 4)
      ∧ (vertexLoop fourVertexEvent.vertices 0 (-1) 0).1 = 2
      ∧ ((∃ v ∈ fourVertexEvent.vertices, v.isFake = false ∧ v.ndof > 4) →
        ∃ (k : Nat) (v : Vertex), fourVertexEvent.vertices[k]? = some v
          ∧ v.isFake = false ∧ v.ndof > 4
          ∧ (∀ (j : Nat) (w : Vertex), j < k → fourVertexEvent.vertices[j]? = some w →
              ¬ (w.isFake = false ∧ w.ndof > 4))
          ∧ (vertexLoop fourVertexEvent.vertices 0 (-1) 0).1 = (k : Int)
          ∧ ∃ (s1 : State) (obs : List Obs),
            analyze sampleExt sampleConfig sampleState fourVertexEvent = some (s1, obs)
            ∧ pushed .h_goodVertices_n_ obs
                = [(((fourVertexEvent.vertices.filter
                      fun v => !v.isFake && decide (v.ndof > 4)).length : Nat) : ℚ)]
            ∧ pushed .h_allVertices_n_ obs = [(fourVertexEvent.vertices.length : ℚ)]) :=
  ⟨by norm_num [fourVertexEvent],
    ⟨{ isFake := false, ndof := 5 }, by simp [fourVertexEvent], rfl, by norm_num⟩,
    by norm_num [fourVertexEvent, vertexLoop, toInt32],
    (C13_vertex_qualification sampleExt sampleConfig sampleState fourVertexEvent
      (by norm_num [fourVertexEvent])).2⟩

/-! ## C14: the sentinels of the electron energy ratio -/

theorem jetStep_gate_pass (K : Ext) (u : Bool) (elecs : List Electron) (muons : List Muon)
    (acc : JetAcc) (jet : Jet)
    (he : elecs.any (fun e => overlapsLepton K jet.p4 e.p4) = false)
    (hm : muons.any (fun m => overlapsLepton K jet.p4 m.p4) = false)
    (hg : 30 ≤ jet.p4.pt ∧ |jet.p4.eta| ≤ 4.7 ∧ jet.jetIDLoose = true) :
    countedAsGood acc (jetStep K u elecs muons acc jet) jet (btagDisc u jet) := by
  have hpt1 : ¬ jet.p4.pt < 30 := not_lt.mpr hg.1
  have heta1 : ¬ |jet.p4.eta| > 4.7 := not_lt.mpr hg.2.1
  have hid := hg.2.2
  by_cases hc : (u = true ∧ btagDisc u jet > 0.6324) ∨ (¬ u = true ∧ btagDisc u jet > 0.8484)
  · simp only [jetStep, he, hm, hpt1, heta1, hid, hc, countedAsGood]
    simp [pushed_append, pushed]
  · simp only [jetStep, he, hm, hpt1, heta1, hid, hc, countedAsGood]
    simp [pushed_append, pushed]

theorem jetStep_gate_fail (K : Ext) (u : Bool) (elecs : List Electron) (muons : List Muon)
    (acc : JetAcc) (jet : Jet)
    (hg : ¬ (30 ≤ jet.p4.pt ∧ |jet.p4.eta| ≤ 4.7 ∧ jet.jetIDLoose = true)) :
    notCountedAsGood acc (jetStep K u elecs muons acc jet) := by
  by_cases he : elecs.any (fun e => overlapsLepton K jet.p4 e.p4) = true
  · simp only [jetStep, he, if_true, notCountedAsGood, and_self]
  by_cases hm : muons.any (fun m => overlapsLepton K jet.p4 m.p4) = true
  · simp only [jetStep, hm, if_true, ite_self, notCountedAsGood, and_self]
  by_cases h3 : jet.p4.pt < 30
  · simp only [jetStep, he, hm, h3, if_true, if_false, notCountedAsGood]
    split_ifs <;> simp [pushed_append, pushed]
  by_cases h4 : |jet.p4.eta| > 4.7
  · simp only [jetStep, he, hm, h3, h4, if_true, if_false, notCountedAsGood]
    split_ifs <;> simp [pushed_append, pushed]
  have h5 : jet.jetIDLoose = false := by
    by_contra hn
    exact hg ⟨not_lt.mp h3, not_lt.mp h4, by simpa using hn⟩
  simp only [jetStep, he, hm, h3, h4, h5, if_true, if_false, notCountedAsGood, Bool.not_false]
  split_ifs <;> simp [pushed_append, pushed]

theorem not_counted_and_not_counted (acc acc1 : JetAcc) (jet : Jet) (d : ℚ)
    (h1 : countedAsGood acc acc1 jet d) (h2 : notCountedAsGood acc acc1) : False := by
  have a := h1.1
  have b := h2.1
  omega

/-- C15. Good-jet gate: a jet that coincides with no electron and no muon is
counted as good (`nGoodJets` incremented, its pt, phi, eta and discriminant
pushed to the good-jet distributions) iff pt >= 30 and |eta| <= 4.7 and the
loose jet ID passes, and otherwise leaves the counter and these distributions
as they were; a jet with pt exactly 30, or |eta| exactly 4.7, that satisfies
the two other conditions is counted. -/
theorem C15_good_jet_gate (K : Ext) (u : Bool) (elecs : List Electron) (muons : List Muon)
    (acc : JetAcc) (jet : Jet)
    (he : elecs.any (fun e => overlapsLepton K jet.p4 e.p4) = false)
    (hm : muons.any (fun m => overlapsLepton K jet.p4 m.p4) = false) :
    (countedAsGood acc (jetStep K u elecs muons acc jet) jet (btagDisc u jet)
        ↔ 30 ≤ jet.p4.pt ∧ |jet.p4.eta| ≤ 4.7 ∧ jet.jetIDLoose = true)
      ∧ (notCountedAsGood acc (jetStep K u elecs muons acc jet)
        ↔ ¬ (30 ≤ jet.p4.pt ∧ |jet.p4.eta| ≤ 4.7 ∧ jet.jetIDLoose = true))
      ∧ (jet.p4.pt = 30 → |jet.p4.eta| ≤ 4.7 → jet.jetIDLoose = true →
          countedAsGood acc (jetStep K u elecs muons acc jet) jet (btagDisc u jet))
      ∧ (|jet.p4.eta| = 4.7 → 30 ≤ jet.p4.pt → jet.jetIDLoose = true →
          countedAsGood acc (jetStep K u elecs muons acc jet) jet (btagDisc u jet)) := by
  have hp := jetStep_gate_pass K u elecs muons acc jet he hm
  have hf := jetStep_gate_fail K u elecs muons acc jet
  refine ⟨⟨fun h => ?_, hp⟩, ⟨fun h hg => ?_, hf⟩, fun h1 h2 h3 => hp ⟨le_of_eq h1.symm, h2, h3⟩,
    fun h1 h2 h3 => hp ⟨h2, le_of_eq h1, h3⟩⟩
  · by_contra hg
    exact not_counted_and_not_counted _ _ _ _ h (hf hg)
  · exact not_counted_and_not_counted _ _ _ _ (hp hg) h

/-- Witness of C15: the jet `boundaryJet` (pt = 30, eta = 4.7) against the
leptons of `sampleEvent` is counted as good. -/
theorem C15_good_jet_gate_witness :
    sampleEvent.elecs.any (fun e => overlapsLepton sampleExt boundaryJet.p4 e.p4) = false
    ∧ sampleEvent.muons.any (fun m => overlapsLepton sampleExt boundaryJet.p4 m.p4) = false
    ∧ boundaryJet.p4.pt = 30 ∧ |boundaryJet.p4.eta| = 4.7 ∧ boundaryJet.jetIDLoose = true
    ∧ countedAsGood jetAcc0
        (jetStep sampleExt false sampleEvent.elecs sampleEvent.muons jetAcc0 boundaryJet)
        boundaryJet (btagDisc false boundaryJet) :=
  have he : sampleEvent.elecs.any (fun e => overlapsLepton sampleExt boundaryJet.p4 e.p4)
      = false := by
    norm_num [sampleEvent, overlapsLepton, boundaryJet, sampleJet, sampleElectron, sampleExt]
  have hm : sampleEvent.muons.any (fun m => overlapsLepton sampleExt boundaryJet.p4 m.p4)
      = false := by
    norm_num [sampleEvent, overlapsLepton, boundaryJet, sampleJet, sampleMuon, sampleExt]
  have hpt : boundaryJet.p4.pt = 30 := rfl
  have heta : |boundaryJet.p4.eta| = 4.7 := by
    norm_num [boundaryJet, abs_div, Nat.abs_ofNat]
  ⟨he, hm, hpt, heta, rfl,
    (C15_good_jet_gate sampleExt false sampleEvent.elecs sampleEvent.muons jetAcc0 boundaryJet
      he hm).2.2.1 hpt (le_of_eq heta) rfl⟩

/-! ## C16: the supercluster-eta gap -/

/-- C16, as stated, fails: an electron whose |supercluster eta| is exactly
1.479, or exactly 1.556, and which is inside all other thresholds, passes the
three tiers when the conversion veto does not fire. -/
theorem C16_counterexample_gap_endpoints_pass :
    (1.479 ≤ |(cleanElectron 1.479).superCluster_eta|
      ∧ |(cleanElectron 1.479).superCluster_eta| ≤ 1.556
      ∧ isLooseElec (fun _ _ _ => false) (cleanElectron 1.479) () () = true
      ∧ isMediumElec (fun _ _ _ => false) (cleanElectron 1.479) () () = true
      ∧ isTightElec (fun _ _ _ => false) (cleanElectron 1.479) () () = true)
    ∧ (1.479 ≤ |(cleanElectron 1.556).superCluster_eta|
      ∧ |(cleanElectron 1.556).superCluster_eta| ≤ 1.556
      ∧ isLooseElec (fun _ _ _ => false) (cleanElectron 1.556) () () = true
      ∧ isMediumElec (fun _ _ _ => false) (cleanElectron 1.556) () () = true
      ∧ isTightElec (fun _ _ _ => false) (cleanElectron 1.556) () () = true) := by
  refine ⟨⟨?_, ?_, ?_, ?_, ?_⟩, ⟨?_, ?_, ?_, ?_, ?_⟩⟩ <;>
    norm_num [cleanElectron, isLooseElec, isMediumElec, isTightElec, Ooemoop, fdiv, Dbl.gt,
      abs_div, Nat.abs_ofNat]

/-- C16 (amended). Electron gap exclusion: each of `isLooseElec`,
`isMediumElec` and `isTightElec` returns fail for every electron whose
|supercluster eta| lies strictly between 1.479 and 1.556, whatever its other
variables and whatever the conversion veto answers. -/
theorem C16_gap_exclusion {C B : Type} (hasMatchedConversion : Electron → C → B → Bool)
    (patEl : Electron) (conversions : C) (beamspot : B)
    (h : 1.479 < |patEl.superCluster_eta| ∧ |patEl.superCluster_eta| < 1.556) :
    isLooseElec hasMatchedConversion patEl conversions beamspot = false
      ∧ isMediumElec hasMatchedConversion patEl conversions beamspot = false
      ∧ isTightElec hasMatchedConversion patEl conversions beamspot = false := by
  have h1 : |patEl.superCluster_eta| > 1.479 ∧ |patEl.superCluster_eta| < 1.556 := h
  refine ⟨?_, ?_, ?_⟩
  · simp only [isLooseElec, h1, and_self, if_true]
  · simp only [isMediumElec, h1, and_self, if_true]
  · simp only [isTightElec, h1, and_self, if_true]

/-- Witness of the amended C16: the electron `cleanElectron 1.5`, inside all
other thresholds, fails the three tiers. -/
theorem C16_gap_exclusion_witness :
    (1.479 < |(cleanElectron 1.5).superCluster_eta|
        ∧ |(cleanElectron 1.5).superCluster_eta| < 1.556)
      ∧ isLooseElec (fun _ _ _ => false) (cleanElectron 1.5) () () = false
      ∧ isMediumElec (fun _ _ _ => false) (cleanElectron 1.5) () () = false
      ∧ isTightElec (fun _ _ _ => false) (cleanElectron 1.5) () () = false :=
  have h : 1.479 < |(cleanElectron 1.5).superCluster_eta|
      ∧ |(cleanElectron 1.5).superCluster_eta| < 1.556 := by
    norm_num [cleanElectron, abs_div, Nat.abs_ofNat]
  ⟨h, C16_gap_exclusion (fun _ _ _ => false) (cleanElectron 1.5) () () h⟩

/-! ## C17: the truth-jet multiplicity -/

theorem genJetOverlaps_iff (K : Ext) (genParts : List PackedGenParticle) (jet : GenJet) :
    genJetOverlaps K genParts jet = true ↔
      ∃ p ∈ genParts, (|p.pdgId| = 11 ∨ |p.pdgId| = 13)
        ∧ |jet.p4.pt - p.p4.pt| < 0.01 * p.p4.pt
        ∧ K.VectorUtil_DeltaR p.p4 jet.p4 < 0.01 := by
  simp only [genJetOverlaps, List.any_eq_true]
  constructor
  · rintro ⟨p, hp, h⟩
    refine ⟨p, hp, ?_⟩
    split_ifs at h with hc
    simp only [decide_eq_true_eq] at h
    refine ⟨?_, h⟩
    by_contra hn
    exact hc ⟨fun e => hn (Or.inl e), fun e => hn (Or.inr e)⟩
  · rintro ⟨p, hp, hl, h⟩
    refine ⟨p, hp, ?_⟩
    have hc : ¬ (|p.pdgId| ≠ 11 ∧ |p.pdgId| ≠ 13) := by
      rintro ⟨h1, h2⟩
      rcases hl with e | e
      · exact h1 e
      · exact h2 e
    simp only [hc, if_false, decide_eq_true_eq]
    exact h

theorem genJetStep_count (K : Ext) (gp : List PackedGenParticle) (acc : GenJetAcc) (i : Nat)
    (jet : GenJet) :
    (genJetStep K gp acc i jet).nGenJets = acc.nGenJets
      + (if (!genJetOverlaps K gp jet && decide (30 ≤ jet.p4.pt ∧ |jet.p4.eta| ≤ 4.7)) = true
          then 1 else 0) := by
  simp only [genJetStep]
  split_ifs with h1 h2 h3 h4 <;> simp_all
  all_goals linarith

theorem genJetLoop_count (K : Ext) (gp : List PackedGenParticle) (rest : List GenJet) :
    ∀ (i : Nat) (acc : GenJetAcc),
      (genJetLoop K gp rest i acc).nGenJets = acc.nGenJets
        + (rest.filter fun jet =>
            !genJetOverlaps K gp jet && decide (30 ≤ jet.p4.pt ∧ |jet.p4.eta| ≤ 4.7)).length := by
  induction rest with
  | nil => intro i acc; rfl
  | cons jet rest ih =>
    intro i acc
    simp only [genJetLoop, List.filter_cons]
    rw [ih, genJetStep_count]
    split_ifs
    · simp only [List.length_cons]; omega
    · omega

theorem pushed_genJets_n (K : Ext) (cfg : Config) (s : State) (iEvent : Event)
    (h : aborted iEvent = false) :
    ∃ (s1 : State) (obs : List Obs), analyze K cfg s iEvent = some (s1, obs)
      ∧ pushed .h_genJets_n_ obs =
          [(((iEvent.genJets.filter fun jet =>
              !genJetOverlaps K iEvent.genParts jet
                && decide (30 ≤ jet.p4.pt ∧ |jet.p4.eta| ≤ 4.7)).length : Nat) : ℚ)] := by
  refine ⟨_, _, analyze_of_not_aborted K cfg s iEvent h, ?_⟩
  rw [pushed_append, pushed_append, pushed_analyzeTruth _ _ _ _ _ (by decide),
    pushed_analyzeReco _ _ _ _ _ (by decide), pushed_append, pushed_append, pushed_append,
    pushed_metObs _ _ (by decide) (by decide), genJetLoop_count]
  simp [pushed, jetSummary]

theorem thresholdGenJetEvent_not_aborted : aborted thresholdGenJetEvent = false := by
  norm_num [aborted, thresholdGenJetEvent, emptyEvent, vertexLoop, toInt32]

/-- C17, as stated, fails: in an event that passes the vertex gate, without
generator leptons, with one generator jet of pt exactly 30 and one of eta
exactly 4.7, no generator jet has pt > 30 and |eta| < 4.7, while the truth-jet
multiplicity pushed is 2. -/
theorem C17_counterexample_threshold_jets_counted :
    aborted thresholdGenJetEvent = false
    ∧ (thresholdGenJetEvent.genJets.filter fun jet =>
        !genJetOverlaps sampleExt thresholdGenJetEvent.genParts jet
          && decide (jet.p4.pt > 30 ∧ |jet.p4.eta| < 4.7)).length = 0
    ∧ ∃ (s1 : State) (obs : List Obs),
        analyze sampleExt sampleConfig sampleState thresholdGenJetEvent = some (s1, obs)
        ∧ pushed .h_genJets_n_ obs = [2]
        ∧ pushed .h_genJets_n_ obs ≠
            [(((thresholdGenJetEvent.genJets.filter fun jet =>
                !genJetOverlaps sampleExt thresholdGenJetEvent.genParts jet
                  && decide (jet.p4.pt > 30 ∧ |jet.p4.eta| < 4.7)).length : Nat) : ℚ)] := by
  obtain ⟨s1, obs, h1, h2⟩ := pushed_genJets_n sampleExt sampleConfig sampleState
    thresholdGenJetEvent thresholdGenJetEvent_not_aborted
  have h0 : (thresholdGenJetEvent.genJets.filter fun jet =>
      !genJetOverlaps sampleExt thresholdGenJetEvent.genParts jet
        && decide (jet.p4.pt > 30 ∧ |jet.p4.eta| < 4.7)).length = 0 := by
    norm_num [thresholdGenJetEvent, emptyEvent, genJetOverlaps, abs_div, Nat.abs_ofNat]
  have h3 : pushed .h_genJets_n_ obs = [2] := by
    rw [h2]
    norm_num [thresholdGenJetEvent, emptyEvent, genJetOverlaps, abs_div, Nat.abs_ofNat]
  refine ⟨thresholdGenJetEvent_not_aborted, h0, s1, obs, h1, h3, ?_⟩
  rw [h3, h0]
  norm_num

/-- C17 (amended). Truth-jet counting: in every event that passes the vertex
gate, `analyze` returns and the only sample pushed to `h_genJets_n_` is the
number of generator jets that (a) coincide with no generator electron or muon
(|pt(jet) - pt(lepton)| < 0.01 pt(lepton) and deltaR < 0.01) and (b) have
pt >= 30 and |eta| <= 4.7: a retained jet with pt exactly 30 or |eta| exactly
4.7 is counted. -/
theorem C17_truth_jet_counting (K : Ext) (cfg : Config) (s : State) (iEvent : Event)
    (h : aborted iEvent = false) :
    (∃ (s1 : State) (obs : List Obs), analyze K cfg s iEvent = some (s1, obs)
      ∧ pushed .h_genJets_n_ obs =
          [(((iEvent.genJets.filter fun jet =>
              !genJetOverlaps K iEvent.genParts jet
                && decide (30 ≤ jet.p4.pt ∧ |jet.p4.eta| ≤ 4.7)).length : Nat) : ℚ)])
      ∧ ∀ jet : GenJet, genJetOverlaps K iEvent.genParts jet = true ↔
          ∃ p ∈ iEvent.genParts, (|p.pdgId| = 11 ∨ |p.pdgId| = 13)
            ∧ |jet.p4.pt - p.p4.pt| < 0.01 * p.p4.pt
            ∧ K.VectorUtil_DeltaR p.p4 jet.p4 < 0.01 :=
  ⟨pushed_genJets_n K cfg s iEvent h, fun jet => genJetOverlaps_iff K iEvent.genParts jet⟩

/-- Witness of the amended C17 on `sampleEvent`. -/
theorem C17_truth_jet_counting_witness :
    aborted sampleEvent = false
    ∧ ∃ (s1 : State) (obs : List Obs),
        analyze sampleExt sampleConfig sampleState sampleEvent = some (s1, obs)
        ∧ pushed .h_genJets_n_ obs =
            [(((sampleEvent.genJets.filter fun jet =>
                !genJetOverlaps sampleExt sampleEvent.genParts jet
                  && decide (30 ≤ jet.p4.pt ∧ |jet.p4.eta| ≤ 4.7)).length : Nat) : ℚ)] :=
  ⟨sampleEvent_not_aborted,
    (C17_truth_jet_counting sampleExt sampleConfig sampleState sampleEvent
      sampleEvent_not_aborted).1⟩

/-! ## C18: the overlap decision does not depend on the order of the leptons -/

theorem overlap_any_iff (K : Ext) (elecs : List Electron) (muons : List Muon) (jet : Jet) :
    (elecs.any (fun e => overlapsLepton K jet.p4 e.p4)
        || muons.any (fun m => overlapsLepton K jet.p4 m.p4)) = true ↔
      ∃ l ∈ elecs.map (fun e => e.p4) ++ muons.map (fun m => m.p4),
        |jet.p4.pt - l.pt| < 0.01 * l.pt ∧ K.VectorUtil_DeltaR l jet.p4 < 0.01 := by
  simp only [Bool.or_eq_true, List.any_eq_true, overlapsLepton, decide_eq_true_eq,
    List.mem_append, List.mem_map]
  constructor
  · rintro (⟨e, he, h⟩ | ⟨m, hm, h⟩)
    · exact ⟨e.p4, Or.inl ⟨e, he, rfl⟩, h⟩
    · exact ⟨m.p4, Or.inr ⟨m, hm, rfl⟩, h⟩
  · rintro ⟨l, (⟨e, he, rfl⟩ | ⟨m, hm, rfl⟩), h⟩
    · exact Or.inl ⟨e, he, h⟩
    · exact Or.inr ⟨m, hm, h⟩

theorem jetStep_eq_ite (K : Ext) (u : Bool) (elecs : List Electron) (muons : List Muon)
    (acc : JetAcc) (jet : Jet) :
    jetStep K u elecs muons acc jet =
      if (elecs.any (fun e => overlapsLepton K jet.p4 e.p4)
          || muons.any (fun m => overlapsLepton K jet.p4 m.p4)) = true then acc
      else jetStep K u [] [] acc jet := by
  by_cases he : elecs.any (fun e => overlapsLepton K jet.p4 e.p4) = true
  · simp only [jetStep, he, if_true, Bool.true_or]
  · by_cases hm : muons.any (fun m => overlapsLepton K jet.p4 m.p4) = true
    · simp only [jetStep, hm, if_true, ite_self, Bool.or_true]
    · simp only [Bool.not_eq_true] at he hm
      simp only [jetStep, he, hm, Bool.or_false, Bool.false_eq_true, if_false, List.any_nil]

theorem jetStep_obs_length (K : Ext) (u : Bool) (acc : JetAcc) (jet : Jet) :
    acc.obs.length < (jetStep K u [] [] acc jet).obs.length := by
  simp only [jetStep, List.any_nil, Bool.false_eq_true, if_false]
  split_ifs <;> simp only [List.length_append, List.length_cons, List.length_nil] <;> omega

theorem jetStep_discard_iff (K : Ext) (u : Bool) (elecs : List Electron) (muons : List Muon)
    (acc : JetAcc) (jet : Jet) :
    jetStep K u elecs muons acc jet = acc ↔
      ∃ l ∈ elecs.map (fun e => e.p4) ++ muons.map (fun m => m.p4),
        |jet.p4.pt - l.pt| < 0.01 * l.pt ∧ K.VectorUtil_DeltaR l jet.p4 < 0.01 := by
  rw [← overlap_any_iff, jetStep_eq_ite]
  constructor
  · intro h
    by_contra hc
    rw [if_neg hc] at h
    have := jetStep_obs_length K u acc jet
    rw [h] at this
    exact lt_irrefl _ this
  · intro h
    rw [if_pos h]

/-- C18. Overlap decision is order-independent: the jet-loop body discards the
jet (returns the counters and the observations as they were, pushing nothing)
iff some lepton of the electron list followed by the muon list has
|pt(jet) - pt(lepton)| < 0.01 pt(lepton) and deltaR < 0.01; hence the body gives
the same result on any two pairs of lists holding the same lepton
four-momenta, in particular on permuted lists, and the same result as the body
that tests the muons before the electrons. -/
theorem C18_overlap_order_independent (K : Ext) (u : Bool) (elecs : List Electron)
    (muons : List Muon) (acc : JetAcc) (jet : Jet) :
    (jetStep K u elecs muons acc jet = acc ↔
        ∃ l ∈ elecs.map (fun e => e.p4) ++ muons.map (fun m => m.p4),
          |jet.p4.pt - l.pt| < 0.01 * l.pt ∧ K.VectorUtil_DeltaR l jet.p4 < 0.01)
      ∧ (∀ (elecs1 : List Electron) (muons1 : List Muon),
          (∀ l : P4, l ∈ elecs1.map (fun e => e.p4) ++ muons1.map (fun m => m.p4)
            ↔ l ∈ elecs.map (fun e => e.p4) ++ muons.map (fun m => m.p4)) →
          jetStep K u elecs1 muons1 acc jet = jetStep K u elecs muons acc jet)
      ∧ (∀ (elecs1 : List Electron) (muons1 : List Muon),
          elecs.Perm elecs1 → muons.Perm muons1 →
          jetStep K u elecs1 muons1 acc jet = jetStep K u elecs muons acc jet)
      ∧ jetStep K u elecs muons acc jet =
          (if muons.any (fun m => overlapsLepton K jet.p4 m.p4) = true then acc
           else if elecs.any (fun e => overlapsLepton K jet.p4 e.p4) = true then acc
           else jetStep K u [] [] acc jet) := by
  have key : ∀ (elecs1 : List Electron) (muons1 : List Muon),
      (∀ l : P4, l ∈ elecs1.map (fun e => e.p4) ++ muons1.map (fun m => m.p4)
        ↔ l ∈ elecs.map (fun e => e.p4) ++ muons.map (fun m => m.p4)) →
      jetStep K u elecs1 muons1 acc jet = jetStep K u elecs muons acc jet := by
    intro elecs1 muons1 hmem
    rw [jetStep_eq_ite K u elecs1 muons1, jetStep_eq_ite K u elecs muons]
    have e : ((elecs1.any (fun e => overlapsLepton K jet.p4 e.p4)
          || muons1.any (fun m => overlapsLepton K jet.p4 m.p4)) = true)
        ↔ ((elecs.any (fun e => overlapsLepton K jet.p4 e.p4)
          || muons.any (fun m => overlapsLepton K jet.p4 m.p4)) = true) := by
      rw [overlap_any_iff, overlap_any_iff]
      constructor
      · rintro ⟨l, hl, h⟩
        exact ⟨l, (hmem l).mp hl, h⟩
      · rintro ⟨l, hl, h⟩
        exact ⟨l, (hmem l).mpr hl, h⟩
    by_cases hc : (elecs.any (fun e => overlapsLepton K jet.p4 e.p4)
          || muons.any (fun m => overlapsLepton K jet.p4 m.p4)) = true
    · rw [if_pos hc, if_pos (e.mpr hc)]
    · rw [if_neg hc, if_neg (fun h => hc (e.mp h))]
  refine ⟨jetStep_discard_iff K u elecs muons acc jet, key, ?_, ?_⟩
  · intro elecs1 muons1 hpe hpm
    apply key
    intro l
    simp only [List.mem_append, List.mem_map]
    constructor
    · rintro (⟨e, he, rfl⟩ | ⟨m, hm, rfl⟩)
      · exact Or.inl ⟨e, hpe.mem_iff.mpr he, rfl⟩
      · exact Or.inr ⟨m, hpm.mem_iff.mpr hm, rfl⟩
    · rintro (⟨e, he, rfl⟩ | ⟨m, hm, rfl⟩)
      · exact Or.inl ⟨e, hpe.mem_iff.mp he, rfl⟩
      · exact Or.inr ⟨m, hpm.mem_iff.mp hm, rfl⟩
  · rw [jetStep_eq_ite]
    by_cases he : elecs.any (fun e => overlapsLepton K jet.p4 e.p4) = true
    · simp only [he, Bool.true_or, if_true, ite_self]
    · by_cases hm : muons.any (fun m => overlapsLepton K jet.p4 m.p4) = true
      · simp only [hm, Bool.or_true, if_true]
      · simp only [Bool.not_eq_true] at he hm
        simp only [he, hm, Bool.or_false, Bool.false_eq_true, if_false]

/-! ## C19: truth photons after the second one -/

theorem analyze_truth_photons (K : Ext) (cfg : Config) (s : State) (iEvent : Event)
    (ha : aborted iEvent = false) :
    ∃ (s1 : State) (obs : List Obs), analyze K cfg s iEvent = some (s1, obs)
      ∧ truthPhotons s1 = truthPhotons (genTruthLoop K cfg.useDeepCSV_ iEvent.allGenParts
          (resetTruth s)).1
      ∧ pushed .h_genPhotonHiggsMass obs = pushed .h_genPhotonHiggsMass
          (genTruthLoop K cfg.useDeepCSV_ iEvent.allGenParts (resetTruth s)).2 := by
  refine ⟨_, _, analyze_of_not_aborted K cfg s iEvent ha, ?_, ?_⟩
  · rw [analyzeReco_truthPhotons]
    rfl
  · rw [pushed_append, pushed_append,
      pushed_of_all' recoHists _ (by decide) _ (analyzeReco_obs K cfg _ iEvent)]
    simp only [analyzeTruth, pushed_append]
    rw [pushed_of_all' genJetHists _ (by decide) _
      (genJetLoop_obs K iEvent.genParts iEvent.genJets 0
        { jGenJets := [], nGenJets := 0, obs := [] } (by simp))]
    have ht : ∀ row : GenPhotonRow, pushed .h_genPhotonHiggsMass
        (if cfg.createPhotonTTree_ = true then [Obs.tree row] else []) = [] := by
      intro row
      split_ifs <;> rfl
    rw [ht]
    simp [pushed]

/-- C19. Later truth photons are ignored: take an event that passes the vertex
gate and whose generator particles have `a` as first and `b` as second
Higgs-daughter photon, and insert the particles `extra` (any particles,
Higgs-daughter photons included) anywhere after `b`. On both events `analyze`
returns; truth photon 1, truth photon 2, their six copies, the truth diphoton
vector and its mass are the same on both (photon 1 built from `a`, photon 2
from `b`), and on both the truth diphoton mass is pushed exactly once, with
the same value. -/
theorem C19_later_photons_ignored (K : Ext) (cfg : Config) (s : State) (iEvent : Event)
    (before mid x y extra : List GenParticle) (a b : GenParticle)
    (hna : aborted iEvent = false)
    (hl : iEvent.allGenParts = before ++ a :: (mid ++ b :: (x ++ y)))
    (ha : isHiggsPhoton a = true) (hb : isHiggsPhoton b = true)
    (hbefore : ∀ p ∈ before, isHiggsPhoton p = false)
    (hmid : ∀ p ∈ mid, isHiggsPhoton p = false) :
    ∃ (s1 : State) (obs1 : List Obs) (s2 : State) (obs2 : List Obs),
      analyze K cfg s iEvent = some (s1, obs1)
      ∧ analyze K cfg s
          { iEvent with allGenParts := before ++ a :: (mid ++ b :: (x ++ extra ++ y)) }
          = some (s2, obs2)
      ∧ truthPhotons s2 = truthPhotons s1
      ∧ s1.genPhoton1 = .SetPtEtaPhiM a.p4.pt a.p4.eta a.p4.phi 0
      ∧ s1.genPhoton2 = .SetPtEtaPhiM b.p4.pt b.p4.eta b.p4.phi 0
      ∧ s1.genPhotonDble_mass = K.M (.add (.SetPtEtaPhiM a.p4.pt a.p4.eta a.p4.phi 0)
          (.SetPtEtaPhiM b.p4.pt b.p4.eta b.p4.phi 0))
      ∧ pushed .h_genPhotonHiggsMass obs1 = [s1.genPhotonDble_mass]
      ∧ pushed .h_genPhotonHiggsMass obs2 = [s1.genPhotonDble_mass] := by
  obtain ⟨s1, obs1, h1, h2, h3⟩ := analyze_truth_photons K cfg s iEvent hna
  obtain ⟨s2, obs2, g1, g2, g3⟩ := analyze_truth_photons K cfg s
    { iEvent with allGenParts := before ++ a :: (mid ++ b :: (x ++ extra ++ y)) } hna
  have k1 := genTruthLoop_two_photons K cfg.useDeepCSV_ (resetTruth s) before mid (x ++ y) a b
    rfl ha hb hbefore hmid
  have k2 := genTruthLoop_two_photons K cfg.useDeepCSV_ (resetTruth s) before mid
    (x ++ extra ++ y) a b rfl ha hb hbefore hmid
  rw [← hl] at k1
  rw [k1.1] at h2
  rw [k1.2] at h3
  simp only [] at g2 g3
  rw [k2.1] at g2
  rw [k2.2] at g3
  have e := h2
  simp only [truthPhotons, Prod.mk.injEq] at e
  obtain ⟨e1, e2, -, -, -, e6⟩ := e
  refine ⟨s1, obs1, s2, obs2, h1, g1, g2.trans h2.symm, e1, e2, e6, ?_, ?_⟩
  · rw [h3, e6]
  · rw [g3, e6]

/-- Witness of C19 on `sampleEvent`, a third Higgs-daughter photon being
inserted between its two bottom quarks. -/
theorem C19_later_photons_ignored_witness :
    aborted sampleEvent = false
    ∧ sampleEvent.allGenParts =
        [{ pdgId := 25, p4 := { pt := 10, eta := 0, phi := 0, mass := 125 }, mothers := [] }]
          ++ higgsDaughter 22 50 0 0 0 :: ([] ++ higgsDaughter 22 60 0.1 0.2 0
            :: ([higgsDaughter 5 70 1 1 4.7] ++ [higgsDaughter (-5) 80 (-1) 2 4.7]))
    ∧ isHiggsPhoton (higgsDaughter 22 99 2 2 0) = true
    ∧ ∃ (s1 : State) (obs1 : List Obs) (s2 : State) (obs2 : List Obs),
      analyze sampleExt sampleConfig sampleState sampleEvent = some (s1, obs1)
      ∧ analyze sampleExt sampleConfig sampleState
          { sampleEvent with allGenParts :=
              [{ pdgId := 25, p4 := { pt := 10, eta := 0, phi := 0, mass := 125 },
                 mothers := [] }]
                ++ higgsDaughter 22 50 0 0 0 :: ([] ++ higgsDaughter 22 60 0.1 0.2 0
                  :: ([higgsDaughter 5 70 1 1 4.7] ++ [higgsDaughter 22 99 2 2 0]
                      ++ [higgsDaughter (-5) 80 (-1) 2 4.7])) }
          = some (s2, obs2)
      ∧ truthPhotons s2 = truthPhotons s1
      ∧ s1.genPhoton1 = .SetPtEtaPhiM (higgsDaughter 22 50 0 0 0).p4.pt
          (higgsDaughter 22 50 0 0 0).p4.eta (higgsDaughter 22 50 0 0 0).p4.phi 0
      ∧ s1.genPhoton2 = .SetPtEtaPhiM (higgsDaughter 22 60 0.1 0.2 0).p4.pt
          (higgsDaughter 22 60 0.1 0.2 0).p4.eta (higgsDaughter 22 60 0.1 0.2 0).p4.phi 0
      ∧ s1.genPhotonDble_mass = sampleExt.M (.add
          (.SetPtEtaPhiM (higgsDaughter 22 50 0 0 0).p4.pt
            (higgsDaughter 22 50 0 0 0).p4.eta (higgsDaughter 22 50 0 0 0).p4.phi 0)
          (.SetPtEtaPhiM (higgsDaughter 22 60 0.1 0.2 0).p4.pt
            (higgsDaughter 22 60 0.1 0.2 0).p4.eta (higgsDaughter 22 60 0.1 0.2 0).p4.phi 0))
      ∧ pushed .h_genPhotonHiggsMass obs1 = [s1.genPhotonDble_mass]
      ∧ pushed .h_genPhotonHiggsMass obs2 = [s1.genPhotonDble_mass] :=
  ⟨sampleEvent_not_aborted, rfl, by simp [isHiggsPhoton, higgsDaughter],
    C19_later_photons_ignored sampleExt sampleConfig sampleState sampleEvent
      [{ pdgId := 25, p4 := { pt := 10, eta := 0, phi := 0, mass := 125 }, mothers := [] }]
      [] [higgsDaughter 5 70 1 1 4.7] [higgsDaughter (-5) 80 (-1) 2 4.7]
      [higgsDaughter 22 99 2 2 0] (higgsDaughter 22 50 0 0 0) (higgsDaughter 22 60 0.1 0.2 0)
      sampleEvent_not_aborted rfl (by simp [isHiggsPhoton, higgsDaughter])
      (by simp [isHiggsPhoton, higgsDaughter]) (by simp [isHiggsPhoton])
      (by simp)⟩

/-! ## C20: the ME0 qualifier uses the last segment -/

theorem me0_fold_pairs (K : Ext) (chambers : List MuonChamberMatch) :
    ∀ v : ME0Vars, chambers.foldl (me0ChamberStep K) v
      = (chambers.flatMap fun chamber => chamber.me0Matches.map fun segment =>
          (chamber, segment)).foldl (fun w p => me0SegmentStep K p.1 w p.2) v := by
  induction chambers with
  | nil => intro v; rfl
  | cons c rest ih =>
    intro v
    simp only [List.foldl_cons, List.flatMap_cons, List.foldl_append, List.foldl_map]
    rw [ih]
    rfl

theorem swap_eq_max (a b : ℚ) : (if a < b then b else a) = max a b := by
  split_ifs with h
  · exact (max_eq_right (le_of_lt h)).symm
  · exact (max_eq_left (not_lt.mp h)).symm

theorem swap_eq_min (a b : ℚ) : (if a < b then a else b) = min a b := by
  split_ifs with h
  · exact (min_eq_left (le_of_lt h)).symm
  · exact (min_eq_right (not_lt.mp h)).symm

/-- The observations of the diphoton block when the gate passes. -/
theorem diphoton_of_gate (K : Ext) (acc : PhotonAcc) (hg : massGateOf K acc) :
    (diphoton K acc).2 =
      [Obs.profile .h_PhotonPtr (K.Pt acc.s.genPhoton1) acc.Rpt1,
       Obs.profile .h_PhotonPtr (K.Pt acc.s.genPhoton2) acc.Rpt2,
       Obs.profile .h_PhotonPtr_raw (K.Pt acc.s.genPhoton1) acc.Rpt1_raw,
       Obs.profile .h_PhotonPtr_raw (K.Pt acc.s.genPhoton2) acc.Rpt2_raw]
      ++ [Obs.fill .h_recoPhotonHiggsMass (K.M (.add acc.s.recoPhoton1 acc.s.recoPhoton2))]
      ++ regimeObs .h_recoPhotonHiggsMass_HM .h_recoPhotonHiggsMass_LM (K.M acc.s.genHH)
          (K.M (.add acc.s.recoPhoton1 acc.s.recoPhoton2))
      ++ [Obs.fill .h_recoPhotonHiggsMass_raw
          (K.M (.add acc.s.recoPhoton1_raw acc.s.recoPhoton2_raw))]
      ++ regimeObs .h_recoPhotonHiggsMass_HM_raw .h_recoPhotonHiggsMass_LM_raw (K.M acc.s.genHH)
          (K.M (.add acc.s.recoPhoton1_raw acc.s.recoPhoton2_raw)) := by
  obtain ⟨a1, a2, a3, a4, b1, b2, c1, c2, c3, c4⟩ := hg
  have h1 : K.Pt acc.s.recoPhoton1 > 0 ∧ K.Pt acc.s.recoPhoton2 > 0
      ∧ K.Pt acc.s.genPhoton1 > 0 ∧ K.Pt acc.s.genPhoton2 > 0 := ⟨a1, a2, a3, a4⟩
  have h2 : acc.Rpt1.gt 0.01 = true ∧ acc.Rpt2.gt 0.01 = true := ⟨b1, b2⟩
  have h3 : max (K.Pt acc.s.recoPhoton1) (K.Pt acc.s.recoPhoton2) > 30
      ∧ min (K.Pt acc.s.recoPhoton1) (K.Pt acc.s.recoPhoton2) > 20
      ∧ max (K.Pt acc.s.recoPhoton1) (K.Pt acc.s.recoPhoton2)
          > K.M (.add acc.s.recoPhoton1 acc.s.recoPhoton2) / 3
      ∧ min (K.Pt acc.s.recoPhoton1) (K.Pt acc.s.recoPhoton2)
          > K.M (.add acc.s.recoPhoton1 acc.s.recoPhoton2) / 4 := ⟨c1, c2, c3, c4⟩
  simp only [diphoton, swap_eq_max, swap_eq_min]
  rw [if_pos h1, if_pos h2, if_pos h3]

/-- The observations of the diphoton block when the gate does not pass: none,
or the four profile samples. -/
theorem diphoton_of_not_gate (K : Ext) (acc : PhotonAcc) (hg : ¬ massGateOf K acc) :
    (diphoton K acc).2 = [] ∨
    (diphoton K acc).2 =
      [Obs.profile .h_PhotonPtr (K.Pt acc.s.genPhoton1) acc.Rpt1,
       Obs.profile .h_PhotonPtr (K.Pt acc.s.genPhoton2) acc.Rpt2,
       Obs.profile .h_PhotonPtr_raw (K.Pt acc.s.genPhoton1) acc.Rpt1_raw,
       Obs.profile .h_PhotonPtr_raw (K.Pt acc.s.genPhoton2) acc.Rpt2_raw] := by
  simp only [diphoton, swap_eq_max, swap_eq_min]
  split_ifs with h1 h2 h3
  · exfalso
    exact hg ⟨h1.1, h1.2.1, h1.2.2.1, h1.2.2.2, h2.1, h2.2, h3.1, h3.2.1, h3.2.2.1, h3.2.2.2⟩
  · exact Or.inr rfl
  · exact Or.inl rfl
  · exact Or.inl rfl

theorem pushed_regimeObs_of_ne (h hHM hLM : Hist) (mHH m : ℚ) (h1 : hHM ≠ h) (h2 : hLM ≠ h) :
    pushed h (regimeObs hHM hLM mHH m) = [] := by
  simp only [regimeObs]
  split_ifs <;> simp [pushed, h1, h2]

theorem diphoton_pushed_mass (K : Ext) (acc : PhotonAcc) :
    (massGateOf K acc →
        pushed .h_recoPhotonHiggsMass (diphoton K acc).2
          = [K.M (.add acc.s.recoPhoton1 acc.s.recoPhoton2)])
      ∧ (¬ massGateOf K acc → pushed .h_recoPhotonHiggsMass (diphoton K acc).2 = []) := by
  constructor
  · intro hg
    rw [diphoton_of_gate K acc hg]
    simp only [pushed_append]
    rw [pushed_regimeObs_of_ne _ _ _ _ _ (by decide) (by decide),
      pushed_regimeObs_of_ne _ _ _ _ _ (by decide) (by decide)]
    simp [pushed]
  · intro hg
    rcases diphoton_of_not_gate K acc hg with e | e <;> rw [e] <;> simp [pushed]

theorem specMassGate_symm (a b c d : ℚ) (R1 R2 : Dbl) (m : ℚ) :
    specMassGate a b c d R1 R2 m ↔ specMassGate b a c d R2 R1 m := by
  simp only [specMassGate, max_comm a b, min_comm a b]
  tauto

/-- C21. Diphoton mass gate: in every event that passes the vertex gate,
`analyze` returns and the corrected diphoton mass (the mass of the sum of
reconstructed photons 1 and 2) is the one sample pushed to
`h_recoPhotonHiggsMass` iff reconstructed photons 1 and 2 and truth photons 1
and 2 all have pt > 0, both corrected ratios exceed 0.01, and the larger
reconstructed pt exceeds 30 and a third of the mass and the smaller one exceeds
20 and a quarter of the mass; otherwise nothing is pushed to it. The condition
is the same when the two reconstructed pt values (and the two ratios) are
exchanged. -/
theorem C21_diphoton_mass_gate (K : Ext) (cfg : Config) (s : State) (iEvent : Event)
    (ha : aborted iEvent = false) :
    (∃ (s1 : State) (obs : List Obs), analyze K cfg s iEvent = some (s1, obs)
      ∧ (pushed .h_recoPhotonHiggsMass obs
            = [K.M (.add (afterPhotons K cfg s iEvent).s.recoPhoton1
                (afterPhotons K cfg s iEvent).s.recoPhoton2)]
          ↔ massGateOf K (afterPhotons K cfg s iEvent))
      ∧ (pushed .h_recoPhotonHiggsMass obs = [] ↔ ¬ massGateOf K (afterPhotons K cfg s iEvent)))
    ∧ (∀ (ptReco1 ptReco2 ptGen1 ptGen2 : ℚ) (R1 R2 : Dbl) (m : ℚ),
        (specMassGate ptReco1 ptReco2 ptGen1 ptGen2 R1 R2 m
          ↔ specMassGate ptReco2 ptReco1 ptGen1 ptGen2 R2 R1 m)
        ∧ (specMassGate ptReco1 ptReco2 ptGen1 ptGen2 R1 R2 m
          ↔ specMassGate ptReco2 ptReco1 ptGen1 ptGen2 R1 R2 m)) := by
  constructor
  · obtain ⟨s1, obs, h1, h2⟩ := pushed_analyze_diphoton K cfg s iEvent .h_recoPhotonHiggsMass
      (by decide) ha
    have hp := diphoton_pushed_mass K (afterPhotons K cfg s iEvent)
    refine ⟨s1, obs, h1, ?_, ?_⟩
    · rw [h2]
      constructor
      · intro e
        by_contra hg
        have := hp.2 hg
        simp only [afterPhotons] at this
        rw [this] at e
        cases e
      · exact hp.1
    · rw [h2]
      constructor
      · intro e hg
        have := hp.1 hg
        simp only [afterPhotons] at this
        rw [this] at e
        cases e
      · exact hp.2
  · intro a b c d R1 R2 m
    refine ⟨specMassGate_symm a b c d R1 R2 m, ?_⟩
    simp only [specMassGate, max_comm a b, min_comm a b]
    tauto

/-- Witness of C21 on `sampleEvent` (two truth photons, two reconstructed
photons on them): the gate passes. -/
theorem C21_diphoton_mass_gate_witness :
    aborted sampleEvent = false
    ∧ massGateOf sampleExt (afterPhotons sampleExt sampleConfig sampleState sampleEvent)
    ∧ ∃ (s1 : State) (obs : List Obs),
      analyze sampleExt sampleConfig sampleState sampleEvent = some (s1, obs)
      ∧ (pushed .h_recoPhotonHiggsMass obs
            = [sampleExt.M (.add
                (afterPhotons sampleExt sampleConfig sampleState sampleEvent).s.recoPhoton1
                (afterPhotons sampleExt sampleConfig sampleState sampleEvent).s.recoPhoton2)]
          ↔ massGateOf sampleExt (afterPhotons sampleExt sampleConfig sampleState sampleEvent))
      ∧ (pushed .h_recoPhotonHiggsMass obs = []
          ↔ ¬ massGateOf sampleExt
              (afterPhotons sampleExt sampleConfig sampleState sampleEvent)) :=
  ⟨sampleEvent_not_aborted,
    by
      unfold afterPhotons
      rw [sampleEvent_photonLoop]
      norm_num [massGateOf, specMassGate, analyzeTruth, genTruthLoop, genTruthStep, sampleEvent,
        higgsDaughter, resetTruth, sampleConfig, sampleExt, TLorentzVector.massQ,
        TLorentzVector.ptQ, Dbl.gt, zeroV],
    (C21_diphoton_mass_gate sampleExt sampleConfig sampleState sampleEvent
      sampleEvent_not_aborted).1⟩

/-! ## C22: the mass-regime split -/

theorem pushed_analyze_diphoton_all (K : Ext) (cfg : Config) (s : State) (iEvent : Event)
    (ha : aborted iEvent = false) :
    ∃ (s1 : State) (obs : List Obs), analyze K cfg s iEvent = some (s1, obs)
      ∧ ∀ h : Hist, h ∉ nonDiphotonHists →
          pushed h obs = pushed h (diphoton K (afterPhotons K cfg s iEvent)).2 := by
  obtain ⟨s1, obs, h1, -⟩ := pushed_analyze_diphoton K cfg s iEvent .h_recoPhotonHiggsMass
    (by decide) ha
  refine ⟨s1, obs, h1, fun h hh => ?_⟩
  obtain ⟨s2, obs2, g1, g2⟩ := pushed_analyze_diphoton K cfg s iEvent h hh ha
  have e : (s1, obs) = (s2, obs2) := Option.some.inj (h1.symm.trans g1)
  have e2 : obs = obs2 := congrArg Prod.snd e
  rw [e2]
  exact g2

theorem pushed_regimeObs_HM (hHM hLM : Hist) (mHH m : ℚ) (hne : hLM ≠ hHM) :
    pushed hHM (regimeObs hHM hLM mHH m) = if mHH > 350 then [m] else [] := by
  simp only [regimeObs]
  split_ifs <;> simp [pushed, hne]

theorem pushed_regimeObs_LM (hHM hLM : Hist) (mHH m : ℚ) (hne : hHM ≠ hLM) :
    pushed hLM (regimeObs hHM hLM mHH m)
      = if mHH > 350 then [] else if mHH > 250 ∧ mHH < 350 then [m] else [] := by
  simp only [regimeObs]
  split_ifs <;> simp [pushed, hne]

/-- What the diphoton block pushes to the six mass histograms when the gate
passes. -/
theorem diphoton_pushed_of_gate (K : Ext) (acc : PhotonAcc) (hg : massGateOf K acc) :
    pushed .h_recoPhotonHiggsMass (diphoton K acc).2
        = [K.M (.add acc.s.recoPhoton1 acc.s.recoPhoton2)]
    ∧ pushed .h_recoPhotonHiggsMass_HM (diphoton K acc).2
        = (if K.M acc.s.genHH > 350 then [K.M (.add acc.s.recoPhoton1 acc.s.recoPhoton2)]
           else [])
    ∧ pushed .h_recoPhotonHiggsMass_LM (diphoton K acc).2
        = (if K.M acc.s.genHH > 350 then []
           else if K.M acc.s.genHH > 250 ∧ K.M acc.s.genHH < 350
             then [K.M (.add acc.s.recoPhoton1 acc.s.recoPhoton2)] else [])
    ∧ pushed .h_recoPhotonHiggsMass_raw (diphoton K acc).2
        = [K.M (.add acc.s.recoPhoton1_raw acc.s.recoPhoton2_raw)]
    ∧ pushed .h_recoPhotonHiggsMass_HM_raw (diphoton K acc).2
        = (if K.M acc.s.genHH > 350
           then [K.M (.add acc.s.recoPhoton1_raw acc.s.recoPhoton2_raw)] else [])
    ∧ pushed .h_recoPhotonHiggsMass_LM_raw (diphoton K acc).2
        = (if K.M acc.s.genHH > 350 then []
           else if K.M acc.s.genHH > 250 ∧ K.M acc.s.genHH < 350
             then [K.M (.add acc.s.recoPhoton1_raw acc.s.recoPhoton2_raw)] else []) := by
  rw [diphoton_of_gate K acc hg]
  simp only [pushed_append]
  refine ⟨?_, ?_, ?_, ?_, ?_, ?_⟩
  · rw [pushed_regimeObs_of_ne _ _ _ _ _ (by decide) (by decide),
      pushed_regimeObs_of_ne _ _ _ _ _ (by decide) (by decide)]
    simp [pushed]
  · rw [pushed_regimeObs_HM _ _ _ _ (by decide),
      pushed_regimeObs_of_ne _ _ _ _ _ (by decide) (by decide)]
    simp [pushed]
  · rw [pushed_regimeObs_LM _ _ _ _ (by decide),
      pushed_regimeObs_of_ne _ _ _ _ _ (by decide) (by decide)]
    simp [pushed]
  · rw [pushed_regimeObs_of_ne _ _ _ _ _ (by decide) (by decide),
      pushed_regimeObs_of_ne _ _ _ _ _ (by decide) (by decide)]
    simp [pushed]
  · rw [pushed_regimeObs_HM _ _ _ _ (by decide),
      pushed_regimeObs_of_ne _ _ _ _ _ (by decide) (by decide)]
    simp [pushed]
  · rw [pushed_regimeObs_LM _ _ _ _ (by decide),
      pushed_regimeObs_of_ne _ _ _ _ _ (by decide) (by decide)]
    simp [pushed]

/-- The diphoton block pushes nothing to the six mass histograms when the gate
does not pass. -/
theorem diphoton_pushed_of_not_gate (K : Ext) (acc : PhotonAcc) (hg : ¬ massGateOf K acc) :
    pushed .h_recoPhotonHiggsMass (diphoton K acc).2 = []
    ∧ pushed .h_recoPhotonHiggsMass_HM (diphoton K acc).2 = []
    ∧ pushed .h_recoPhotonHiggsMass_LM (diphoton K acc).2 = []
    ∧ pushed .h_recoPhotonHiggsMass_raw (diphoton K acc).2 = []
    ∧ pushed .h_recoPhotonHiggsMass_HM_raw (diphoton K acc).2 = []
    ∧ pushed .h_recoPhotonHiggsMass_LM_raw (diphoton K acc).2 = [] := by
  rcases diphoton_of_not_gate K acc hg with e | e <;> rw [e] <;>
    exact ⟨rfl, rfl, rfl, rfl, rfl, rfl⟩

/-- C22. Mass-regime split: in an event that passes the vertex gate and whose
diphoton mass passes the gate of C21, with mHH the mass of the truth
four-object vector `genHH`, the corrected diphoton mass is pushed (once) to
`h_recoPhotonHiggsMass_HM` iff mHH > 350 and to `h_recoPhotonHiggsMass_LM` iff
250 < mHH < 350; it is never pushed to both, and for mHH = 350 or mHH <= 250 it
is pushed to neither. -/
theorem C22_mass_regime_split (K : Ext) (cfg : Config) (s : State) (iEvent : Event)
    (ha : aborted iEvent = false)
    (hg : massGateOf K (afterPhotons K cfg s iEvent)) :
    ∃ (s1 : State) (obs : List Obs), analyze K cfg s iEvent = some (s1, obs)
      ∧ (K.M (afterPhotons K cfg s iEvent).s.genHH > 350 →
          pushed .h_recoPhotonHiggsMass_HM obs
            = [K.M (.add (afterPhotons K cfg s iEvent).s.recoPhoton1
                (afterPhotons K cfg s iEvent).s.recoPhoton2)])
      ∧ (¬ K.M (afterPhotons K cfg s iEvent).s.genHH > 350 →
          pushed .h_recoPhotonHiggsMass_HM obs = [])
      ∧ (K.M (afterPhotons K cfg s iEvent).s.genHH > 250
            ∧ K.M (afterPhotons K cfg s iEvent).s.genHH < 350 →
          pushed .h_recoPhotonHiggsMass_LM obs
            = [K.M (.add (afterPhotons K cfg s iEvent).s.recoPhoton1
                (afterPhotons K cfg s iEvent).s.recoPhoton2)])
      ∧ (¬ (K.M (afterPhotons K cfg s iEvent).s.genHH > 250
            ∧ K.M (afterPhotons K cfg s iEvent).s.genHH < 350) →
          pushed .h_recoPhotonHiggsMass_LM obs = [])
      ∧ (pushed .h_recoPhotonHiggsMass_HM obs = [] ∨ pushed .h_recoPhotonHiggsMass_LM obs = [])
      ∧ (K.M (afterPhotons K cfg s iEvent).s.genHH = 350
            ∨ K.M (afterPhotons K cfg s iEvent).s.genHH ≤ 250 →
          pushed .h_recoPhotonHiggsMass_HM obs = []
            ∧ pushed .h_recoPhotonHiggsMass_LM obs = []) := by
  obtain ⟨s1, obs, h1, h2⟩ := pushed_analyze_diphoton_all K cfg s iEvent ha
  obtain ⟨-, eHM, eLM, -, -, -⟩ := diphoton_pushed_of_gate K _ hg
  have gHM := (h2 .h_recoPhotonHiggsMass_HM (by decide)).trans eHM
  have gLM := (h2 .h_recoPhotonHiggsMass_LM (by decide)).trans eLM
  refine ⟨s1, obs, h1, ?_, ?_, ?_, ?_, ?_, ?_⟩
  · intro h; rw [gHM, if_pos h]
  · intro h; rw [gHM, if_neg h]
  · intro h
    have h350 : ¬ K.M (afterPhotons K cfg s iEvent).s.genHH > 350 := not_lt.mpr (le_of_lt h.2)
    rw [gLM, if_neg h350, if_pos h]
  · intro h
    rw [gLM]
    split_ifs <;> rfl
  · by_cases h : K.M (afterPhotons K cfg s iEvent).s.genHH > 350
    · right; rw [gLM, if_pos h]
    · left; rw [gHM, if_neg h]
  · intro h
    have h350 : ¬ K.M (afterPhotons K cfg s iEvent).s.genHH > 350 := by
      rcases h with h | h
      · rw [h]; exact lt_irrefl _
      · exact not_lt.mpr (le_trans h (by norm_num))
    have hLM : ¬ (K.M (afterPhotons K cfg s iEvent).s.genHH > 250
        ∧ K.M (afterPhotons K cfg s iEvent).s.genHH < 350) := by
      rintro ⟨a, b⟩
      rcases h with h | h
      · rw [h] at b; exact lt_irrefl _ b
      · exact not_lt.mpr h a
    rw [gHM, gLM, if_neg h350, if_neg h350, if_neg hLM]
    exact ⟨rfl, rfl⟩

theorem highMassEvent_not_aborted : aborted highMassEvent = false := by
  norm_num [aborted, highMassEvent, sampleEvent, vertexLoop, toInt32]

theorem highMassEvent_afterPhotons :
    afterPhotons sampleExt sampleConfigA sampleState highMassEvent
      = { s := { (analyzeTruth sampleExt sampleConfigA (resetTruth sampleState)
                    highMassEvent).2.1 with
                 recoPhoton := .SetPtEtaPhiM 60 0.1 0.2 0
                 recoPhoton1 := .SetPtEtaPhiM 50 0 0 0
                 recoPhoton2 := .SetPtEtaPhiM 60 0.1 0.2 0
                 recoPhoton1_raw := .SetPtEtaPhiM 50 0 0 0
                 recoPhoton2_raw := .SetPtEtaPhiM (60 / (1 + 0.1 ^ 2 / 2)) 0.1 0.2 0 }
          Rpt1 := .fin 1, Rpt2 := .fin 1, Rpt1_raw := .fin 1
          Rpt2_raw := .fin (60 / (1 + 0.1 ^ 2 / 2) / 60)
          obs := [Obs.fill .h_nPassingPho_ 1] ++ matchedObs (mkPhoton 50 0 0)
            ++ [Obs.fill .h_nPassingPho_ 1] ++ matchedObs (mkPhoton 60 0.1 0.2) } := by
  norm_num [afterPhotons, analyzeTruth, genTruthLoop, genTruthStep, highMassEvent, sampleEvent,
    higgsDaughter, resetTruth, sampleConfigA, sampleConfig, sampleExt, TLorentzVector.massQ,
    photonLoop, photonStep, photonAcc0,
    passCuts, toFloat_40, toFloat_45, toFloat_50, toFloat_60, Dbl.gt,
    mkPhoton, toInt32, zeroV,
    TLorentzVector.etaQ, TLorentzVector.phiQ, TLorentzVector.ptQ, fdiv, abs_div,
    Nat.abs_ofNat, show (2 : ℤ).toNat = 2 from rfl, List.take, matchedObs]

theorem highMassEvent_gate :
    massGateOf sampleExt (afterPhotons sampleExt sampleConfigA sampleState highMassEvent) := by
  rw [highMassEvent_afterPhotons]
  norm_num [massGateOf, specMassGate, analyzeTruth, genTruthLoop, genTruthStep, highMassEvent,
    sampleEvent, higgsDaughter, resetTruth, sampleConfigA, sampleConfig, sampleExt,
    TLorentzVector.massQ, TLorentzVector.ptQ, Dbl.gt, zeroV]

theorem highMassEvent_mHH :
    sampleExt.M (afterPhotons sampleExt sampleConfigA sampleState highMassEvent).s.genHH
      = 400 := by
  rw [highMassEvent_afterPhotons]
  norm_num [analyzeTruth, genTruthLoop, genTruthStep, highMassEvent,
    sampleEvent, higgsDaughter, resetTruth, sampleConfigA, sampleConfig, sampleExt,
    TLorentzVector.massQ, zeroV]

/-- Witness of C22 on `highMassEvent` under scheme A: the gate passes, the truth
four-object mass is 400 and the corrected diphoton mass goes to the high-mass
histogram. -/
theorem C22_mass_regime_split_witness :
    aborted highMassEvent = false
    ∧ massGateOf sampleExt (afterPhotons sampleExt sampleConfigA sampleState highMassEvent)
    ∧ sampleExt.M (afterPhotons sampleExt sampleConfigA sampleState highMassEvent).s.genHH
        = 400
    ∧ ∃ (s1 : State) (obs : List Obs),
      analyze sampleExt sampleConfigA sampleState highMassEvent = some (s1, obs)
      ∧ pushed .h_recoPhotonHiggsMass_HM obs
          = [sampleExt.M (.add
              (afterPhotons sampleExt sampleConfigA sampleState highMassEvent).s.recoPhoton1
              (afterPhotons sampleExt sampleConfigA sampleState highMassEvent).s.recoPhoton2)]
      ∧ pushed .h_recoPhotonHiggsMass_LM obs = [] := by
  obtain ⟨s1, obs, h1, h2, -, -, h5, -, -⟩ :=
    C22_mass_regime_split sampleExt sampleConfigA sampleState highMassEvent
      highMassEvent_not_aborted highMassEvent_gate
  refine ⟨highMassEvent_not_aborted, highMassEvent_gate, highMassEvent_mHH, s1, obs, h1, ?_, ?_⟩
  · exact h2 (by rw [highMassEvent_mHH]; norm_num)
  · exact h5 (by rw [highMassEvent_mHH]; norm_num)

/-! ## C28: the raw diphoton mass is gated by the corrected quantities -/

theorem diphoton_raw_cases (K : Ext) (acc : PhotonAcc) :
    ((pushed .h_recoPhotonHiggsMass (diphoton K acc).2
          = [K.M (.add acc.s.recoPhoton1 acc.s.recoPhoton2)]
        ∧ pushed .h_recoPhotonHiggsMass_raw (diphoton K acc).2
          = [K.M (.add acc.s.recoPhoton1_raw acc.s.recoPhoton2_raw)])
      ∨ (pushed .h_recoPhotonHiggsMass (diphoton K acc).2 = []
        ∧ pushed .h_recoPhotonHiggsMass_raw (diphoton K acc).2 = []))
    ∧ ((pushed .h_recoPhotonHiggsMass_HM (diphoton K acc).2
          = [K.M (.add acc.s.recoPhoton1 acc.s.recoPhoton2)]
        ∧ pushed .h_recoPhotonHiggsMass_HM_raw (diphoton K acc).2
          = [K.M (.add acc.s.recoPhoton1_raw acc.s.recoPhoton2_raw)])
      ∨ (pushed .h_recoPhotonHiggsMass_HM (diphoton K acc).2 = []
        ∧ pushed .h_recoPhotonHiggsMass_HM_raw (diphoton K acc).2 = []))
    ∧ ((pushed .h_recoPhotonHiggsMass_LM (diphoton K acc).2
          = [K.M (.add acc.s.recoPhoton1 acc.s.recoPhoton2)]
        ∧ pushed .h_recoPhotonHiggsMass_LM_raw (diphoton K acc).2
          = [K.M (.add acc.s.recoPhoton1_raw acc.s.recoPhoton2_raw)])
      ∨ (pushed .h_recoPhotonHiggsMass_LM (diphoton K acc).2 = []
        ∧ pushed .h_recoPhotonHiggsMass_LM_raw (diphoton K acc).2 = [])) := by
  by_cases hg : massGateOf K acc
  · obtain ⟨e1, e2, e3, e4, e5, e6⟩ := diphoton_pushed_of_gate K acc hg
    rw [e1, e2, e3, e4, e5, e6]
    refine ⟨Or.inl ⟨rfl, rfl⟩, ?_, ?_⟩
    · split_ifs
      · exact Or.inl ⟨rfl, rfl⟩
      · exact Or.inr ⟨rfl, rfl⟩
    · split_ifs
      · exact Or.inr ⟨rfl, rfl⟩
      · exact Or.inl ⟨rfl, rfl⟩
      · exact Or.inr ⟨rfl, rfl⟩
  · obtain ⟨e1, e2, e3, e4, e5, e6⟩ := diphoton_pushed_of_not_gate K acc hg
    rw [e1, e2, e3, e4, e5, e6]
    exact ⟨Or.inr ⟨rfl, rfl⟩, Or.inr ⟨rfl, rfl⟩, Or.inr ⟨rfl, rfl⟩⟩

theorem diphoton_raw_independent (K : Ext) (acc : PhotonAcc) (raw1 raw2 : TLorentzVector)
    (R1_raw R2_raw : Dbl) :
    pushed .h_recoPhotonHiggsMass (diphoton K (withRaw acc raw1 raw2 R1_raw R2_raw)).2
        = pushed .h_recoPhotonHiggsMass (diphoton K acc).2
    ∧ pushed .h_recoPhotonHiggsMass_HM (diphoton K (withRaw acc raw1 raw2 R1_raw R2_raw)).2
        = pushed .h_recoPhotonHiggsMass_HM (diphoton K acc).2
    ∧ pushed .h_recoPhotonHiggsMass_LM (diphoton K (withRaw acc raw1 raw2 R1_raw R2_raw)).2
        = pushed .h_recoPhotonHiggsMass_LM (diphoton K acc).2
    ∧ (pushed .h_recoPhotonHiggsMass_raw
          (diphoton K (withRaw acc raw1 raw2 R1_raw R2_raw)).2).length
        = (pushed .h_recoPhotonHiggsMass_raw (diphoton K acc).2).length
    ∧ (pushed .h_recoPhotonHiggsMass_HM_raw
          (diphoton K (withRaw acc raw1 raw2 R1_raw R2_raw)).2).length
        = (pushed .h_recoPhotonHiggsMass_HM_raw (diphoton K acc).2).length
    ∧ (pushed .h_recoPhotonHiggsMass_LM_raw
          (diphoton K (withRaw acc raw1 raw2 R1_raw R2_raw)).2).length
        = (pushed .h_recoPhotonHiggsMass_LM_raw (diphoton K acc).2).length := by
  by_cases hg : massGateOf K acc
  · have hg1 : massGateOf K (withRaw acc raw1 raw2 R1_raw R2_raw) := hg
    obtain ⟨e1, e2, e3, e4, e5, e6⟩ := diphoton_pushed_of_gate K acc hg
    obtain ⟨f1, f2, f3, f4, f5, f6⟩ := diphoton_pushed_of_gate K _ hg1
    rw [e1, e2, e3, e4, e5, e6, f1, f2, f3, f4, f5, f6]
    refine ⟨rfl, rfl, rfl, rfl, ?_, ?_⟩
    · simp only [withRaw]
      split_ifs <;> rfl
    · simp only [withRaw]
      split_ifs <;> rfl
  · have hg1 : ¬ massGateOf K (withRaw acc raw1 raw2 R1_raw R2_raw) := hg
    obtain ⟨e1, e2, e3, e4, e5, e6⟩ := diphoton_pushed_of_not_gate K acc hg
    obtain ⟨f1, f2, f3, f4, f5, f6⟩ := diphoton_pushed_of_not_gate K _ hg1
    rw [e1, e2, e3, e4, e5, e6, f1, f2, f3, f4, f5, f6]
    exact ⟨rfl, rfl, rfl, rfl, rfl, rfl⟩

/-- C28. Raw diphoton mass is gated by corrected quantities only: in every
event that passes the vertex gate, for each of the inclusive, high-mass and
low-mass pairs of histograms, either the corrected mass is pushed (once) to the
corrected histogram and the raw mass (once) to the raw one, or nothing is
pushed to either; and replacing the two raw photon vectors and the two raw
ratios left by the photon loop by any other values changes nothing of what the
block pushes to the corrected histograms, nor whether it pushes to the raw
ones. -/
theorem C28_raw_mass_gate (K : Ext) (cfg : Config) (s : State) (iEvent : Event)
    (ha : aborted iEvent = false) :
    (∃ (s1 : State) (obs : List Obs), analyze K cfg s iEvent = some (s1, obs)
      ∧ ((pushed .h_recoPhotonHiggsMass obs
              = [K.M (.add (afterPhotons K cfg s iEvent).s.recoPhoton1
                  (afterPhotons K cfg s iEvent).s.recoPhoton2)]
            ∧ pushed .h_recoPhotonHiggsMass_raw obs
              = [K.M (.add (afterPhotons K cfg s iEvent).s.recoPhoton1_raw
                  (afterPhotons K cfg s iEvent).s.recoPhoton2_raw)])
          ∨ (pushed .h_recoPhotonHiggsMass obs = []
            ∧ pushed .h_recoPhotonHiggsMass_raw obs = []))
      ∧ ((pushed .h_recoPhotonHiggsMass_HM obs
              = [K.M (.add (afterPhotons K cfg s iEvent).s.recoPhoton1
                  (afterPhotons K cfg s iEvent).s.recoPhoton2)]
            ∧ pushed .h_recoPhotonHiggsMass_HM_raw obs
              = [K.M (.add (afterPhotons K cfg s iEvent).s.recoPhoton1_raw
                  (afterPhotons K cfg s iEvent).s.recoPhoton2_raw)])
          ∨ (pushed .h_recoPhotonHiggsMass_HM obs = []
            ∧ pushed .h_recoPhotonHiggsMass_HM_raw obs = []))
      ∧ ((pushed .h_recoPhotonHiggsMass_LM obs
              = [K.M (.add (afterPhotons K cfg s iEvent).s.recoPhoton1
                  (afterPhotons K cfg s iEvent).s.recoPhoton2)]
            ∧ pushed .h_recoPhotonHiggsMass_LM_raw obs
              = [K.M (.add (afterPhotons K cfg s iEvent).s.recoPhoton1_raw
                  (afterPhotons K cfg s iEvent).s.recoPhoton2_raw)])
          ∨ (pushed .h_recoPhotonHiggsMass_LM obs = []
            ∧ pushed .h_recoPhotonHiggsMass_LM_raw obs = [])))
    ∧ ∀ (acc : PhotonAcc) (raw1 raw2 : TLorentzVector) (R1_raw R2_raw : Dbl),
        pushed .h_recoPhotonHiggsMass (diphoton K (withRaw acc raw1 raw2 R1_raw R2_raw)).2
            = pushed .h_recoPhotonHiggsMass (diphoton K acc).2
        ∧ pushed .h_recoPhotonHiggsMass_HM (diphoton K (withRaw acc raw1 raw2 R1_raw R2_raw)).2
            = pushed .h_recoPhotonHiggsMass_HM (diphoton K acc).2
        ∧ pushed .h_recoPhotonHiggsMass_LM (diphoton K (withRaw acc raw1 raw2 R1_raw R2_raw)).2
            = pushed .h_recoPhotonHiggsMass_LM (diphoton K acc).2
        ∧ (pushed .h_recoPhotonHiggsMass_raw
              (diphoton K (withRaw acc raw1 raw2 R1_raw R2_raw)).2).length
            = (pushed .h_recoPhotonHiggsMass_raw (diphoton K acc).2).length
        ∧ (pushed .h_recoPhotonHiggsMass_HM_raw
              (diphoton K (withRaw acc raw1 raw2 R1_raw R2_raw)).2).length
            = (pushed .h_recoPhotonHiggsMass_HM_raw (diphoton K acc).2).length
        ∧ (pushed .h_recoPhotonHiggsMass_LM_raw
              (diphoton K (withRaw acc raw1 raw2 R1_raw R2_raw)).2).length
            = (pushed .h_recoPhotonHiggsMass_LM_raw (diphoton K acc).2).length := by
  refine ⟨?_, diphoton_raw_independent K⟩
  obtain ⟨s1, obs, h1, h2⟩ := pushed_analyze_diphoton_all K cfg s iEvent ha
  refine ⟨s1, obs, h1, ?_⟩
  rw [h2 _ (by decide), h2 _ (by decide), h2 _ (by decide), h2 _ (by decide),
    h2 _ (by decide), h2 _ (by decide)]
  exact diphoton_raw_cases K (afterPhotons K cfg s iEvent)

/-- Witness of C28 on `highMassEvent` under scheme A: the corrected and the raw
mass are both pushed to the inclusive pair. -/
theorem C28_raw_mass_gate_witness :
    aborted highMassEvent = false
    ∧ ∃ (s1 : State) (obs : List Obs),
      analyze sampleExt sampleConfigA sampleState highMassEvent = some (s1, obs)
      ∧ ((pushed .h_recoPhotonHiggsMass obs
              = [sampleExt.M (.add
                  (afterPhotons sampleExt sampleConfigA sampleState highMassEvent).s.recoPhoton1
                  (afterPhotons sampleExt sampleConfigA sampleState highMassEvent).s.recoPhoton2)]
            ∧ pushed .h_recoPhotonHiggsMass_raw obs
              = [sampleExt.M (.add
                  (afterPhotons sampleExt sampleConfigA sampleState
                    highMassEvent).s.recoPhoton1_raw
                  (afterPhotons sampleExt sampleConfigA sampleState
                    highMassEvent).s.recoPhoton2_raw)])
          ∨ (pushed .h_recoPhotonHiggsMass obs = []
            ∧ pushed .h_recoPhotonHiggsMass_raw obs = [])) := by
  obtain ⟨s1, obs, h1, h2, -, -⟩ :=
    (C28_raw_mass_gate sampleExt sampleConfigA sampleState highMassEvent
      highMassEvent_not_aborted).1
  exact ⟨highMassEvent_not_aborted, s1, obs, h1, h2⟩

/-! ## C23: a reconstructed photon matches at most one truth photon -/

theorem photonStep_match1 (K : Ext) (cfg : Config) (acc : PhotonAcc) (ph : Photon)
    (hp : passCuts cfg ph = true)
    (h1 : K.DeltaR acc.s.genPhoton1 (.SetPtEtaPhiM ph.pt ph.eta ph.phi 0) < 0.2) :
    photonStep K cfg acc ph =
      { acc with
        s := { acc.s with
          recoPhoton := .SetPtEtaPhiM ph.pt ph.eta ph.phi 0
          recoPhoton1 := .SetPtEtaPhiM ph.pt ph.eta ph.phi 0
          recoPhoton1_raw := .SetPtEtaPhiM (ph.superCluster_energy / K.cosh ph.superCluster_eta)
            ph.superCluster_eta ph.superCluster_phi 0 }
        Rpt1 := fdiv (K.Pt (.SetPtEtaPhiM ph.pt ph.eta ph.phi 0)) (K.Pt acc.s.genPhoton1)
        Rpt1_raw := fdiv (K.Pt (.SetPtEtaPhiM (ph.superCluster_energy / K.cosh ph.superCluster_eta)
            ph.superCluster_eta ph.superCluster_phi 0)) (K.Pt acc.s.genPhoton1)
        obs := acc.obs ++ [Obs.fill .h_nPassingPho_ 1] ++ matchedObs ph } := by
  simp only [photonStep, hp, if_true, h1]

theorem photonStep_match2 (K : Ext) (cfg : Config) (acc : PhotonAcc) (ph : Photon)
    (hp : passCuts cfg ph = true)
    (h1 : ¬ K.DeltaR acc.s.genPhoton1 (.SetPtEtaPhiM ph.pt ph.eta ph.phi 0) < 0.2)
    (h2 : K.DeltaR acc.s.genPhoton2 (.SetPtEtaPhiM ph.pt ph.eta ph.phi 0) < 0.2) :
    photonStep K cfg acc ph =
      { acc with
        s := { acc.s with
          recoPhoton := .SetPtEtaPhiM ph.pt ph.eta ph.phi 0
          recoPhoton2 := .SetPtEtaPhiM ph.pt ph.eta ph.phi 0
          recoPhoton2_raw := .SetPtEtaPhiM (ph.superCluster_energy / K.cosh ph.superCluster_eta)
            ph.superCluster_eta ph.superCluster_phi 0 }
        Rpt2 := fdiv (K.Pt (.SetPtEtaPhiM ph.pt ph.eta ph.phi 0)) (K.Pt acc.s.genPhoton2)
        Rpt2_raw := fdiv (K.Pt (.SetPtEtaPhiM (ph.superCluster_energy / K.cosh ph.superCluster_eta)
            ph.superCluster_eta ph.superCluster_phi 0)) (K.Pt acc.s.genPhoton2)
        obs := acc.obs ++ [Obs.fill .h_nPassingPho_ 1] ++ matchedObs ph } := by
  simp only [photonStep, hp, if_true, h1, if_false, h2]

theorem photonStep_unmatched (K : Ext) (cfg : Config) (acc : PhotonAcc) (ph : Photon)
    (hp : passCuts cfg ph = true)
    (h1 : ¬ K.DeltaR acc.s.genPhoton1 (.SetPtEtaPhiM ph.pt ph.eta ph.phi 0) < 0.2)
    (h2 : ¬ K.DeltaR acc.s.genPhoton2 (.SetPtEtaPhiM ph.pt ph.eta ph.phi 0) < 0.2) :
    photonStep K cfg acc ph =
      { acc with
        s := { acc.s with recoPhoton := .SetPtEtaPhiM ph.pt ph.eta ph.phi 0 }
        obs := acc.obs ++ [Obs.fill .h_nPassingPho_ 1] } := by
  simp only [photonStep, hp, if_true, h1, if_false, h2]

/-- C23. A reconstructed photon matches at most one truth photon: a selected
photon within deltaR < 0.2 of truth photon 1 is stored in reconstructed slot 1
(vector, raw vector and the two ratios to truth photon 1) and leaves slot 2,
its raw vector and its two ratios untouched, whatever its distance to truth
photon 2; a selected photon is stored in slot 2 (slot 1 untouched) exactly when
it is not within 0.2 of truth photon 1 and is within 0.2 of truth photon 2; a
selected photon within 0.2 of neither touches no slot. -/
theorem C23_single_truth_match (K : Ext) (cfg : Config) (acc : PhotonAcc) (ph : Photon)
    (hp : passCuts cfg ph = true) :
    (K.DeltaR acc.s.genPhoton1 (.SetPtEtaPhiM ph.pt ph.eta ph.phi 0) < 0.2 →
        (photonStep K cfg acc ph).s.recoPhoton1 = .SetPtEtaPhiM ph.pt ph.eta ph.phi 0
        ∧ (photonStep K cfg acc ph).s.recoPhoton1_raw
            = .SetPtEtaPhiM (ph.superCluster_energy / K.cosh ph.superCluster_eta)
                ph.superCluster_eta ph.superCluster_phi 0
        ∧ (photonStep K cfg acc ph).Rpt1
            = fdiv (K.Pt (.SetPtEtaPhiM ph.pt ph.eta ph.phi 0)) (K.Pt acc.s.genPhoton1)
        ∧ (photonStep K cfg acc ph).Rpt1_raw
            = fdiv (K.Pt (.SetPtEtaPhiM (ph.superCluster_energy / K.cosh ph.superCluster_eta)
                ph.superCluster_eta ph.superCluster_phi 0)) (K.Pt acc.s.genPhoton1)
        ∧ (photonStep K cfg acc ph).s.recoPhoton2 = acc.s.recoPhoton2
        ∧ (photonStep K cfg acc ph).s.recoPhoton2_raw = acc.s.recoPhoton2_raw
        ∧ (photonStep K cfg acc ph).Rpt2 = acc.Rpt2
        ∧ (photonStep K cfg acc ph).Rpt2_raw = acc.Rpt2_raw)
    ∧ (¬ K.DeltaR acc.s.genPhoton1 (.SetPtEtaPhiM ph.pt ph.eta ph.phi 0) < 0.2 →
        K.DeltaR acc.s.genPhoton2 (.SetPtEtaPhiM ph.pt ph.eta ph.phi 0) < 0.2 →
        (photonStep K cfg acc ph).s.recoPhoton2 = .SetPtEtaPhiM ph.pt ph.eta ph.phi 0
        ∧ (photonStep K cfg acc ph).s.recoPhoton2_raw
            = .SetPtEtaPhiM (ph.superCluster_energy / K.cosh ph.superCluster_eta)
                ph.superCluster_eta ph.superCluster_phi 0
        ∧ (photonStep K cfg acc ph).Rpt2
            = fdiv (K.Pt (.SetPtEtaPhiM ph.pt ph.eta ph.phi 0)) (K.Pt acc.s.genPhoton2)
        ∧ (photonStep K cfg acc ph).Rpt2_raw
            = fdiv (K.Pt (.SetPtEtaPhiM (ph.superCluster_energy / K.cosh ph.superCluster_eta)
                ph.superCluster_eta ph.superCluster_phi 0)) (K.Pt acc.s.genPhoton2)
        ∧ (photonStep K cfg acc ph).s.recoPhoton1 = acc.s.recoPhoton1
        ∧ (photonStep K cfg acc ph).s.recoPhoton1_raw = acc.s.recoPhoton1_raw
        ∧ (photonStep K cfg acc ph).Rpt1 = acc.Rpt1
        ∧ (photonStep K cfg acc ph).Rpt1_raw = acc.Rpt1_raw)
    ∧ (¬ K.DeltaR acc.s.genPhoton1 (.SetPtEtaPhiM ph.pt ph.eta ph.phi 0) < 0.2 →
        ¬ K.DeltaR acc.s.genPhoton2 (.SetPtEtaPhiM ph.pt ph.eta ph.phi 0) < 0.2 →
        (photonStep K cfg acc ph).s.recoPhoton1 = acc.s.recoPhoton1
        ∧ (photonStep K cfg acc ph).s.recoPhoton1_raw = acc.s.recoPhoton1_raw
        ∧ (photonStep K cfg acc ph).Rpt1 = acc.Rpt1
        ∧ (photonStep K cfg acc ph).Rpt1_raw = acc.Rpt1_raw
        ∧ (photonStep K cfg acc ph).s.recoPhoton2 = acc.s.recoPhoton2
        ∧ (photonStep K cfg acc ph).s.recoPhoton2_raw = acc.s.recoPhoton2_raw
        ∧ (photonStep K cfg acc ph).Rpt2 = acc.Rpt2
        ∧ (photonStep K cfg acc ph).Rpt2_raw = acc.Rpt2_raw) := by
  refine ⟨fun h1 => ?_, fun h1 h2 => ?_, fun h1 h2 => ?_⟩
  · rw [photonStep_match1 K cfg acc ph hp h1]
    exact ⟨rfl, rfl, rfl, rfl, rfl, rfl, rfl, rfl⟩
  · rw [photonStep_match2 K cfg acc ph hp h1 h2]
    exact ⟨rfl, rfl, rfl, rfl, rfl, rfl, rfl, rfl⟩
  · rw [photonStep_unmatched K cfg acc ph hp h1 h2]
    exact ⟨rfl, rfl, rfl, rfl, rfl, rfl, rfl, rfl⟩

/-- Witness of C23: with truth photons at eta 0 and 0.3, a selected photon at
eta 0.19 is within 0.2 of both and closer to truth photon 2; it goes to slot 1
and slot 2 keeps the zero vector. -/
theorem C23_single_truth_match_witness :
    passCuts sampleConfig (mkPhoton 40 0.19 0) = true
    ∧ sampleExt.DeltaR (photonAcc0 closeTruthState).s.genPhoton1
        (.SetPtEtaPhiM (mkPhoton 40 0.19 0).pt (mkPhoton 40 0.19 0).eta
          (mkPhoton 40 0.19 0).phi 0) < 0.2
    ∧ sampleExt.DeltaR (photonAcc0 closeTruthState).s.genPhoton2
        (.SetPtEtaPhiM (mkPhoton 40 0.19 0).pt (mkPhoton 40 0.19 0).eta
          (mkPhoton 40 0.19 0).phi 0)
        < sampleExt.DeltaR (photonAcc0 closeTruthState).s.genPhoton1
            (.SetPtEtaPhiM (mkPhoton 40 0.19 0).pt (mkPhoton 40 0.19 0).eta
              (mkPhoton 40 0.19 0).phi 0)
    ∧ (photonStep sampleExt sampleConfig (photonAcc0 closeTruthState)
          (mkPhoton 40 0.19 0)).s.recoPhoton1 = .SetPtEtaPhiM 40 0.19 0 0
    ∧ (photonStep sampleExt sampleConfig (photonAcc0 closeTruthState)
          (mkPhoton 40 0.19 0)).s.recoPhoton2 = zeroV :=
  have hp : passCuts sampleConfig (mkPhoton 40 0.19 0) = true := by
    norm_num [passCuts, toFloat_40, toFloat_45, toFloat_50, toFloat_60, Dbl.gt,
      sampleConfig, mkPhoton, abs_div, Nat.abs_ofNat]
  have h1 : sampleExt.DeltaR (photonAcc0 closeTruthState).s.genPhoton1
      (.SetPtEtaPhiM (mkPhoton 40 0.19 0).pt (mkPhoton 40 0.19 0).eta
        (mkPhoton 40 0.19 0).phi 0) < 0.2 := by
    norm_num [sampleExt, photonAcc0, closeTruthState, mkPhoton, TLorentzVector.etaQ,
      TLorentzVector.phiQ, abs_div, Nat.abs_ofNat]
  have h2 : sampleExt.DeltaR (photonAcc0 closeTruthState).s.genPhoton2
      (.SetPtEtaPhiM (mkPhoton 40 0.19 0).pt (mkPhoton 40 0.19 0).eta
        (mkPhoton 40 0.19 0).phi 0)
      < sampleExt.DeltaR (photonAcc0 closeTruthState).s.genPhoton1
          (.SetPtEtaPhiM (mkPhoton 40 0.19 0).pt (mkPhoton 40 0.19 0).eta
            (mkPhoton 40 0.19 0).phi 0) := by
    norm_num [sampleExt, photonAcc0, closeTruthState, mkPhoton, TLorentzVector.etaQ,
      TLorentzVector.phiQ, abs_div, Nat.abs_ofNat]
  have key := (C23_single_truth_match sampleExt sampleConfig (photonAcc0 closeTruthState)
    (mkPhoton 40 0.19 0) hp).1 h1
  ⟨hp, h1, h2, key.1, key.2.2.2.2.1⟩

/-! ## The observations of the photon loop -/

theorem photonStep_obs_eq (K : Ext) (cfg : Config) (acc : PhotonAcc) (ph : Photon) :
    (photonStep K cfg acc ph).obs
      = acc.obs ++ photonObs K cfg acc.s.genPhoton1 acc.s.genPhoton2 ph := by
  by_cases hp : passCuts cfg ph = true
  · by_cases h1 : K.DeltaR acc.s.genPhoton1 (.SetPtEtaPhiM ph.pt ph.eta ph.phi 0) < 0.2
    · rw [photonStep_match1 K cfg acc ph hp h1]
      simp only [photonObs, hp, if_true, h1, true_or, List.append_assoc]
    · by_cases h2 : K.DeltaR acc.s.genPhoton2 (.SetPtEtaPhiM ph.pt ph.eta ph.phi 0) < 0.2
      · rw [photonStep_match2 K cfg acc ph hp h1 h2]
        simp only [photonObs, hp, if_true, h2, or_true, List.append_assoc]
      · rw [photonStep_unmatched K cfg acc ph hp h1 h2]
        simp only [photonObs, hp, if_true, h1, h2, or_self, if_false, List.append_nil]
  · have hp1 : passCuts cfg ph = false := by simpa using hp
    rw [photonStep_of_fail K cfg acc ph hp1]
    simp only [photonObs, hp1, Bool.false_eq_true, if_false, List.append_nil]

theorem photonStep_genPhotons (K : Ext) (cfg : Config) (acc : PhotonAcc) (ph : Photon) :
    (photonStep K cfg acc ph).s.genPhoton1 = acc.s.genPhoton1
      ∧ (photonStep K cfg acc ph).s.genPhoton2 = acc.s.genPhoton2 := by
  have h1 := congrArg State.genPhoton1 (photonStep_recoFrame K cfg acc ph)
  have h2 := congrArg State.genPhoton2 (photonStep_recoFrame K cfg acc ph)
  exact ⟨h1, h2⟩

theorem photonFold_genPhotons (K : Ext) (cfg : Config) (photons : List Photon) (acc : PhotonAcc) :
    (photons.foldl (photonStep K cfg) acc).s.genPhoton1 = acc.s.genPhoton1
      ∧ (photons.foldl (photonStep K cfg) acc).s.genPhoton2 = acc.s.genPhoton2 := by
  have h1 := congrArg State.genPhoton1 (photonFold_recoFrame K cfg photons acc)
  have h2 := congrArg State.genPhoton2 (photonFold_recoFrame K cfg photons acc)
  exact ⟨h1, h2⟩

theorem photonFold_obs_eq (K : Ext) (cfg : Config) (photons : List Photon) :
    ∀ acc : PhotonAcc, (photons.foldl (photonStep K cfg) acc).obs
      = acc.obs ++ photons.flatMap (photonObs K cfg acc.s.genPhoton1 acc.s.genPhoton2) := by
  induction photons with
  | nil => intro acc; simp
  | cons ph rest ih =>
    intro acc
    simp only [List.foldl_cons, List.flatMap_cons]
    rw [ih, photonStep_obs_eq, (photonStep_genPhotons K cfg acc ph).1,
      (photonStep_genPhotons K cfg acc ph).2, List.append_assoc]

theorem take_toInt32 {α : Type} (l : List α) (h : l.length < 2 ^ 31) :
    l.take (toInt32 l.length).toNat = l := by
  rw [toInt32_of_lt _ h, Int.toNat_natCast, List.take_length]

theorem photonLoop_obs_eq (K : Ext) (cfg : Config) (photons : List Photon) (s : State)
    (hlen : photons.length < 2 ^ 31) :
    (photonLoop K cfg photons (photonAcc0 s)).obs
      = photons.flatMap (photonObs K cfg s.genPhoton1 s.genPhoton2) := by
  simp only [photonLoop]
  rw [take_toInt32 photons hlen, photonFold_obs_eq]
  rfl

theorem analyzeTruth_filter_photon (K : Ext) (cfg : Config) (s : State) (iEvent : Event) :
    (analyzeTruth K cfg s iEvent).2.2.filter (inHists photonHists) = [] := by
  have e1 := filter_inHists_nil genJetHists photonHists (by decide) _
    (genJetLoop_obs K iEvent.genParts iEvent.genJets 0
      { jGenJets := [], nGenJets := 0, obs := [] } (by simp))
  have e2 := filter_inHists_nil genTruthHists photonHists (by decide) _
    (genTruthLoop_obs K cfg.useDeepCSV_ iEvent.allGenParts s)
  have ht : ∀ row : GenPhotonRow,
      (if cfg.createPhotonTTree_ = true then [Obs.tree row] else []).filter
        (inHists photonHists) = [] := by
    intro row
    split_ifs <;> rfl
  simp only [analyzeTruth, List.filter_append, e1, e2, ht, List.nil_append, List.append_nil]
  rfl

theorem analyzeReco_filter_photon (K : Ext) (cfg : Config) (s : State) (iEvent : Event) :
    (analyzeReco K cfg s iEvent).2.filter (inHists photonHists)
      = (photonLoop K cfg iEvent.photons (photonAcc0 s)).obs := by
  have e3 := filter_inHists_nil jetHists photonHists (by decide) _
    (jetLoop_obs K cfg.useDeepCSV_ iEvent.elecs iEvent.muons iEvent.jets jetAcc0
      (by simp [jetAcc0]))
  have e4 := filter_inHists_self photonHists _
    (photonFold_obs K cfg (iEvent.photons.take (toInt32 iEvent.photons.length).toNat)
      (photonAcc0 s) (by simp [photonAcc0]))
  have e5 := filter_inHists_nil diphotonHists photonHists (by decide) _
    (diphoton_obs K (photonLoop K cfg iEvent.photons (photonAcc0 s)))
  have em : (metObs iEvent.mets).filter (inHists photonHists) = [] := by
    cases iEvent.mets with
    | nil => rfl
    | cons m rest => rfl
  have f1 : ∀ x : ℚ,
      [Obs.fill .h_goodPatBJets_Higgs_n_ x].filter (inHists photonHists) = [] := fun _ => rfl
  have f2 : ∀ (n : Nat) (acc : JetAcc) (m : Nat),
      (jetSummary n m acc).filter (inHists photonHists) = [] := fun _ _ _ => rfl
  have f3 : [Obs.fill .h_nPho_ 0].filter (inHists photonHists) = [] := rfl
  simp only [photonLoop] at e5
  simp only [analyzeReco, photonLoop, List.filter_append, e3, e4, e5, em, f1, f2, f3,
    List.nil_append, List.append_nil]

/-- The observations of an event that go to the histograms of the photon loop
are exactly those pushed by the photon loop. -/
theorem analyze_photon_obs (K : Ext) (cfg : Config) (s : State) (iEvent : Event)
    (ha : aborted iEvent = false) :
    ∃ (s1 : State) (obs : List Obs), analyze K cfg s iEvent = some (s1, obs)
      ∧ obs.filter (inHists photonHists) = (afterPhotons K cfg s iEvent).obs := by
  refine ⟨_, _, analyze_of_not_aborted K cfg s iEvent ha, ?_⟩
  rw [List.filter_append, List.filter_append, analyzeTruth_filter_photon,
    analyzeReco_filter_photon]
  rfl

theorem pushed_filter_inHists (L : List Hist) (h : Hist) (hh : h ∈ L) (l : List Obs) :
    pushed h (l.filter (inHists L)) = pushed h l := by
  induction l with
  | nil => rfl
  | cons o rest ih =>
    by_cases ho : inHists L o = true
    · rw [List.filter_cons_of_pos ho]
      show pushed h ([o] ++ List.filter (inHists L) rest) = pushed h ([o] ++ rest)
      rw [pushed_append, pushed_append, ih]
    · rw [List.filter_cons_of_neg ho, ih]
      show pushed h rest = pushed h ([o] ++ rest)
      rw [pushed_append]
      have : pushed h [o] = [] := by
        cases o with
        | fill h1 x =>
          have hne : h1 ≠ h := by
            intro e
            apply ho
            subst e
            simp only [inHists, histOf, List.contains_eq_any_beq, List.any_eq_true, beq_iff_eq]
            exact ⟨h1, hh, rfl⟩
          simp [pushed, hne]
        | profile h1 x y => rfl
        | tree row => rfl
      rw [this, List.nil_append]

/-! ## C24: matches to the zero vector left by the reset -/

theorem analyzeTruth_no_photon (K : Ext) (cfg : Config) (s : State) (iEvent : Event)
    (hno : ∀ p ∈ iEvent.allGenParts, isHiggsPhoton p = false) :
    (analyzeTruth K cfg (resetTruth s) iEvent).2.1.genPhoton1 = zeroV
      ∧ (analyzeTruth K cfg (resetTruth s) iEvent).2.1.genPhoton2 = zeroV := by
  have h := (genTruthLoop_no_photon K cfg.useDeepCSV_ iEvent.allGenParts hno (resetTruth s)).2.1
  simp only [truthPhotons, Prod.mk.injEq] at h
  obtain ⟨h1, h2, -⟩ := h
  simp only [analyzeTruth]
  exact ⟨h1, h2⟩

/-- C24. Phantom truth match at the origin: in an event that passes the vertex
gate and has no Higgs-daughter photon, truth photon 1 is the zero vector when
the photon loop runs; a selected photon with eta^2 + phi^2 < 0.04 (deltaR to the
zero vector below 0.2) is then stored in reconstructed slot 1, its two ratios
are quotients by the transverse momentum 0 of the zero vector, and its eleven
shower-shape, isolation and kinematic observations are pushed: the
observations the event pushes to the histograms of the photon loop are, photon
by photon, the mark of a passing photon followed, for a photon inside that
circle, by those eleven samples. The external library is taken to give the
zero vector pt 0 and, for the photons of the event, deltaR to the zero vector
below 0.2 exactly when eta^2 + phi^2 < 0.04. -/
theorem C24_phantom_truth_match (K : Ext) (cfg : Config) (s : State) (iEvent : Event)
    (hPt : K.Pt zeroV = 0)
    (hD : ∀ ph ∈ iEvent.photons,
      (K.DeltaR zeroV (.SetPtEtaPhiM ph.pt ph.eta ph.phi 0) < 0.2
        ↔ ph.eta ^ 2 + ph.phi ^ 2 < 0.04))
    (ha : aborted iEvent = false)
    (hno : ∀ p ∈ iEvent.allGenParts, isHiggsPhoton p = false)
    (hlen : iEvent.photons.length < 2 ^ 31) :
    (analyzeTruth K cfg (resetTruth s) iEvent).2.1.genPhoton1 = zeroV
    ∧ (∀ (acc : PhotonAcc) (ph : Photon), acc.s.genPhoton1 = zeroV → ph ∈ iEvent.photons →
        passCuts cfg ph = true → ph.eta ^ 2 + ph.phi ^ 2 < 0.04 →
        (photonStep K cfg acc ph).s.recoPhoton1 = .SetPtEtaPhiM ph.pt ph.eta ph.phi 0
        ∧ (photonStep K cfg acc ph).s.recoPhoton1_raw
            = .SetPtEtaPhiM (ph.superCluster_energy / K.cosh ph.superCluster_eta)
                ph.superCluster_eta ph.superCluster_phi 0
        ∧ (photonStep K cfg acc ph).Rpt1
            = fdiv (K.Pt (.SetPtEtaPhiM ph.pt ph.eta ph.phi 0)) 0
        ∧ (photonStep K cfg acc ph).Rpt1_raw
            = fdiv (K.Pt (.SetPtEtaPhiM (ph.superCluster_energy / K.cosh ph.superCluster_eta)
                ph.superCluster_eta ph.superCluster_phi 0)) 0
        ∧ (photonStep K cfg acc ph).obs
            = acc.obs ++ [Obs.fill .h_nPassingPho_ 1] ++ matchedObs ph)
    ∧ ∃ (s1 : State) (obs : List Obs), analyze K cfg s iEvent = some (s1, obs)
        ∧ obs.filter (inHists photonHists)
            = iEvent.photons.flatMap fun ph =>
                if passCuts cfg ph = true then
                  [Obs.fill .h_nPassingPho_ 1]
                    ++ (if ph.eta ^ 2 + ph.phi ^ 2 < 0.04 then matchedObs ph else [])
                else [] := by
  obtain ⟨g1, g2⟩ := analyzeTruth_no_photon K cfg s iEvent hno
  refine ⟨g1, ?_, ?_⟩
  · intro acc ph hacc hmem hp hnear
    have h1 : K.DeltaR acc.s.genPhoton1 (.SetPtEtaPhiM ph.pt ph.eta ph.phi 0) < 0.2 := by
      rw [hacc]
      exact (hD ph hmem).mpr hnear
    rw [photonStep_match1 K cfg acc ph hp h1]
    refine ⟨rfl, rfl, ?_, ?_, rfl⟩
    · show fdiv _ (K.Pt acc.s.genPhoton1) = _
      rw [hacc, hPt]
    · show fdiv _ (K.Pt acc.s.genPhoton1) = _
      rw [hacc, hPt]
  · obtain ⟨s1, obs, h1, h2⟩ := analyze_photon_obs K cfg s iEvent ha
    refine ⟨s1, obs, h1, ?_⟩
    rw [h2]
    unfold afterPhotons
    rw [photonLoop_obs_eq K cfg iEvent.photons _ hlen, g1, g2]
    apply List.flatMap_congr
    intro ph hmem
    simp only [photonObs, or_self, hD ph hmem]

theorem phantomEvent_not_aborted : aborted phantomEvent = false := by
  norm_num [aborted, phantomEvent, emptyEvent, vertexLoop, toInt32]

/-- Witness of C24 on `phantomEvent`: the photon at (eta, phi) = (0.1, 0) pushes
its eleven samples, the photon at (1, 0) only the mark of a passing photon. -/
theorem C24_phantom_truth_match_witness :
    sampleExt.Pt zeroV = 0
    ∧ (∀ ph ∈ phantomEvent.photons,
        (sampleExt.DeltaR zeroV (.SetPtEtaPhiM ph.pt ph.eta ph.phi 0) < 0.2
          ↔ ph.eta ^ 2 + ph.phi ^ 2 < 0.04))
    ∧ aborted phantomEvent = false
    ∧ (∀ p ∈ phantomEvent.allGenParts, isHiggsPhoton p = false)
    ∧ phantomEvent.photons.length < 2 ^ 31
    ∧ ∃ (s1 : State) (obs : List Obs),
        analyze sampleExt sampleConfig sampleState phantomEvent = some (s1, obs)
        ∧ obs.filter (inHists photonHists)
            = [Obs.fill .h_nPassingPho_ 1] ++ matchedObs (mkPhoton 40 0.1 0)
                ++ [Obs.fill .h_nPassingPho_ 1] := by
  have hPt : sampleExt.Pt zeroV = 0 := by norm_num [sampleExt, zeroV, TLorentzVector.ptQ]
  have hD : ∀ ph ∈ phantomEvent.photons,
      (sampleExt.DeltaR zeroV (.SetPtEtaPhiM ph.pt ph.eta ph.phi 0) < 0.2
        ↔ ph.eta ^ 2 + ph.phi ^ 2 < 0.04) := by
    intro ph hph
    simp only [phantomEvent, emptyEvent, List.mem_cons, List.mem_singleton, List.not_mem_nil,
      or_false] at hph
    rcases hph with e | e <;> subst e <;>
      norm_num [sampleExt, zeroV, mkPhoton, TLorentzVector.etaQ, TLorentzVector.phiQ, abs_div,
        Nat.abs_ofNat]
  have hno : ∀ p ∈ phantomEvent.allGenParts, isHiggsPhoton p = false := by
    simp [phantomEvent, emptyEvent]
  have hlen : phantomEvent.photons.length < 2 ^ 31 := by
    norm_num [phantomEvent, emptyEvent]
  obtain ⟨-, -, s1, obs, h1, h2⟩ := C24_phantom_truth_match sampleExt sampleConfig sampleState
    phantomEvent hPt hD phantomEvent_not_aborted hno hlen
  refine ⟨hPt, hD, phantomEvent_not_aborted, hno, hlen, s1, obs, h1, ?_⟩
  rw [h2]
  norm_num [phantomEvent, emptyEvent,
    passCuts, toFloat_40, toFloat_45, toFloat_50, toFloat_60, Dbl.gt,
    sampleConfig, mkPhoton, abs_div, Nat.abs_ofNat,
    matchedObs]

/-! ## C25: the photon-count observation -/

theorem pushed_photonObs_nPassing (K : Ext) (cfg : Config) (g1 g2 : TLorentzVector)
    (ph : Photon) :
    pushed .h_nPassingPho_ (photonObs K cfg g1 g2 ph)
      = if passCuts cfg ph = true then [1] else [] := by
  simp only [photonObs]
  split_ifs <;> simp [pushed, matchedObs]

theorem pushed_flatMap_nPassing (K : Ext) (cfg : Config) (g1 g2 : TLorentzVector)
    (photons : List Photon) :
    pushed .h_nPassingPho_ (photons.flatMap (photonObs K cfg g1 g2))
      = List.replicate (photons.filter (passCuts cfg)).length 1 := by
  induction photons with
  | nil => rfl
  | cons ph rest ih =>
    rw [List.flatMap_cons, pushed_append, ih, pushed_photonObs_nPassing, List.filter_cons]
    split_ifs <;> rfl

theorem pushed_nPho (K : Ext) (cfg : Config) (s : State) (iEvent : Event)
    (h : aborted iEvent = false) :
    ∃ (s1 : State) (obs : List Obs), analyze K cfg s iEvent = some (s1, obs)
      ∧ pushed .h_nPho_ obs = [0] := by
  refine ⟨_, _, analyze_of_not_aborted K cfg s iEvent h, ?_⟩
  rw [pushed_append, pushed_append, pushed_analyzeTruth _ _ _ _ _ (by decide),
    pushed_analyzeReco _ _ _ _ _ (by decide), pushed_append, pushed_append, pushed_append,
    pushed_metObs _ _ (by decide) (by decide)]
  simp [pushed, jetSummary]

/-- C25. Photon-count observation is constant: in every event that passes the
vertex gate (with fewer than 2^31 photons, so that `int(photons.size())` is the
size), `analyze` returns, the only sample pushed to `h_nPho_` is 0 whatever the
photons are, the samples pushed to `h_nPassingPho_` are one value 1 per photon
that passes the selection, and a photon that fails the selection leaves the
loop state, its observations included, as it was. -/
theorem C25_photon_count_constant (K : Ext) (cfg : Config) (s : State) (iEvent : Event)
    (ha : aborted iEvent = false) (hlen : iEvent.photons.length < 2 ^ 31) :
    (∃ (s1 : State) (obs : List Obs), analyze K cfg s iEvent = some (s1, obs)
      ∧ pushed .h_nPho_ obs = [0]
      ∧ pushed .h_nPassingPho_ obs
          = List.replicate (iEvent.photons.filter (passCuts cfg)).length 1)
    ∧ ∀ (acc : PhotonAcc) (ph : Photon), passCuts cfg ph = false →
        photonStep K cfg acc ph = acc := by
  refine ⟨?_, fun acc ph h => photonStep_of_fail K cfg acc ph h⟩
  obtain ⟨s1, obs, h1, h2⟩ := pushed_nPho K cfg s iEvent ha
  obtain ⟨s2, obs2, g1, g2⟩ := analyze_photon_obs K cfg s iEvent ha
  have e : obs2 = obs := congrArg Prod.snd (Option.some.inj (g1.symm.trans h1))
  rw [e] at g2
  refine ⟨s1, obs, h1, h2, ?_⟩
  rw [← pushed_filter_inHists photonHists .h_nPassingPho_ (by decide) obs, g2]
  unfold afterPhotons
  rw [photonLoop_obs_eq K cfg iEvent.photons _ hlen, pushed_flatMap_nPassing]

/-- Witness of C25 on `sampleEvent`: two photons pass, two values 1 are pushed
to `h_nPassingPho_` and the value 0 to `h_nPho_`. -/
theorem C25_photon_count_constant_witness :
    aborted sampleEvent = false ∧ sampleEvent.photons.length < 2 ^ 31
    ∧ (sampleEvent.photons.filter (passCuts sampleConfig)).length = 2
    ∧ ∃ (s1 : State) (obs : List Obs),
      analyze sampleExt sampleConfig sampleState sampleEvent = some (s1, obs)
      ∧ pushed .h_nPho_ obs = [0]
      ∧ pushed .h_nPassingPho_ obs
          = List.replicate (sampleEvent.photons.filter (passCuts sampleConfig)).length 1 :=
  ⟨sampleEvent_not_aborted, by norm_num [sampleEvent],
    by norm_num [sampleEvent, passCuts, toFloat_40, toFloat_45, toFloat_50, toFloat_60, Dbl.gt,
      sampleConfig, mkPhoton, abs_div, Nat.abs_ofNat],
    (C25_photon_count_constant sampleExt sampleConfig sampleState sampleEvent
      sampleEvent_not_aborted (by norm_num [sampleEvent])).1⟩

/-! ## C26: the ME0 qualifier without a usable segment -/

theorem me0_fold_none (K : Ext) (ps : List (MuonChamberMatch × MuonSegmentMatch)) (v : ME0Vars)
    (h : (ps.filter fun p => decide (p.1.detector = 5)) = []) :
    ps.foldl (fun w p => me0SegmentStep K p.1 w p.2) v = v := by
  induction ps generalizing v with
  | nil => rfl
  | cons p rest ih =>
    have hp : ¬ p.1.detector = 5 := by
      intro hc
      simp [List.filter_cons, hc] at h
    have hrest : (rest.filter fun p => decide (p.1.detector = 5)) = [] := by
      simpa [List.filter_cons, hp] using h
    rw [List.foldl_cons]
    simp only [me0SegmentStep, hp, if_false]
    exact ih v hrest

/-- C26. ME0 qualifier with no usable segment: for an ME0 muon without any
segment match inside a chamber of detector id 5 (a muon without matches
included), the five measured quantities keep the sentinel 999 and
`isME0MuonSel` returns (999 < pullXCut or 999 < dXCut) and (999 < pullYCut or
999 < dYCut) and (999 < dPhi); so it fails whenever dPhi <= 999 and passes when
all five cuts exceed 999. -/
theorem C26_me0_no_segment (K : Ext) (muon : Muon) (pullXCut dXCut pullYCut dYCut dPhi : ℚ)
    (hme0 : muon.isME0Muon = true)
    (hnone : ((me0Pairs muon).filter fun p => decide (p.1.detector = 5)) = []) :
    muon.chamberMatches.foldl (me0ChamberStep K)
        { deltaX := 999, deltaY := 999, pullX := .fin 999, pullY := .fin 999, deltaPhi := 999 }
      = { deltaX := 999, deltaY := 999, pullX := .fin 999, pullY := .fin 999, deltaPhi := 999 }
    ∧ isME0MuonSel K muon pullXCut dXCut pullYCut dYCut dPhi =
        ((decide (999 < pullXCut) || decide (999 < dXCut))
          && (decide (999 < pullYCut) || decide (999 < dYCut))
          && decide (999 < dPhi))
    ∧ (dPhi ≤ 999 → isME0MuonSel K muon pullXCut dXCut pullYCut dYCut dPhi = false)
    ∧ (999 < pullXCut → 999 < dXCut → 999 < pullYCut → 999 < dYCut → 999 < dPhi →
        isME0MuonSel K muon pullXCut dXCut pullYCut dYCut dPhi = true) := by
  have key := me0_fold_none K (me0Pairs muon)
    { deltaX := 999, deltaY := 999, pullX := .fin 999, pullY := .fin 999, deltaPhi := 999 }
    hnone
  simp only [me0Pairs] at key
  have hfold : muon.chamberMatches.foldl (me0ChamberStep K)
      { deltaX := 999, deltaY := 999, pullX := .fin 999, pullY := .fin 999, deltaPhi := 999 }
      = { deltaX := 999, deltaY := 999, pullX := .fin 999, pullY := .fin 999,
          deltaPhi := 999 } := by
    rw [me0_fold_pairs, key]
  have hval : isME0MuonSel K muon pullXCut dXCut pullYCut dYCut dPhi =
      ((decide (999 < pullXCut) || decide (999 < dXCut))
        && (decide (999 < pullYCut) || decide (999 < dYCut))
        && decide (999 < dPhi)) := by
    simp only [isME0MuonSel, hme0, if_true]
    rw [hfold]
    rfl
  refine ⟨hfold, hval, ?_, ?_⟩
  · intro h
    have hd : ¬ (999 < dPhi) := not_lt.mpr h
    rw [hval]
    simp [hd]
  · intro h1 h2 h3 h4 h5
    rw [hval]
    simp [h1, h2, h3, h4, h5]

/-- Witness of C26 on `me0MuonNoSegment`: with all five cuts at 1000 the muon
passes although its only match is in a chamber of detector id 3. -/
theorem C26_me0_no_segment_witness :
    me0MuonNoSegment.isME0Muon = true
    ∧ ((me0Pairs me0MuonNoSegment).filter fun p => decide (p.1.detector = 5)) = []
    ∧ isME0MuonSel sampleExt me0MuonNoSegment 1000 1000 1000 1000 1000 = true
    ∧ isME0MuonSel sampleExt me0MuonNoSegment 1000 1000 1000 1000 999 = false :=
  have hnone : ((me0Pairs me0MuonNoSegment).filter fun p => decide (p.1.detector = 5)) = [] := by
    simp [me0Pairs, me0MuonNoSegment]
  ⟨rfl, hnone,
    (C26_me0_no_segment sampleExt me0MuonNoSegment 1000 1000 1000 1000 1000 rfl hnone).2.2.2
      (by norm_num) (by norm_num) (by norm_num) (by norm_num) (by norm_num),
    (C26_me0_no_segment sampleExt me0MuonNoSegment 1000 1000 1000 1000 999 rfl hnone).2.2.1
      (le_refl _)⟩

/-! ## C27: the last match of a slot wins -/

theorem photonStep_slot1_of_match (K : Ext) (cfg : Config) (acc : PhotonAcc) (ph : Photon)
    (h : matchesSlot1 K cfg acc.s.genPhoton1 ph = true) :
    slot1 (photonStep K cfg acc ph) = slotOf K acc.s.genPhoton1 ph := by
  simp only [matchesSlot1, Bool.and_eq_true, decide_eq_true_eq] at h
  rw [photonStep_match1 K cfg acc ph h.1 h.2]
  rfl

theorem photonStep_slot1_of_not_match (K : Ext) (cfg : Config) (acc : PhotonAcc) (ph : Photon)
    (h : matchesSlot1 K cfg acc.s.genPhoton1 ph = false) :
    slot1 (photonStep K cfg acc ph) = slot1 acc := by
  by_cases hp : passCuts cfg ph = true
  · have h1 : ¬ K.DeltaR acc.s.genPhoton1 (.SetPtEtaPhiM ph.pt ph.eta ph.phi 0) < 0.2 := by
      intro hc
      simp [matchesSlot1, hp, hc] at h
    by_cases h2 : K.DeltaR acc.s.genPhoton2 (.SetPtEtaPhiM ph.pt ph.eta ph.phi 0) < 0.2
    · rw [photonStep_match2 K cfg acc ph hp h1 h2]
      rfl
    · rw [photonStep_unmatched K cfg acc ph hp h1 h2]
      rfl
  · rw [photonStep_of_fail K cfg acc ph (by simpa using hp)]

theorem photonStep_slot2_of_match (K : Ext) (cfg : Config) (acc : PhotonAcc) (ph : Photon)
    (h : matchesSlot2 K cfg acc.s.genPhoton1 acc.s.genPhoton2 ph = true) :
    slot2 (photonStep K cfg acc ph) = slotOf K acc.s.genPhoton2 ph := by
  simp only [matchesSlot2, Bool.and_eq_true, decide_eq_true_eq, Bool.not_eq_true',
    decide_eq_false_iff_not] at h
  rw [photonStep_match2 K cfg acc ph h.1.1 h.1.2 h.2]
  rfl

theorem photonStep_slot2_of_not_match (K : Ext) (cfg : Config) (acc : PhotonAcc) (ph : Photon)
    (h : matchesSlot2 K cfg acc.s.genPhoton1 acc.s.genPhoton2 ph = false) :
    slot2 (photonStep K cfg acc ph) = slot2 acc := by
  by_cases hp : passCuts cfg ph = true
  · by_cases h1 : K.DeltaR acc.s.genPhoton1 (.SetPtEtaPhiM ph.pt ph.eta ph.phi 0) < 0.2
    · rw [photonStep_match1 K cfg acc ph hp h1]
      rfl
    · have h2 : ¬ K.DeltaR acc.s.genPhoton2 (.SetPtEtaPhiM ph.pt ph.eta ph.phi 0) < 0.2 := by
        intro hc
        simp [matchesSlot2, hp, h1, hc] at h
      rw [photonStep_unmatched K cfg acc ph hp h1 h2]
      rfl
  · rw [photonStep_of_fail K cfg acc ph (by simpa using hp)]

theorem photonFold_slot1 (K : Ext) (cfg : Config) (photons : List Photon) (acc : PhotonAcc)
    (p : Photon)
    (h : (photons.filter (matchesSlot1 K cfg acc.s.genPhoton1)).getLast? = some p) :
    slot1 (photons.foldl (photonStep K cfg) acc) = slotOf K acc.s.genPhoton1 p := by
  induction photons using List.reverseRecOn with
  | nil => simp at h
  | append_singleton init q ih =>
    rw [List.foldl_append, List.foldl_cons, List.foldl_nil]
    have hg := (photonFold_genPhotons K cfg init acc).1
    by_cases hq : matchesSlot1 K cfg acc.s.genPhoton1 q = true
    · rw [List.filter_append, List.filter_cons_of_pos hq, List.filter_nil,
        List.getLast?_concat] at h
      have hpq : q = p := Option.some.inj h
      subst hpq
      rw [photonStep_slot1_of_match K cfg _ q (by rw [hg]; exact hq), hg]
    · rw [List.filter_append, List.filter_cons_of_neg hq, List.filter_nil,
        List.append_nil] at h
      rw [photonStep_slot1_of_not_match K cfg _ q (by rw [hg]; simpa using hq)]
      exact ih h

theorem photonFold_slot2 (K : Ext) (cfg : Config) (photons : List Photon) (acc : PhotonAcc)
    (p : Photon)
    (h : (photons.filter (matchesSlot2 K cfg acc.s.genPhoton1 acc.s.genPhoton2)).getLast?
      = some p) :
    slot2 (photons.foldl (photonStep K cfg) acc) = slotOf K acc.s.genPhoton2 p := by
  induction photons using List.reverseRecOn with
  | nil => simp at h
  | append_singleton init q ih =>
    rw [List.foldl_append, List.foldl_cons, List.foldl_nil]
    have hg := photonFold_genPhotons K cfg init acc
    by_cases hq : matchesSlot2 K cfg acc.s.genPhoton1 acc.s.genPhoton2 q = true
    · rw [List.filter_append, List.filter_cons_of_pos hq, List.filter_nil,
        List.getLast?_concat] at h
      have hpq : q = p := Option.some.inj h
      subst hpq
      rw [photonStep_slot2_of_match K cfg _ q (by rw [hg.1, hg.2]; exact hq), hg.2]
    · rw [List.filter_append, List.filter_cons_of_neg hq, List.filter_nil,
        List.append_nil] at h
      rw [photonStep_slot2_of_not_match K cfg _ q (by rw [hg.1, hg.2]; simpa using hq)]
      exact ih h

/-- The slots after the photon loop of `analyze`, in terms of the truth photons
left by the truth loop. -/
theorem afterPhotons_slots (K : Ext) (cfg : Config) (s : State) (iEvent : Event)
    (hlen : iEvent.photons.length < 2 ^ 31) :
    (∀ p : Photon,
        (iEvent.photons.filter (matchesSlot1 K cfg
          (analyzeTruth K cfg (resetTruth s) iEvent).2.1.genPhoton1)).getLast? = some p →
        slot1 (afterPhotons K cfg s iEvent)
          = slotOf K (analyzeTruth K cfg (resetTruth s) iEvent).2.1.genPhoton1 p)
    ∧ (∀ p : Photon,
        (iEvent.photons.filter (matchesSlot2 K cfg
          (analyzeTruth K cfg (resetTruth s) iEvent).2.1.genPhoton1
          (analyzeTruth K cfg (resetTruth s) iEvent).2.1.genPhoton2)).getLast? = some p →
        slot2 (afterPhotons K cfg s iEvent)
          = slotOf K (analyzeTruth K cfg (resetTruth s) iEvent).2.1.genPhoton2 p) := by
  constructor
  · intro p h
    simp only [afterPhotons, photonLoop]
    rw [take_toInt32 _ hlen]
    exact photonFold_slot1 K cfg iEvent.photons _ p h
  · intro p h
    simp only [afterPhotons, photonLoop]
    rw [take_toInt32 _ hlen]
    exact photonFold_slot2 K cfg iEvent.photons _ p h

theorem diphoton_slots (K : Ext) (acc : PhotonAcc) :
    (diphoton K acc).1.recoPhoton1 = acc.s.recoPhoton1
      ∧ (diphoton K acc).1.recoPhoton2 = acc.s.recoPhoton2
      ∧ (diphoton K acc).1.recoPhoton1_raw = acc.s.recoPhoton1_raw
      ∧ (diphoton K acc).1.recoPhoton2_raw = acc.s.recoPhoton2_raw := by
  simp only [diphoton]
  split_ifs <;> exact ⟨rfl, rfl, rfl, rfl⟩

theorem analyze_slots (K : Ext) (cfg : Config) (s : State) (iEvent : Event)
    (ha : aborted iEvent = false) :
    ∃ (s1 : State) (obs : List Obs), analyze K cfg s iEvent = some (s1, obs)
      ∧ s1.recoPhoton1 = (afterPhotons K cfg s iEvent).s.recoPhoton1
      ∧ s1.recoPhoton2 = (afterPhotons K cfg s iEvent).s.recoPhoton2
      ∧ s1.recoPhoton1_raw = (afterPhotons K cfg s iEvent).s.recoPhoton1_raw
      ∧ s1.recoPhoton2_raw = (afterPhotons K cfg s iEvent).s.recoPhoton2_raw
      ∧ s1.genPhoton1 = (analyzeTruth K cfg (resetTruth s) iEvent).2.1.genPhoton1
      ∧ s1.genPhoton2 = (analyzeTruth K cfg (resetTruth s) iEvent).2.1.genPhoton2 := by
  refine ⟨_, _, analyze_of_not_aborted K cfg s iEvent ha, ?_⟩
  have h := diphoton_slots K (afterPhotons K cfg s iEvent)
  have e := analyzeReco_truthPhotons K cfg (analyzeTruth K cfg (resetTruth s) iEvent).2.1 iEvent
  simp only [truthPhotons, Prod.mk.injEq] at e
  exact ⟨h.1, h.2.1, h.2.2.1, h.2.2.2, e.1, e.2.1⟩

theorem closeTruthEvent_not_aborted : aborted closeTruthEvent = false := by
  norm_num [aborted, closeTruthEvent, emptyEvent, vertexLoop, toInt32]

theorem closeTruth_truth (iEvent : Event)
    (h : iEvent.allGenParts = [higgsDaughter 22 50 0 0 0, higgsDaughter 22 60 0.3 0 0]) :
    (analyzeTruth sampleExt sampleConfig (resetTruth sampleState) iEvent).2.1.genPhoton1
        = .SetPtEtaPhiM 50 0 0 0
    ∧ (analyzeTruth sampleExt sampleConfig (resetTruth sampleState) iEvent).2.1.genPhoton2
        = .SetPtEtaPhiM 60 0.3 0 0 := by
  constructor <;>
    norm_num [analyzeTruth, h, genTruthLoop, genTruthStep, higgsDaughter, resetTruth,
      sampleConfig]

/-- C27, as stated for slot 2, fails: in `closeTruthEvent` the two photons are
selected and both lie within 0.2 of truth photon 2, the second one also within
0.2 of truth photon 1; after `analyze` reconstructed photon 2 is the first
photon, not the last photon within 0.2 of truth photon 2. -/
theorem C27_counterexample_slot2_not_last :
    aborted closeTruthEvent = false
    ∧ closeTruthEvent.photons = [mkPhoton 40 0.4 0, mkPhoton 45 0.15 0]
    ∧ passCuts sampleConfig (mkPhoton 40 0.4 0) = true
    ∧ passCuts sampleConfig (mkPhoton 45 0.15 0) = true
    ∧ sampleExt.DeltaR (.SetPtEtaPhiM 60 0.3 0 0) (.SetPtEtaPhiM 40 0.4 0 0) < 0.2
    ∧ sampleExt.DeltaR (.SetPtEtaPhiM 60 0.3 0 0) (.SetPtEtaPhiM 45 0.15 0 0) < 0.2
    ∧ ∃ (s1 : State) (obs : List Obs),
        analyze sampleExt sampleConfig sampleState closeTruthEvent = some (s1, obs)
        ∧ s1.genPhoton2 = .SetPtEtaPhiM 60 0.3 0 0
        ∧ s1.recoPhoton2 = .SetPtEtaPhiM 40 0.4 0 0
        ∧ s1.recoPhoton2 ≠ .SetPtEtaPhiM 45 0.15 0 0 := by
  obtain ⟨s1, obs, h1, -, h3, -, -, -, h7⟩ :=
    analyze_slots sampleExt sampleConfig sampleState closeTruthEvent closeTruthEvent_not_aborted
  have ht := closeTruth_truth closeTruthEvent rfl
  have hlast : (closeTruthEvent.photons.filter (matchesSlot2 sampleExt sampleConfig
        (analyzeTruth sampleExt sampleConfig (resetTruth sampleState)
          closeTruthEvent).2.1.genPhoton1
        (analyzeTruth sampleExt sampleConfig (resetTruth sampleState)
          closeTruthEvent).2.1.genPhoton2)).getLast? = some (mkPhoton 40 0.4 0) := by
    rw [ht.1, ht.2]
    norm_num [closeTruthEvent, emptyEvent, List.filter, matchesSlot2,
      passCuts, toFloat_40, toFloat_45, toFloat_50, toFloat_60, Dbl.gt,
      sampleConfig,
      mkPhoton, sampleExt, TLorentzVector.etaQ, TLorentzVector.phiQ, abs_div, Nat.abs_ofNat]
  have hs := (afterPhotons_slots sampleExt sampleConfig sampleState closeTruthEvent
    (by norm_num [closeTruthEvent, emptyEvent])).2 _ hlast
  have hr : (afterPhotons sampleExt sampleConfig sampleState closeTruthEvent).s.recoPhoton2
      = .SetPtEtaPhiM 40 0.4 0 0 := by
    have := congrArg Prod.fst hs
    simpa [slot2, slotOf, mkPhoton] using this
  have e2 : s1.recoPhoton2 = .SetPtEtaPhiM 40 0.4 0 0 := h3.trans hr
  refine ⟨closeTruthEvent_not_aborted, rfl, ?_, ?_, ?_, ?_, s1, obs, h1, h7.trans ht.2, e2, ?_⟩
  · norm_num [passCuts, toFloat_40, toFloat_45, toFloat_50, toFloat_60, Dbl.gt,
      sampleConfig, mkPhoton, abs_div, Nat.abs_ofNat]
  · norm_num [passCuts, toFloat_40, toFloat_45, toFloat_50, toFloat_60, Dbl.gt,
      sampleConfig, mkPhoton, abs_div, Nat.abs_ofNat]
  · norm_num [sampleExt, TLorentzVector.etaQ, TLorentzVector.phiQ, abs_div, Nat.abs_ofNat]
  · norm_num [sampleExt, TLorentzVector.etaQ, TLorentzVector.phiQ, abs_div, Nat.abs_ofNat]
  · rw [e2]
    intro hc
    injection hc with a b c d
    norm_num at a

/-- C27 (amended). Last reconstructed match wins per slot: in the photon loop
of `analyze` (fewer than 2^31 photons), reconstructed photon 1, its raw vector
and its two ratios are those of the last photon, in collection order, that is
selected and within deltaR < 0.2 of truth photon 1; reconstructed photon 2, its
raw vector and its two ratios are those of the last photon that is selected,
not within 0.2 of truth photon 1 and within 0.2 of truth photon 2. -/
theorem C27_last_match_wins (K : Ext) (cfg : Config) (s : State) (iEvent : Event)
    (hlen : iEvent.photons.length < 2 ^ 31) :
    (∀ p : Photon,
        (iEvent.photons.filter fun ph =>
          passCuts cfg ph
            && decide (K.DeltaR (analyzeTruth K cfg (resetTruth s) iEvent).2.1.genPhoton1
                (.SetPtEtaPhiM ph.pt ph.eta ph.phi 0) < 0.2)).getLast? = some p →
        slot1 (afterPhotons K cfg s iEvent)
          = slotOf K (analyzeTruth K cfg (resetTruth s) iEvent).2.1.genPhoton1 p)
    ∧ (∀ p : Photon,
        (iEvent.photons.filter fun ph =>
          passCuts cfg ph
            && !decide (K.DeltaR (analyzeTruth K cfg (resetTruth s) iEvent).2.1.genPhoton1
                (.SetPtEtaPhiM ph.pt ph.eta ph.phi 0) < 0.2)
            && decide (K.DeltaR (analyzeTruth K cfg (resetTruth s) iEvent).2.1.genPhoton2
                (.SetPtEtaPhiM ph.pt ph.eta ph.phi 0) < 0.2)).getLast? = some p →
        slot2 (afterPhotons K cfg s iEvent)
          = slotOf K (analyzeTruth K cfg (resetTruth s) iEvent).2.1.genPhoton2 p) :=
  afterPhotons_slots K cfg s iEvent hlen

/-- Witness of the amended C27 on `overwriteEvent`: both photons are within 0.2
of truth photon 1 and slot 1 holds the second one. -/
theorem C27_last_match_wins_witness :
    overwriteEvent.photons.length < 2 ^ 31
    ∧ overwriteEvent.photons = [mkPhoton 40 0.05 0, mkPhoton 45 0.1 0]
    ∧ slot1 (afterPhotons sampleExt sampleConfig sampleState overwriteEvent)
        = slotOf sampleExt (.SetPtEtaPhiM 50 0 0 0) (mkPhoton 45 0.1 0) := by
  have hlen : overwriteEvent.photons.length < 2 ^ 31 := by
    norm_num [overwriteEvent, closeTruthEvent, emptyEvent]
  have ht := (closeTruth_truth overwriteEvent rfl).1
  have key := (C27_last_match_wins sampleExt sampleConfig sampleState overwriteEvent hlen).1
    (mkPhoton 45 0.1 0) (by
      rw [ht]
      norm_num [overwriteEvent, closeTruthEvent, emptyEvent, List.filter,
        passCuts, toFloat_40, toFloat_45, toFloat_50, toFloat_60, Dbl.gt,
        sampleConfig, mkPhoton, sampleExt, TLorentzVector.etaQ, TLorentzVector.phiQ, abs_div,
        Nat.abs_ofNat])
  refine ⟨hlen, rfl, ?_⟩
  rw [key, ht]

end BasicPatDistrib
